import Mathlib

/-!
# ofxV4L2: a verification development

A shallow embedding of `src/ofxV4L2.cpp` / `src/ofxV4L2.h` (a V4L2 capture class for
openFrameworks) and theorems about it.

Modelling conventions

* `int` values are `Int`; the result of every `int` operation is reduced to the
  two's-complement range by `toInt32`.  `unsigned int` / `__u32` values are `Nat`,
  reduced by `% 2^32`.
* Memory that is read or written through a pointer is a function `Int → Byte` giving the
  byte found at each offset from the pointer.
* The operating system and the device are a script of replies, consumed one per call, and
  every call made is appended to a trace.
-/

namespace OfxV4L2

/-! ## Machine integers -/

/-- An `unsigned char`. -/
abbrev Byte := Fin 256

/-- Reduction of a mathematical integer to the value a 32-bit `int` holds. -/
def toInt32 (x : Int) : Int := (x + 2147483648) % 4294967296 - 2147483648

/-- Conversion of an `int` to `unsigned int`. -/
def toUInt32 (x : Int) : Nat := (x % 4294967296).toNat

/-! ## Loops -/

/-- The loop `for (i = 0; i < n; i++) body(i)`; the body runs at `i = 0, 1, ..., n-1`
in that order. -/
def forLoop {σ : Type} (body : Int → σ → σ) : Nat → σ → σ
  | 0, s => s
  | n + 1, s => body (n : Int) (forLoop body n s)

/-- Store through a pointer: `a[i] = v`. -/
def store (a : Int → Byte) (i : Int) (v : Byte) : Int → Byte :=
  fun j => if j = i then v else a j

/-! ## The object -/

/-- The `struct buffer` of the header: a start address and a length. -/
structure buffer where
  start : Nat
  length : Nat
deriving DecidableEq, Repr

/-- The data members of `class ofxV4L2`.  `imageSize` is the element count that was given
to `new unsigned char[...]` when `image` was allocated (the object itself only keeps the
pointer); `image` is the content found through that pointer.  `buffers_ptr` is the
pointer `buffers` and `buffers` is the array it points to. -/
structure State where
  image : Int → Byte
  imageSize : Int
  camWidth : Int
  camHeight : Int
  dev_name : String
  io : Int
  fd : Int
  buffers_ptr : Nat
  buffers : List buffer
  n_buffers : Int
  v4l2framerate : Int
  newframe : Bool

/-- The macro `IO_METHOD_READ`. -/
def IO_METHOD_READ : Int := 0
/-- The macro `IO_METHOD_MMAP`. -/
def IO_METHOD_MMAP : Int := 1
/-- The macro `IO_METHOD_USERPTR`. -/
def IO_METHOD_USERPTR : Int := 2

/-! ## `process_image` -/

/-- The body of the inner loop of `process_image`:
`image[col + row * camWidth] = *(y + 2*(col + (row*camWidth)))`, all in `int`. -/
def process_pixel (camWidth : Int) (y : Int → Byte) (row col : Int)
    (image : Int → Byte) : Int → Byte :=
  store image (toInt32 (col + toInt32 (row * camWidth)))
    (y (toInt32 (2 * toInt32 (col + toInt32 (row * camWidth)))))

/-- The two nested loops of `process_image` acting on the content of `image`. -/
def process_rows (camWidth camHeight : Int) (y : Int → Byte)
    (image : Int → Byte) : Int → Byte :=
  forLoop (fun row img =>
    forLoop (fun col img2 => process_pixel camWidth y row col img2) camWidth.toNat img)
    camHeight.toNat image

/-- The method `ofxV4L2::process_image(p, length)`.  `y` is the memory seen through `p`.
The argument `length` is not used by the source. -/
def process_image (s : State) (y : Int → Byte) (_length : Int) : State :=
  { s with image := process_rows s.camWidth s.camHeight y s.image }

/-! ## The operating system and the device -/

/-- The `ioctl` request codes used by the source. -/
inductive Request
  | VIDIOC_QUERYCAP | VIDIOC_S_PARM | VIDIOC_G_PARM | VIDIOC_CROPCAP | VIDIOC_S_CROP
  | VIDIOC_S_FMT | VIDIOC_REQBUFS | VIDIOC_QUERYBUF | VIDIOC_QBUF | VIDIOC_DQBUF
  | VIDIOC_STREAMON | VIDIOC_STREAMOFF | VIDIOC_S_CTRL
deriving DecidableEq, Repr

/-- A `struct v4l2_rect`. -/
structure v4l2_rect where
  left : Int := 0
  top : Int := 0
  width : Int := 0
  height : Int := 0
deriving DecidableEq, Repr

/-- The block of memory handed to `ioctl`: the fields of the `v4l2_*` structures that the
source reads or writes.  A request uses the fields of its own structure
(`v4l2_buffer`: type, memory, index, m, length; `v4l2_requestbuffers`: count, type, memory;
`v4l2_capability`: capabilities; `v4l2_format`: type, width, height, pixelformat, field,
bytesperline, sizeimage; `v4l2_streamparm`: type, capability, numerator, denominator;
`v4l2_cropcap`: type, defrect; `v4l2_crop`: type, c; `v4l2_control`: id, value).
The field `m` is the union of `m.offset` and `m.userptr`.  All fields default to zero,
which is what `CLEAR` leaves. -/
structure Arg where
  type : Nat := 0
  memory : Nat := 0
  index : Nat := 0
  m : Nat := 0
  length : Nat := 0
  count : Nat := 0
  capabilities : Nat := 0
  width : Nat := 0
  height : Nat := 0
  pixelformat : Nat := 0
  field : Nat := 0
  bytesperline : Nat := 0
  sizeimage : Nat := 0
  capability : Nat := 0
  numerator : Nat := 0
  denominator : Nat := 0
  defrect : v4l2_rect := {}
  c : v4l2_rect := {}
  id : Int := 0
  value : Int := 0
deriving DecidableEq, Repr

/-- The calls the source makes, with the arguments it passes.  `process_image` is not a
system call; it is recorded so that a trace shows when a buffer is read. -/
inductive Event
  | stat (path : String)
  | open_ (path : String)
  | close (fd : Int)
  | select (nfds : Int)
  | read (fd : Int) (start length : Nat)
  | ioctl (fd : Int) (request : Request) (arg : Arg)
  | mmap (length : Nat) (fd : Int) (offset : Nat)
  | munmap (start length : Nat)
  | calloc (nmemb : Nat)
  | malloc (size : Nat)
  | memalign (boundary size : Nat)
  | free (ptr : Nat)
  | getpagesize
  | new_array (size : Int)
  | process_image (p : Nat) (length : Int)
deriving DecidableEq, Repr

/-- What a call gives back: its return value (`ret`, or `ptr` for the calls that return a
pointer), the value of `errno` after it, the argument block after it (`ioctl`), whether
the file is a character device (`stat`), and the content of memory after it: `mem a` is
the memory seen through the pointer `a`. -/
structure Reply where
  ret : Int := 0
  errno : Int := 0
  ptr : Nat := 0
  arg : Arg := {}
  ischr : Bool := true
  mem : Nat → Int → Byte := fun _ _ => 0

/-- The world outside the object: the replies still to come, the calls made so far (oldest
first), `errno` and the content of memory. -/
structure World where
  script : List Reply
  trace : List Event
  errno : Int
  mem : Nat → Int → Byte

/-- The ways the source terminates the process. -/
inductive Fatal
  | errno_exit (s : String) (errno : Int)
  | cannot_identify
  | is_no_device
  | cannot_open
  | is_no_v4l2_device
  | is_no_video_capture_device
  | does_not_support_read
  | does_not_support_streaming
  | does_not_support_memory_mapping
  | does_not_support_user_pointer
  | insufficient_buffer_memory
  | out_of_memory
  | select_timeout
  | assertion_failed
deriving DecidableEq, Repr

/-- The outcome of running a piece of the program: it returns normally, it terminates the
process, or the script has no reply left for a call it makes. -/
inductive Result (α : Type)
  | ok (a : α) (w : World)
  | fatal (f : Fatal) (w : World)
  | stuck

/-- A computation that interacts with the world. -/
def M (α : Type) : Type := World → Result α

/-- Return a value without touching the world. -/
def M.pure {α : Type} (a : α) : M α := fun w => .ok a w

/-- Sequencing: the second computation runs only when the first returns normally. -/
def M.bind {α β : Type} (x : M α) (f : α → M β) : M β := fun w =>
  match x w with
  | .ok a w1 => f a w1
  | .fatal e w1 => .fatal e w1
  | .stuck => .stuck

instance : Monad M where
  pure := M.pure
  bind := M.bind

/-- The world after a call `e` that was answered by `r`. -/
def World.after (w : World) (e : Event) (r : Reply) (rest : List Reply) : World :=
  { script := rest, trace := w.trace ++ [e], errno := r.errno, mem := r.mem }

/-- Make one call: record it and take the next reply of the script. -/
def call (e : Event) : M Reply := fun w =>
  match w.script with
  | [] => .stuck
  | r :: rest => .ok r (w.after e r rest)

/-- The world after an event `e` that has no reply. -/
def World.note (w : World) (e : Event) : World :=
  { w with trace := w.trace ++ [e] }

/-- Record an event that has no reply (`free`, `process_image`). -/
def emit (e : Event) : M Unit := fun w =>
  .ok () (w.note e)

/-- Terminate the process. -/
def die {α : Type} (f : Fatal) : M α := fun w => .fatal f w

/-- Read the memory seen through the pointer `p`. -/
def deref (p : Nat) : M (Int → Byte) := fun w => .ok (w.mem p) w

/-- Read `errno`. -/
def get_errno : M Int := fun w => .ok w.errno w

/-- The value of `EINTR` (errno.h). -/
def EINTR : Int := 4
/-- The value of `EIO` (errno.h). -/
def EIO : Int := 5
/-- The value of `EAGAIN` (errno.h). -/
def EAGAIN : Int := 11
/-- The value of `EINVAL` (errno.h). -/
def EINVAL : Int := 22

/-- The value of `V4L2_BUF_TYPE_VIDEO_CAPTURE` (linux/videodev2.h). -/
def V4L2_BUF_TYPE_VIDEO_CAPTURE : Nat := 1
/-- The value of `V4L2_MEMORY_MMAP` (linux/videodev2.h). -/
def V4L2_MEMORY_MMAP : Nat := 1
/-- The value of `V4L2_MEMORY_USERPTR` (linux/videodev2.h). -/
def V4L2_MEMORY_USERPTR : Nat := 2
/-- The value of `V4L2_CAP_VIDEO_CAPTURE` (linux/videodev2.h). -/
def V4L2_CAP_VIDEO_CAPTURE : Nat := 0x00000001
/-- The value of `V4L2_CAP_TIMEPERFRAME` (linux/videodev2.h). -/
def V4L2_CAP_TIMEPERFRAME : Nat := 0x1000
/-- The value of `V4L2_CAP_READWRITE` (linux/videodev2.h). -/
def V4L2_CAP_READWRITE : Nat := 0x01000000
/-- The value of `V4L2_CAP_STREAMING` (linux/videodev2.h). -/
def V4L2_CAP_STREAMING : Nat := 0x04000000
/-- The value of `V4L2_PIX_FMT_YUYV` (linux/videodev2.h), the fourcc of Y, U, Y, V. -/
def V4L2_PIX_FMT_YUYV : Nat := 0x56595559
/-- The value of `V4L2_FIELD_INTERLACED` (linux/videodev2.h). -/
def V4L2_FIELD_INTERLACED : Nat := 4
/-- The value of `MAP_FAILED` (sys/mman.h): `(void *) -1` on a 64-bit machine. -/
def MAP_FAILED : Nat := 18446744073709551615

/-- The method `errno_exit(s)`: print `s` with `errno` and terminate the process. -/
def errno_exit {α : Type} (s : String) : M α := fun w =>
  .fatal (.errno_exit s w.errno) w

/-- The do-while loop of `xioctl` run on the replies still to come: every `ioctl` that
fails with `EINTR` is issued again on the argument block as that call left it. -/
def xioctl_loop (fd : Int) (request : Request) : List Reply → Arg → World → Result Reply
  | [], _, _ => .stuck
  | r :: rest, arg, w =>
    if r.ret = -1 ∧ r.errno = EINTR then
      xioctl_loop fd request rest r.arg (w.after (.ioctl fd request arg) r rest)
    else
      .ok r (w.after (.ioctl fd request arg) r rest)

/-- The method `xioctl(fd, request, arg)`.  The reply that is returned carries the return
value `r` and the argument block as the last call left it. -/
def xioctl (fd : Int) (request : Request) (arg : Arg) : M Reply := fun w =>
  xioctl_loop fd request w.script arg w

/-! ## The public methods that touch only the object -/

/-- Conversion of an `int` to `bool`: every non-zero value is `true`. -/
def int_to_bool (x : Int) : Bool := x != 0

/-- The constructor `ofxV4L2()`: it sets `v4l2framerate` to 0 and nothing else, so the
other members keep whatever the memory of the object held (`garbage`). -/
def ofxV4L2 (garbage : State) : State :=
  { garbage with v4l2framerate := 0 }

/-- The method `setDesiredFramerate(fr)`: the `bool` it returns and the object after it. -/
def setDesiredFramerate (s : State) (fr : Int) : Bool × State :=
  if s.v4l2framerate != 0 then
    (int_to_bool (-1), s)
  else
    (int_to_bool 0, { s with v4l2framerate := fr })

/-- The method `isNewFrame()`. -/
def isNewFrame (s : State) : Bool := s.newframe

/-- The method `getPixels()`: the content seen through the pointer it returns. -/
def getPixels (s : State) : Int → Byte := s.image

/-! ## Opening the device and allocating the buffers -/

/-- The method `open_device(devname)`. -/
def open_device (s : State) (devname : String) : M State := do
  let s := { s with dev_name := devname }
  let st ← call (.stat s.dev_name)
  if st.ret = -1 then die .cannot_identify
  else if !st.ischr then die .is_no_device
  else
    let r ← call (.open_ s.dev_name)
    let s := { s with fd := r.ret }
    if s.fd = -1 then die .cannot_open
    else pure s

/-- The method `init_read(buffer_size)`. -/
def init_read (s : State) (buffer_size : Nat) : M State := do
  let a ← call (.calloc 1)
  if a.ptr = 0 then die .out_of_memory
  else
    let s := { s with buffers_ptr := a.ptr, buffers := List.replicate 1 ⟨0, 0⟩ }
    let s := { s with buffers := s.buffers.modify (fun b => { b with length := buffer_size }) 0 }
    let r ← call (.malloc buffer_size)
    let s := { s with buffers := s.buffers.modify (fun b => { b with start := r.ptr }) 0 }
    if r.ptr = 0 then die .out_of_memory
    else pure s

/-- One pass through the body of the loop of `init_mmap`, at `n_buffers = i`. -/
def init_mmap_body (i : Nat) (s : State) : M State := do
  let buf : Arg := { type := V4L2_BUF_TYPE_VIDEO_CAPTURE, memory := V4L2_MEMORY_MMAP, index := i }
  let q ← xioctl s.fd .VIDIOC_QUERYBUF buf
  if q.ret = -1 then errno_exit "VIDIOC_QUERYBUF"
  else
    let buf := q.arg
    let s := { s with buffers := s.buffers.modify (fun b => { b with length := buf.length }) i }
    let r ← call (.mmap buf.length s.fd buf.m)
    let s := { s with buffers := s.buffers.modify (fun b => { b with start := r.ptr }) i }
    if r.ptr = MAP_FAILED then errno_exit "mmap"
    else pure s

/-- A loop `for (i = from; i < from + n; ++i) body(i)` whose body interacts with the
world. -/
def forLoopM {σ : Type} (body : Nat → σ → M σ) : Nat → Nat → σ → M σ
  | 0, _, s => pure s
  | n + 1, i, s => do
    let s1 ← body i s
    forLoopM body n (i + 1) s1

/-- The part of `init_mmap` after the test on `req.count`: the array is allocated and every
buffer is queried and mapped.  The loop `for (n_buffers = 0; n_buffers < req.count;
++n_buffers)` compares as `unsigned`, so it runs `req.count` times and leaves
`n_buffers` equal to `req.count` converted to `int`. -/
def init_mmap_alloc (s : State) (count : Nat) : M State := do
  let a ← call (.calloc count)
  if a.ptr = 0 then die .out_of_memory
  else
    let s := { s with buffers_ptr := a.ptr, buffers := List.replicate count ⟨0, 0⟩ }
    let s ← forLoopM init_mmap_body count 0 s
    pure { s with n_buffers := toInt32 count }

/-- The request block that `init_mmap` passes to `VIDIOC_REQBUFS`. -/
def mmap_request : Arg :=
  { count := 4, type := V4L2_BUF_TYPE_VIDEO_CAPTURE, memory := V4L2_MEMORY_MMAP }

/-- The method `init_mmap()`. -/
def init_mmap (s : State) : M State := do
  let req : Arg := mmap_request
  let r ← xioctl s.fd .VIDIOC_REQBUFS req
  if r.ret = -1 then
    let e ← get_errno
    if EINVAL = e then die .does_not_support_memory_mapping
    else errno_exit "VIDIOC_REQBUFS"
  else
    let req := r.arg
    if req.count < 2 then die .insufficient_buffer_memory
    else init_mmap_alloc s req.count

/-- One pass through the body of the loop of `init_userp`, at `n_buffers = i`. -/
def init_userp_body (page_size buffer_size : Nat) (i : Nat) (s : State) : M State := do
  let s := { s with buffers := s.buffers.modify (fun b => { b with length := buffer_size }) i }
  let r ← call (.memalign page_size buffer_size)
  let s := { s with buffers := s.buffers.modify (fun b => { b with start := r.ptr }) i }
  if r.ptr = 0 then die .out_of_memory
  else pure s

/-- The `unsigned int` expression `(buffer_size + page_size - 1) & ~(page_size - 1)`. -/
def round_to_page (buffer_size page_size : Nat) : Nat :=
  (((buffer_size + page_size) % 4294967296 + 4294967295) % 4294967296) &&&
    (4294967295 - (page_size + 4294967295) % 4294967296)

/-- The request block that `init_userp` passes to `VIDIOC_REQBUFS`. -/
def userp_request : Arg :=
  { count := 4, type := V4L2_BUF_TYPE_VIDEO_CAPTURE, memory := V4L2_MEMORY_USERPTR }

/-- The method `init_userp(buffer_size)`. -/
def init_userp (s : State) (buffer_size : Nat) : M State := do
  let g ← call .getpagesize
  let page_size := toUInt32 g.ret
  let buffer_size := round_to_page buffer_size page_size
  let req : Arg := userp_request
  let r ← xioctl s.fd .VIDIOC_REQBUFS req
  if r.ret = -1 then
    let e ← get_errno
    if EINVAL = e then die .does_not_support_user_pointer
    else errno_exit "VIDIOC_REQBUFS"
  else
    let a ← call (.calloc 4)
    if a.ptr = 0 then die .out_of_memory
    else
      let s := { s with buffers_ptr := a.ptr, buffers := List.replicate 4 ⟨0, 0⟩ }
      let s ← forLoopM (init_userp_body page_size buffer_size) 4 0 s
      pure { s with n_buffers := 4 }

/-- The "buggy driver paranoia" of `init_device`: the format block after the two
corrections, in `unsigned int` arithmetic. -/
def paranoia (fmt : Arg) : Arg :=
  let min := (fmt.width * 2) % 4294967296
  let fmt := if fmt.bytesperline < min then { fmt with bytesperline := min } else fmt
  let min := (fmt.bytesperline * fmt.height) % 4294967296
  if fmt.sizeimage < min then { fmt with sizeimage := min } else fmt

/-- The last `switch (io)` of `init_device`: the buffers are allocated from the format
block `fmt`. -/
def init_buffers (s : State) (fmt : Arg) : M State :=
  if s.io = IO_METHOD_READ then init_read s fmt.sizeimage
  else if s.io = IO_METHOD_MMAP then init_mmap s
  else if s.io = IO_METHOD_USERPTR then init_userp s fmt.sizeimage
  else pure s

/-- The format block that `init_device` fills in after `CLEAR (fmt)` and passes to
`VIDIOC_S_FMT`. -/
def requested_format (s : State) : Arg :=
  { type := V4L2_BUF_TYPE_VIDEO_CAPTURE, width := toUInt32 s.camWidth,
    height := toUInt32 s.camHeight, pixelformat := V4L2_PIX_FMT_YUYV,
    field := V4L2_FIELD_INTERLACED }

/-- The part of `init_device` from `CLEAR (fmt)` to the end: the format request, the
corrections and the allocation of the buffers. -/
def init_format (s : State) : M State := do
  let fmt : Arg := requested_format s
  let r ← xioctl s.fd .VIDIOC_S_FMT fmt
  if r.ret = -1 then errno_exit "VIDIOC_S_FMT"
  else init_buffers s (paranoia r.arg)

/-- The part of `init_device` that resets the cropping; every failure is ignored. -/
def init_crop (s : State) : M Unit := do
  let cropcap : Arg := { type := V4L2_BUF_TYPE_VIDEO_CAPTURE }
  let r ← xioctl s.fd .VIDIOC_CROPCAP cropcap
  if r.ret = 0 then
    let crop : Arg := { type := V4L2_BUF_TYPE_VIDEO_CAPTURE, c := r.arg.defrect }
    let _ ← xioctl s.fd .VIDIOC_S_CROP crop
    pure ()
  else pure ()

/-- The tests of `init_device` on the capability word, which by then has
`V4L2_CAP_TIMEPERFRAME` set. -/
def check_capabilities (s : State) (capabilities : Nat) : M Unit :=
  if capabilities &&& V4L2_CAP_VIDEO_CAPTURE = 0 then die .is_no_video_capture_device
  else if s.io = IO_METHOD_READ then
    if capabilities &&& V4L2_CAP_READWRITE = 0 then die .does_not_support_read
    else pure ()
  else if s.io = IO_METHOD_MMAP ∨ s.io = IO_METHOD_USERPTR then
    if capabilities &&& V4L2_CAP_STREAMING = 0 then die .does_not_support_streaming
    else pure ()
  else pure ()

/-- The method `init_device()`.  The messages it prints about the framerate are not part
of the model; the two requests that produce them are. -/
def init_device (s : State) : M State := do
  let r ← xioctl s.fd .VIDIOC_QUERYCAP {}
  if r.ret = -1 then
    let e ← get_errno
    if EINVAL = e then die .is_no_v4l2_device
    else errno_exit "VIDIOC_QUERYCAP"
  else
    let cap := { r.arg with capabilities := r.arg.capabilities ||| V4L2_CAP_TIMEPERFRAME }
    let streamparm : Arg := { capability := cap.capabilities, type := V4L2_BUF_TYPE_VIDEO_CAPTURE,
                              numerator := 1, denominator := toUInt32 s.v4l2framerate }
    let set ← xioctl s.fd .VIDIOC_S_PARM streamparm
    let _ ← xioctl s.fd .VIDIOC_G_PARM set.arg
    check_capabilities s cap.capabilities
    init_crop s
    init_format s

/-- The method `start_capturing()`. -/
def start_capturing (s : State) : M Unit :=
  if s.io = IO_METHOD_READ then pure ()
  else if s.io = IO_METHOD_MMAP then do
    let _ ← forLoopM (fun i (_ : Unit) => do
      let buf : Arg := { type := V4L2_BUF_TYPE_VIDEO_CAPTURE, memory := V4L2_MEMORY_MMAP,
                         index := i }
      let q ← xioctl s.fd .VIDIOC_QBUF buf
      if q.ret = -1 then errno_exit "VIDIOC_QBUF" else pure ()) (toUInt32 s.n_buffers) 0 ()
    let r ← xioctl s.fd .VIDIOC_STREAMON { type := V4L2_BUF_TYPE_VIDEO_CAPTURE }
    if r.ret = -1 then errno_exit "VIDIOC_STREAMON" else pure ()
  else if s.io = IO_METHOD_USERPTR then do
    let _ ← forLoopM (fun i (_ : Unit) => do
      let buf : Arg := { type := V4L2_BUF_TYPE_VIDEO_CAPTURE, memory := V4L2_MEMORY_USERPTR,
                         index := i, m := (s.buffers.getD i ⟨0, 0⟩).start,
                         length := (s.buffers.getD i ⟨0, 0⟩).length % 4294967296 }
      let q ← xioctl s.fd .VIDIOC_QBUF buf
      if q.ret = -1 then errno_exit "VIDIOC_QBUF" else pure ()) (toUInt32 s.n_buffers) 0 ()
    let r ← xioctl s.fd .VIDIOC_STREAMON { type := V4L2_BUF_TYPE_VIDEO_CAPTURE }
    if r.ret = -1 then errno_exit "VIDIOC_STREAMON" else pure ()
  else pure ()

/-- The method `initGrabber(devname, iomethod, cw, ch)`.  The message about the default
framerate is not part of the model. -/
def initGrabber (s : State) (devname : String) (iomethod cw ch : Int) : M State := do
  let s := { s with io := iomethod }
  let s := { s with camWidth := cw, camHeight := ch }
  let n ← call (.new_array (toInt32 (s.camWidth * s.camHeight)))
  let fresh ← deref n.ptr
  let s := { s with image := fresh, imageSize := toInt32 (s.camWidth * s.camHeight) }
  let s := { s with dev_name := devname }
  let s := if s.v4l2framerate = 0 then { s with v4l2framerate := 30 } else s
  let s ← open_device s s.dev_name
  let s ← init_device s
  start_capturing s
  pure s

/-! ## Grabbing a frame -/

/-- The scan of `grabFrame` under `IO_METHOD_USERPTR`:
`for (i = 0; i < n_buffers; ++i) if (userptr == buffers[i].start && length ==
buffers[i].length) break;` started at `i` with `fuel` passes left; the result is the value
of `i` when the loop is left. -/
def find_buffer (buffers : List buffer) (n_buffers userptr length : Nat) : Nat → Nat → Nat
  | 0, i => i
  | fuel + 1, i =>
    if i < n_buffers then
      if userptr = (buffers.getD i ⟨0, 0⟩).start ∧ length = (buffers.getD i ⟨0, 0⟩).length then i
      else find_buffer buffers n_buffers userptr length fuel (i + 1)
    else i

/-- The case `IO_METHOD_READ` of `grabFrame`. -/
def grabFrame_read (s : State) : M State := do
  let b0 := s.buffers.getD 0 ⟨0, 0⟩
  let r ← call (.read s.fd b0.start b0.length)
  if r.ret = -1 then
    let e ← get_errno
    if e = EAGAIN then pure s
    else errno_exit "read"
  else
    let y ← deref b0.start
    emit (.process_image b0.start (toInt32 b0.length))
    pure (process_image s y (toInt32 b0.length))

/-- The buffer block that `grabFrame` passes to `VIDIOC_DQBUF` under `IO_METHOD_MMAP`. -/
def dqbuf_mmap : Arg :=
  { type := V4L2_BUF_TYPE_VIDEO_CAPTURE, memory := V4L2_MEMORY_MMAP }

/-- The buffer block that `grabFrame` passes to `VIDIOC_DQBUF` under
`IO_METHOD_USERPTR`. -/
def dqbuf_userptr : Arg :=
  { type := V4L2_BUF_TYPE_VIDEO_CAPTURE, memory := V4L2_MEMORY_USERPTR }

/-- The case `IO_METHOD_MMAP` of `grabFrame`. -/
def grabFrame_mmap (s : State) : M State := do
  let buf : Arg := dqbuf_mmap
  let r ← xioctl s.fd .VIDIOC_DQBUF buf
  if r.ret = -1 then
    let e ← get_errno
    if e = EAGAIN then pure { s with newframe := false }
    else errno_exit "VIDIOC_DQBUF"
  else
    let buf := r.arg
    if ¬ (buf.index < toUInt32 s.n_buffers) then die .assertion_failed
    else
      let p := (s.buffers.getD buf.index ⟨0, 0⟩).start
      let length := toInt32 (s.buffers.getD 0 ⟨0, 0⟩).length
      let y ← deref p
      emit (.process_image p length)
      let s := process_image s y length
      let s := { s with newframe := true }
      let q ← xioctl s.fd .VIDIOC_QBUF buf
      if q.ret = -1 then errno_exit "VIDIOC_QBUF"
      else pure s

/-- The case `IO_METHOD_USERPTR` of `grabFrame`. -/
def grabFrame_userptr (s : State) : M State := do
  let buf : Arg := dqbuf_userptr
  let r ← xioctl s.fd .VIDIOC_DQBUF buf
  if r.ret = -1 then
    let e ← get_errno
    if e = EAGAIN then pure s
    else errno_exit "VIDIOC_DQBUF"
  else
    let buf := r.arg
    let i := find_buffer s.buffers (toUInt32 s.n_buffers) buf.m buf.length
      (toUInt32 s.n_buffers) 0
    if ¬ (i < toUInt32 s.n_buffers) then die .assertion_failed
    else
      let length := toInt32 buf.length
      let y ← deref buf.m
      emit (.process_image buf.m length)
      let s := process_image s y length
      let q ← xioctl s.fd .VIDIOC_QBUF buf
      if q.ret = -1 then errno_exit "VIDIOC_QBUF"
      else pure s

/-- The method `grabFrame()`.  The result of `select` is overwritten by `r = 1`, so
neither of the two tests on `r` can succeed and the `switch (io)` is always reached. -/
def grabFrame (s : State) : M State := do
  let _ ← call (.select (toInt32 (s.fd + 1)))
  let r : Int := 1
  if -1 = r then
    let e ← get_errno
    if EINTR = e then pure s
    else errno_exit "select"
  else if 0 = r then die .select_timeout
  else if s.io = IO_METHOD_READ then grabFrame_read s
  else if s.io = IO_METHOD_MMAP then grabFrame_mmap s
  else if s.io = IO_METHOD_USERPTR then grabFrame_userptr s
  else pure s

/-! ## Teardown -/

/-- The method `stop_capturing()`. -/
def stop_capturing (s : State) : M Unit :=
  if s.io = IO_METHOD_READ then pure ()
  else if s.io = IO_METHOD_MMAP ∨ s.io = IO_METHOD_USERPTR then do
    let r ← xioctl s.fd .VIDIOC_STREAMOFF { type := V4L2_BUF_TYPE_VIDEO_CAPTURE }
    if r.ret = -1 then errno_exit "VIDIOC_STREAMOFF" else pure ()
  else pure ()

/-- The body of the loop of `uninit_device` under `IO_METHOD_MMAP`, at index `i`. -/
def uninit_munmap (s : State) (i : Nat) (_ : Unit) : M Unit := do
  let r ← call (.munmap (s.buffers.getD i ⟨0, 0⟩).start (s.buffers.getD i ⟨0, 0⟩).length)
  if r.ret = -1 then errno_exit "munmap" else pure ()

/-- The body of the loop of `uninit_device` under `IO_METHOD_USERPTR`, at index `i`. -/
def uninit_free (s : State) (i : Nat) (_ : Unit) : M Unit :=
  emit (.free (s.buffers.getD i ⟨0, 0⟩).start)

/-- The method `uninit_device()`. -/
def uninit_device (s : State) : M Unit := do
  if s.io = IO_METHOD_READ then
    emit (.free (s.buffers.getD 0 ⟨0, 0⟩).start)
  else if s.io = IO_METHOD_MMAP then
    forLoopM (uninit_munmap s) (toUInt32 s.n_buffers) 0 ()
  else if s.io = IO_METHOD_USERPTR then
    forLoopM (uninit_free s) (toUInt32 s.n_buffers) 0 ()
  else pure ()
  emit (.free s.buffers_ptr)

/-- The method `close_device()`. -/
def close_device (s : State) : M State := do
  let r ← call (.close s.fd)
  if r.ret = -1 then errno_exit "close"
  else pure { s with fd := -1 }

/-! ## The states a caller can reach -/

/-- The objects a caller can hold after `initGrabber` has returned: the one it returned,
and every object obtained from such a one by a later `grabFrame`, `setDesiredFramerate` or
`initGrabber`, in any world. -/
inductive Reached : State → Prop
  | init (s : State) (devname : String) (iomethod cw ch : Int) (w : World) (s1 : State)
      (w1 : World) : initGrabber s devname iomethod cw ch w = .ok s1 w1 → Reached s1
  | grab (s : State) (w : World) (s1 : State) (w1 : World) :
      Reached s → grabFrame s w = .ok s1 w1 → Reached s1
  | set (s : State) (fr : Int) : Reached s → Reached (setDesiredFramerate s fr).2

/-! ## Worlds used in statements -/

/-- The world after `xioctl fd request arg` was answered by the interrupted calls `pre`
and then by `r`, with `rest` still to come. -/
def World.after_xioctl (w : World) (fd : Int) (request : Request) (arg : Arg)
    (pre : List Reply) (r : Reply) (rest : List Reply) : World :=
  { script := rest,
    trace := w.trace ++ (arg :: pre.map (fun x => x.arg)).map (.ioctl fd request),
    errno := r.errno, mem := r.mem }

/-- The replies in `pre` are all failures with `EINTR`. -/
def all_EINTR (pre : List Reply) : Prop := ∀ x ∈ pre, x.ret = -1 ∧ x.errno = EINTR

/-- The object `s1` differs from `s` at most in the members that describe the device and
the pool: `dev_name`, `fd`, `buffers` and `n_buffers`. -/
def same_frame (s s1 : State) : Prop :=
  s1.image = s.image ∧ s1.imageSize = s.imageSize ∧ s1.camWidth = s.camWidth ∧
  s1.camHeight = s.camHeight ∧ s1.io = s.io ∧ s1.v4l2framerate = s.v4l2framerate ∧
  s1.newframe = s.newframe

/-- The event is a `VIDIOC_S_FMT` request. -/
def Event.is_format_request : Event → Bool
  | .ioctl _ .VIDIOC_S_FMT _ => true
  | _ => false

/-- The event creates a region of memory: `calloc`, `malloc`, `memalign` or `mmap`. -/
def Event.is_allocation : Event → Bool
  | .calloc _ => true
  | .malloc _ => true
  | .memalign _ _ => true
  | .mmap _ _ _ => true
  | _ => false

/-- The event gives a region of memory back: `free` or `munmap`. -/
def Event.is_release : Event → Bool
  | .free _ => true
  | .munmap _ _ => true
  | _ => false

/-- The stream parameter block that `init_device` passes to `VIDIOC_S_PARM` when the
device reported the capability word `capabilities`. -/
def streamparm_request (s : State) (capabilities : Nat) : Arg :=
  { capability := capabilities ||| V4L2_CAP_TIMEPERFRAME, type := V4L2_BUF_TYPE_VIDEO_CAPTURE,
    numerator := 1, denominator := toUInt32 s.v4l2framerate }

/-- The world when `init_device` reaches its tests on the capability word: the capability
query was answered by `r1`, the framerate request by `r2` and the framerate query by `r3`,
each after the interrupted calls `pre1`, `pre2`, `pre3`. -/
def World.at_gate (w : World) (s : State) (pre1 : List Reply) (r1 : Reply)
    (pre2 : List Reply) (r2 : Reply) (pre3 : List Reply) (r3 : Reply) (rest : List Reply) :
    World :=
  ((w.after_xioctl s.fd .VIDIOC_QUERYCAP {} pre1 r1 (pre2 ++ r2 :: (pre3 ++ r3 :: rest))
    ).after_xioctl s.fd .VIDIOC_S_PARM (streamparm_request s r1.arg.capabilities) pre2 r2
      (pre3 ++ r3 :: rest)
    ).after_xioctl s.fd .VIDIOC_G_PARM r2.arg pre3 r3 rest

/-- The calls `init_device` has made when it reaches its tests on the capability word. -/
def gate_calls (s : State) (pre1 : List Reply) (r1 : Reply) (pre2 : List Reply)
    (r2 : Reply) (pre3 : List Reply) : List Event :=
  (({} : Arg) :: pre1.map (fun x => x.arg)).map (.ioctl s.fd .VIDIOC_QUERYCAP) ++
  ((streamparm_request s r1.arg.capabilities :: pre2.map (fun x => x.arg)).map
      (.ioctl s.fd .VIDIOC_S_PARM) ++
    (r2.arg :: pre3.map (fun x => x.arg)).map (.ioctl s.fd .VIDIOC_G_PARM))

/-- The capability bit that the strategy `io` needs: read/write for `IO_METHOD_READ`,
streaming for `IO_METHOD_MMAP` and `IO_METHOD_USERPTR`. -/
def strategy_bit (io : Int) : Nat :=
  if io = IO_METHOD_READ then V4L2_CAP_READWRITE else V4L2_CAP_STREAMING

/-- What `init_device` does once the capability word has passed its tests: the cropping
is reset, the format is requested and the buffers are allocated. -/
def negotiate_and_allocate (s : State) : M State := do
  init_crop s
  init_format s

/-- The world after a `grabFrame` that dequeued a buffer (request block `arg`, answered by
`r` after the interrupted calls `pre`), converted the memory at `p` and enqueued the
buffer again (answered by `q` after the interrupted calls `pre2`). -/
def World.after_frame (w : World) (s : State) (sel : Reply) (arg : Arg) (pre : List Reply)
    (r : Reply) (pre2 : List Reply) (q : Reply) (rest : List Reply) (p : Nat) (len : Int) :
    World :=
  ((((w.after (.select (toInt32 (s.fd + 1))) sel (pre ++ r :: (pre2 ++ q :: rest))
    ).after_xioctl s.fd .VIDIOC_DQBUF arg pre r (pre2 ++ q :: rest)
    ).note (.process_image p len)
    ).after_xioctl s.fd .VIDIOC_QBUF r.arg pre2 q rest)

/-- The calls of such a `grabFrame`, in order: `select`, the dequeue requests, the
conversion, the enqueue requests. -/
def frame_calls (s : State) (arg : Arg) (pre : List Reply) (r : Reply) (pre2 : List Reply)
    (p : Nat) (len : Int) : List Event :=
  .select (toInt32 (s.fd + 1)) ::
    ((arg :: pre.map (fun x => x.arg)).map (.ioctl s.fd .VIDIOC_DQBUF) ++
      (.process_image p len ::
        (r.arg :: pre2.map (fun x => x.arg)).map (.ioctl s.fd .VIDIOC_QBUF)))

/-- The object after `buffers[i].length = b.length; buffers[i].start = b.start`. -/
def State.with_entry (s : State) (i : Nat) (b : buffer) : State :=
  let l1 := s.buffers.modify (fun x => { x with length := b.length }) i
  let l2 := l1.modify (fun x => { x with start := b.start }) i
  { s with buffers := l2 }

/-- The replies that the loop of `init_mmap` consumes: for every buffer the interrupted
queries, the answer to the query and the answer of `mmap`. -/
def mapping_replies : List (List Reply × Reply × Reply) → List Reply
  | [] => []
  | (pre, q, m) :: qs => pre ++ q :: m :: mapping_replies qs

/-- Every query succeeds after its interruptions and every `mmap` succeeds. -/
def good_mappings (qs : List (List Reply × Reply × Reply)) : Prop :=
  ∀ t ∈ qs, all_EINTR t.1 ∧ t.2.1.ret ≠ -1 ∧ t.2.2.ptr ≠ MAP_FAILED

/-- The regions that those replies create: the address `mmap` returned and the length the
query reported. -/
def mapped_pool (qs : List (List Reply × Reply × Reply)) : List buffer :=
  qs.map (fun t => ⟨t.2.2.ptr, t.2.1.arg.length⟩)

/-- The number of regions held after the calls of `trace`: one more for every allocation
and one less for every release. -/
def live (trace : List Event) : Int :=
  (trace.countP Event.is_allocation : Int) - (trace.countP Event.is_release : Int)

/-- The two offsets of one pass through the inner loop of `process_image`, at `row` and
`col`: the offset written in `image`, `col + row * camWidth`, and the offset read from the
source, `2*(col + (row*camWidth))`, both as the `int` the code computes. -/
def pixel_access (camWidth row col : Int) : Int × Int :=
  (toInt32 (col + toInt32 (row * camWidth)),
   toInt32 (2 * toInt32 (col + toInt32 (row * camWidth))))

/-- The offsets that the two nested loops of `process_image` visit, in the order in which
they visit them: the loops of `process_rows`, with the body recording its two offsets
instead of copying the byte. -/
def conversion_accesses (camWidth camHeight : Int) : List (Int × Int) :=
  forLoop (fun row log =>
    forLoop (fun col log2 => log2 ++ [pixel_access camWidth row col]) camWidth.toNat log)
    camHeight.toNat []

/-- The copies `image[a.1] = y[a.2]` for the accesses `a` of `log`, in order. -/
def replay (y : Int → Byte) (log : List (Int × Int)) (image : Int → Byte) : Int → Byte :=
  log.foldl (fun im a => store im a.1 (y a.2)) image

/-! ## Concrete inputs -/

/-- A source buffer holding the pattern Y0, C0, Y1, C1, ... with Yi = 10 + i and
Ci = 200. -/
def yuyv_pattern : Int → Byte := fun k =>
  if k % 2 = 0 then Fin.ofNat ((k / 2).toNat + 10) else 200

/-- An object with a 2 × 2 frame and a pool of two buffers under `IO_METHOD_MMAP`. -/
def small_state : State :=
  { image := fun _ => 0, imageSize := 4, camWidth := 2, camHeight := 2,
    dev_name := "/dev/video0", io := IO_METHOD_MMAP, fd := 3, buffers_ptr := 4096,
    buffers := [⟨8192, 8⟩, ⟨12288, 8⟩], n_buffers := 2, v4l2framerate := 30,
    newframe := false }

/-- An object with a 65536 × 65536 frame: the product of the two sides is 2^32. -/
def huge_state : State :=
  { small_state with camWidth := 65536, camHeight := 65536 }

/-- The event is a `VIDIOC_QBUF` request: a buffer is handed to the device. -/
def Event.is_enqueue : Event → Bool
  | .ioctl _ .VIDIOC_QBUF _ => true
  | _ => false

/-- The event is a run of `process_image`, the only code that writes to `image`. -/
def Event.is_conversion : Event → Bool
  | .process_image _ _ => true
  | _ => false

/-- The buffer `i` of the pool, as `buffers[i]` reads it. -/
def pool_entry (s : State) (i : Nat) : buffer := s.buffers.getD i ⟨0, 0⟩

/-- A world with the replies `script` to come and nothing done yet. -/
def world_of (script : List Reply) : World :=
  { script := script, trace := [], errno := 0, mem := fun _ _ => 0 }

/-- A reply of a call that was interrupted by a signal. -/
def reply_EINTR : Reply := { ret := -1, errno := EINTR }

/-- A reply of a call that found no frame ready. -/
def reply_EAGAIN : Reply := { ret := -1, errno := EAGAIN }

/-- A reply of a call that succeeded and returned 0. -/
def reply_ok : Reply := {}

/-- The reply of a driver to `VIDIOC_S_FMT` that reports 640 × 480 but leaves the stride and
the image size at zero. -/
def buggy_format_reply : Reply :=
  { arg := { type := 1, width := 640, height := 480, pixelformat := V4L2_PIX_FMT_YUYV,
             field := V4L2_FIELD_INTERLACED, bytesperline := 0, sizeimage := 0 } }

/-- The reply of a device to `VIDIOC_REQBUFS` that grants a single buffer. -/
def one_buffer_reply : Reply :=
  { arg := { count := 1, type := 1, memory := 1 } }

/-- The memory of a fresh object: every member holds zero, except `newframe`, which holds
the given value. -/
def raw_object (newframe : Bool) : State :=
  { image := fun _ => 0, imageSize := 0, camWidth := 0, camHeight := 0, dev_name := "",
    io := 0, fd := 0, buffers_ptr := 0, buffers := [], n_buffers := 0, v4l2framerate := 0,
    newframe := newframe }

/-- The memory after a frame has arrived: the buffers at 8192 and 12288 hold the pattern
`yuyv_pattern`, everything else zero. -/
def frame_memory : Nat → Int → Byte := fun a =>
  if a = 8192 ∨ a = 12288 then yuyv_pattern else fun _ => 0

/-- The reply to `VIDIOC_S_FMT` of a device that adjusts the format to 320 × 240. -/
def adjusted_format_reply : Reply :=
  { arg := { type := 1, width := 320, height := 240, pixelformat := V4L2_PIX_FMT_YUYV,
             field := V4L2_FIELD_INTERLACED, bytesperline := 640, sizeimage := 153600 } }

/-- The replies to `initGrabber ("/dev/video0", IO_METHOD_MMAP, 640, 480)` of a device that
adjusts the format to 320 × 240 and grants two buffers: `new`, `stat`, `open`,
`VIDIOC_QUERYCAP`, `VIDIOC_S_PARM`, `VIDIOC_G_PARM`, `VIDIOC_CROPCAP` (refused),
`VIDIOC_S_FMT`, `VIDIOC_REQBUFS`, `calloc`, two times `VIDIOC_QUERYBUF` and `mmap`, two
times `VIDIOC_QBUF`, `VIDIOC_STREAMON`. -/
def mmap_script : List Reply :=
  [ { ptr := 1024 },
    { ret := 0, ischr := true },
    { ret := 3 },
    { arg := { capabilities := V4L2_CAP_VIDEO_CAPTURE ||| V4L2_CAP_STREAMING } },
    { arg := { type := 1, numerator := 1, denominator := 30 } },
    { arg := { type := 1, numerator := 1, denominator := 30 } },
    { ret := -1, errno := EINVAL },
    adjusted_format_reply,
    { arg := { count := 2, type := 1, memory := 1 } },
    { ptr := 4096 },
    { arg := { type := 1, memory := 1, index := 0, m := 0, length := 153600 } },
    { ptr := 8192 },
    { arg := { type := 1, memory := 1, index := 1, m := 153600, length := 153600 } },
    { ptr := 12288 },
    {}, {}, {} ]

/-- The replies to `initGrabber ("/dev/video0", IO_METHOD_READ, 2, 2)` of a device that
supports `read`: `new`, `stat`, `open`, `VIDIOC_QUERYCAP`, `VIDIOC_S_PARM`,
`VIDIOC_G_PARM`, `VIDIOC_CROPCAP` (refused), `VIDIOC_S_FMT`, `calloc`, `malloc`. -/
def read_script : List Reply :=
  [ { ptr := 1024 },
    { ret := 0, ischr := true },
    { ret := 3 },
    { arg := { capabilities := V4L2_CAP_VIDEO_CAPTURE ||| V4L2_CAP_READWRITE } },
    { arg := { type := 1, numerator := 1, denominator := 30 } },
    { arg := { type := 1, numerator := 1, denominator := 30 } },
    { ret := -1, errno := EINVAL },
    { arg := { type := 1, width := 2, height := 2, pixelformat := V4L2_PIX_FMT_YUYV,
               field := V4L2_FIELD_INTERLACED, bytesperline := 4, sizeimage := 8 } },
    { ptr := 4096 },
    { ptr := 8192 } ]

/-- The reply of `getpagesize`: 4096. -/
def userp_script_page : Reply := { ret := 4096 }

/-- The reply to `VIDIOC_REQBUFS` of a device that grants two buffers for user pointers. -/
def userp_script_request : Reply := { arg := { count := 2, type := 1, memory := 2 } }

/-- The replies to `init_userp` of such a device: `getpagesize`, `VIDIOC_REQBUFS`,
`calloc`, four times `memalign`. -/
def userp_script : List Reply :=
  [ userp_script_page, userp_script_request, { ptr := 4096 }, { ptr := 8192 },
    { ptr := 626688 }, { ptr := 1245184 }, { ptr := 1863680 } ]

/-- The reply of `select` when the descriptor is readable. -/
def select_reply : Reply := { ret := 1 }

/-- The reply of a `read` of 8 bytes that leaves the pattern in the buffer. -/
def frame_read_reply : Reply := { ret := 8, mem := frame_memory }

/-- The replies to one `grabFrame` that finds no frame ready: `select`, then a failure with
`EAGAIN`. -/
def not_ready_script : List Reply :=
  [ select_reply, reply_EAGAIN ]

/-- The replies to one `grabFrame` under `IO_METHOD_READ` that gets a frame: `select`, then
the `read`. -/
def frame_read_script : List Reply :=
  [ select_reply, frame_read_reply ]

/-- The world `w` with the replies `script` to come. -/
def World.with_script (w : World) (script : List Reply) : World :=
  { w with script := script }

/-- A reply to `VIDIOC_DQBUF` that names buffer 7, which a pool of two does not have. -/
def stray_index_reply : Reply :=
  { arg := { type := 1, memory := 1, index := 7, length := 153600 } }

/-- The object that `initGrabber ("/dev/video0", IO_METHOD_READ, 2, 2)` leaves when the
device answers with `read_script`. -/
def read_state (newframe : Bool) : State :=
  { image := fun _ => 0, imageSize := 4, camWidth := 2, camHeight := 2,
    dev_name := "/dev/video0", io := IO_METHOD_READ, fd := 3, buffers_ptr := 4096,
    buffers := [⟨8192, 8⟩], n_buffers := 0, v4l2framerate := 30, newframe := newframe }

/-- The world that `initGrabber ("/dev/video0", IO_METHOD_READ, 2, 2)` leaves when the
device answers with `read_script`. -/
def read_world : World :=
  { script := [],
    trace :=
      [ .new_array 4, .stat "/dev/video0", .open_ "/dev/video0",
        .ioctl 3 .VIDIOC_QUERYCAP {},
        .ioctl 3 .VIDIOC_S_PARM
          { capability := V4L2_CAP_VIDEO_CAPTURE ||| V4L2_CAP_READWRITE ||| V4L2_CAP_TIMEPERFRAME,
            type := 1, numerator := 1, denominator := 30 },
        .ioctl 3 .VIDIOC_G_PARM { type := 1, numerator := 1, denominator := 30 },
        .ioctl 3 .VIDIOC_CROPCAP { type := 1 },
        .ioctl 3 .VIDIOC_S_FMT
          { type := 1, width := 2, height := 2, pixelformat := V4L2_PIX_FMT_YUYV,
            field := V4L2_FIELD_INTERLACED },
        .calloc 1, .malloc 8 ],
    errno := 0, mem := fun _ _ => 0 }

/-- The object that `initGrabber ("/dev/video0", IO_METHOD_MMAP, 640, 480)` leaves when the
device answers with `mmap_script`. -/
def mmap_state (newframe : Bool) : State :=
  { image := fun _ => 0, imageSize := 307200, camWidth := 640, camHeight := 480,
    dev_name := "/dev/video0", io := IO_METHOD_MMAP, fd := 3, buffers_ptr := 4096,
    buffers := [⟨8192, 153600⟩, ⟨12288, 153600⟩], n_buffers := 2, v4l2framerate := 30,
    newframe := newframe }

/-- The world that `initGrabber ("/dev/video0", IO_METHOD_MMAP, 640, 480)` leaves when the
device answers with `mmap_script`. -/
def mmap_world : World :=
  { script := [],
    trace :=
      [ .new_array 307200, .stat "/dev/video0", .open_ "/dev/video0",
        .ioctl 3 .VIDIOC_QUERYCAP {},
        .ioctl 3 .VIDIOC_S_PARM
          { capability := V4L2_CAP_VIDEO_CAPTURE ||| V4L2_CAP_STREAMING ||| V4L2_CAP_TIMEPERFRAME,
            type := 1, numerator := 1, denominator := 30 },
        .ioctl 3 .VIDIOC_G_PARM { type := 1, numerator := 1, denominator := 30 },
        .ioctl 3 .VIDIOC_CROPCAP { type := 1 },
        .ioctl 3 .VIDIOC_S_FMT
          { type := 1, width := 640, height := 480, pixelformat := V4L2_PIX_FMT_YUYV,
            field := V4L2_FIELD_INTERLACED },
        .ioctl 3 .VIDIOC_REQBUFS { count := 4, type := 1, memory := 1 },
        .calloc 2,
        .ioctl 3 .VIDIOC_QUERYBUF { type := 1, memory := 1, index := 0 },
        .mmap 153600 3 0,
        .ioctl 3 .VIDIOC_QUERYBUF { type := 1, memory := 1, index := 1 },
        .mmap 153600 3 153600,
        .ioctl 3 .VIDIOC_QBUF { type := 1, memory := 1, index := 0 },
        .ioctl 3 .VIDIOC_QBUF { type := 1, memory := 1, index := 1 },
        .ioctl 3 .VIDIOC_STREAMON { type := 1 } ],
    errno := 0, mem := fun _ _ => 0 }

/-- The reply to `VIDIOC_QUERYCAP` of a device that captures video but only by `read`. -/
def read_only_capability_reply : Reply :=
  { arg := { capabilities := V4L2_CAP_VIDEO_CAPTURE ||| V4L2_CAP_READWRITE } }

/-- A reply to `VIDIOC_DQBUF` that hands over buffer 1 of the pool, filled with the
pattern. -/
def second_buffer_reply : Reply :=
  { arg := { type := 1, memory := 1, index := 1, length := 8 }, mem := frame_memory }

/-- The reply to `VIDIOC_S_FMT` of a driver that keeps the requested 2 × 2 but reports a
stride of 2^31 bytes and an image size of 4 bytes. -/
def stride_overflow_reply : Reply :=
  { arg := { type := 1, width := 2, height := 2, pixelformat := V4L2_PIX_FMT_YUYV,
             field := V4L2_FIELD_INTERLACED, bytesperline := 2147483648, sizeimage := 4 } }

/-- The replies of `read_script`, with the format reply of that driver. -/
def stride_overflow_script : List Reply :=
  [ { ptr := 1024 },
    { ret := 0, ischr := true },
    { ret := 3 },
    { arg := { capabilities := V4L2_CAP_VIDEO_CAPTURE ||| V4L2_CAP_READWRITE } },
    { arg := { type := 1, numerator := 1, denominator := 30 } },
    { arg := { type := 1, numerator := 1, denominator := 30 } },
    { ret := -1, errno := EINVAL },
    stride_overflow_reply,
    { ptr := 4096 },
    { ptr := 8192 } ]

/-- The object that `initGrabber ("/dev/video0", IO_METHOD_READ, 2, 2)` leaves when the
device answers with `stride_overflow_script`: the read buffer has 4 bytes. -/
def stride_overflow_state : State :=
  { image := fun _ => 0, imageSize := 4, camWidth := 2, camHeight := 2,
    dev_name := "/dev/video0", io := IO_METHOD_READ, fd := 3, buffers_ptr := 4096,
    buffers := [⟨8192, 4⟩], n_buffers := 0, v4l2framerate := 30, newframe := false }

/-- The world that `initGrabber ("/dev/video0", IO_METHOD_READ, 2, 2)` leaves when the
device answers with `stride_overflow_script`. -/
def stride_overflow_world : World :=
  { read_world with
    trace :=
      [ .new_array 4, .stat "/dev/video0", .open_ "/dev/video0",
        .ioctl 3 .VIDIOC_QUERYCAP {},
        .ioctl 3 .VIDIOC_S_PARM
          { capability := V4L2_CAP_VIDEO_CAPTURE ||| V4L2_CAP_READWRITE ||| V4L2_CAP_TIMEPERFRAME,
            type := 1, numerator := 1, denominator := 30 },
        .ioctl 3 .VIDIOC_G_PARM { type := 1, numerator := 1, denominator := 30 },
        .ioctl 3 .VIDIOC_CROPCAP { type := 1 },
        .ioctl 3 .VIDIOC_S_FMT
          { type := 1, width := 2, height := 2, pixelformat := V4L2_PIX_FMT_YUYV,
            field := V4L2_FIELD_INTERLACED },
        .calloc 1, .malloc 4 ] }

/-- An object with a 2 × 2 frame under `IO_METHOD_READ`, before its buffer is allocated. -/
def small_read_state : State :=
  { small_state with io := IO_METHOD_READ, buffers := [], n_buffers := 0 }

/-- The reply to `VIDIOC_S_FMT` of a device that keeps the requested 2 × 2 and reports
stride 4 and image size 8. -/
def plain_format_reply : Reply :=
  { arg := { type := 1, width := 2, height := 2, pixelformat := V4L2_PIX_FMT_YUYV,
             field := V4L2_FIELD_INTERLACED, bytesperline := 4, sizeimage := 8 } }

/-- The replies to `init_mmap` of a device that grants two buffers of 153600 bytes, followed
by the replies to the two `munmap` calls of `uninit_device`. -/
def two_mappings : List (List Reply × Reply × Reply) :=
  [ ([], { arg := { type := 1, memory := 1, index := 0, m := 0, length := 153600 } },
         { ptr := 8192 }),
    ([], { arg := { type := 1, memory := 1, index := 1, m := 153600, length := 153600 } },
         { ptr := 163840 }) ]

/-- The reply to `VIDIOC_REQBUFS` of a device that grants two buffers. -/
def two_buffers_reply : Reply := { arg := { count := 2, type := 1, memory := 1 } }

/-- The world in which `init_mmap` and then `uninit_device` are answered by that device:
`VIDIOC_REQBUFS`, `calloc`, the two queries and mappings, and two `munmap` calls that
succeed. -/
def two_mappings_world : World :=
  world_of ([] ++ two_buffers_reply :: { ptr := 4096 } ::
    (mapping_replies two_mappings ++ ([reply_ok, reply_ok] ++ [])))

/-- An object with a 32769 × 32768 frame under `IO_METHOD_READ`, before its buffer is
allocated: the frame has 1073774592 bytes, a little more than 2^30. -/
def wide_state : State :=
  { small_read_state with camWidth := 32769, camHeight := 32768, imageSize := 1073774592 }

/-- The reply to `VIDIOC_S_FMT` of a device that keeps the requested 32769 × 32768 and
reports the exact stride 65538 and image size 2147549184. -/
def wide_format_reply : Reply :=
  { arg := { type := 1, width := 32769, height := 32768, pixelformat := V4L2_PIX_FMT_YUYV,
             field := V4L2_FIELD_INTERLACED, bytesperline := 65538,
             sizeimage := 2147549184 } }

/-! ## Lemmas on loops and machine integers -/

theorem toInt32_of_range (x : Int) (h0 : -2147483648 ≤ x) (h1 : x < 2147483648) :
    toInt32 x = x := by
  unfold toInt32; omega

theorem toInt32_range (x : Int) : -2147483648 ≤ toInt32 x ∧ toInt32 x < 2147483648 := by
  unfold toInt32; omega

theorem forLoop_preserves {σ : Type} (P : σ → Prop) (body : Int → σ → σ)
    (hbody : ∀ i s, P s → P (body i s)) : ∀ n s, P s → P (forLoop body n s) := by
  intro n
  induction n with
  | zero => intro s hs; exact hs
  | succ n ih => intro s hs; exact hbody _ _ (ih s hs)

theorem forLoop_invariant {σ : Type} (Q : Nat → σ → Prop) (body : Int → σ → σ) (n : Nat)
    (hbody : ∀ i s, i < n → Q i s → Q (i + 1) (body (i : Int) s)) :
    ∀ s, Q 0 s → Q n (forLoop body n s) := by
  induction n with
  | zero => intro s hs; exact hs
  | succ n ih =>
    intro s hs
    exact hbody n _ (Nat.lt_succ_self n)
      (ih (fun i s hi hq => hbody i s (Nat.lt_succ_of_lt hi) hq) s hs)

/-- The index written by `process_pixel` is an `int`: bytes of `image` at offsets outside
the range of `int` are never touched. -/
theorem process_rows_frame (w h : Int) (y img : Int → Byte) (j : Int)
    (hj : j < -2147483648 ∨ 2147483648 ≤ j) : process_rows w h y img j = img j := by
  unfold process_rows
  refine forLoop_preserves (fun im => im j = img j) _ ?_ _ img rfl
  intro row im him
  refine forLoop_preserves (fun im2 => im2 j = img j) _ ?_ _ im him
  intro col im2 him2
  have hr := toInt32_range (col + toInt32 (row * w))
  simp only [process_pixel, store]
  rw [if_neg (by omega)]
  exact him2

/-- When no `int` operation overflows, `process_rows` copies the byte at offset `2*i` to
offset `i` for every `i` below `w * h`. -/
theorem process_rows_spec (w h : Int) (y img : Int → Byte) (hw : 0 ≤ w) (hh : 0 ≤ h)
    (hwh : w * h ≤ 1073741824) (i : Int) (hi0 : 0 ≤ i) (hi : i < w * h) :
    process_rows w h y img i = y (2 * i) := by
  unfold process_rows
  have key := forLoop_invariant
    (fun (r : Nat) (im : Int → Byte) => ∀ k : Int, 0 ≤ k → k < (r : Int) * w → im k = y (2 * k))
    (fun row im =>
      forLoop (fun col im2 => process_pixel w y row col im2) w.toNat im) h.toNat ?_ img ?_
  · have hcast : ((h.toNat : Nat) : Int) = h := Int.toNat_of_nonneg hh
    apply key i hi0
    rw [hcast, mul_comm]; exact hi
  · intro r im hr hQ
    have hrh : (r : Int) + 1 ≤ h := by omega
    have hrw : ((r : Int) + 1) * w ≤ w * h := by
      rw [mul_comm w h]; exact mul_le_mul_of_nonneg_right hrh hw
    have hrw0 : 0 ≤ (r : Int) * w := mul_nonneg (by omega) hw
    have inner := forLoop_invariant
      (fun (c : Nat) (im2 : Int → Byte) =>
        ∀ k : Int, 0 ≤ k → k < (r : Int) * w + c → im2 k = y (2 * k))
      (fun col im2 => process_pixel w y (r : Int) col im2) w.toNat ?_ im ?_
    · have hcast : ((w.toNat : Nat) : Int) = w := Int.toNat_of_nonneg hw
      intro k hk0 hk
      apply inner k hk0
      rw [hcast]
      have : ((r : Int) + 1) * w = (r : Int) * w + w := by ring
      push_cast at hk
      omega
    · intro c im2 hc hQ2 k hk0 hk
      have hcw : (c : Int) < w := by omega
      have hsum : ((r : Int) + 1) * w = (r : Int) * w + w := by ring
      simp only [process_pixel, store]
      generalize hT : (r : Int) * w = t at *
      have e1 : toInt32 t = t := toInt32_of_range t (by omega) (by omega)
      have e2 : toInt32 ((c : Int) + t) = (c : Int) + t :=
        toInt32_of_range _ (by omega) (by omega)
      have e3 : toInt32 (2 * ((c : Int) + t)) = 2 * ((c : Int) + t) :=
        toInt32_of_range _ (by omega) (by omega)
      simp only [e1, e2, e3]
      by_cases hkc : k = (c : Int) + t
      · rw [if_pos hkc, hkc]
      · rw [if_neg hkc]
        apply hQ2 k hk0
        push_cast at hk
        omega
    · intro k hk0 hk
      apply hQ k hk0
      simpa using hk
  · intro k hk0 hk
    simp at hk
    omega

/-! ## C1: luma extraction -/

/-- C1, the claim as stated, is false: it is not true that for every width and height
`w, h ≥ 0` and every source buffer, after `process_image` the output frame satisfies
`image[i] = p[2*i]` for every `0 ≤ i < w*h`.  With `w = h = 65536` the byte at offset
`2^31` of the frame is never written, because the index the code computes is an `int`. -/
theorem process_image_luma_fails_on_int_overflow :
    ¬ (∀ (s : State) (y : Int → Byte) (length i : Int), 0 ≤ s.camWidth → 0 ≤ s.camHeight →
        0 ≤ i → i < s.camWidth * s.camHeight →
        (process_image s y length).image i = y (2 * i)) := by
  intro hall
  have h := hall huge_state (fun _ => 1) 0 2147483648 (by decide) (by decide) (by decide)
    (by decide)
  have hframe := process_rows_frame huge_state.camWidth huge_state.camHeight (fun _ => 1)
    huge_state.image 2147483648 (Or.inr (le_refl _))
  simp only [process_image] at h
  rw [hframe] at h
  exact absurd h (by decide)

/-- C1, amended: for every width `w ≥ 0` and height `h ≥ 0` with `w * h ≤ 2^30` (so that
every index `2*(col + row*w)` the code computes fits an `int`) and every source buffer,
after `process_image(p, length)` the output frame satisfies `image[i] = p[2*i]` for every
`0 ≤ i < w*h`, whatever the `length` argument is. -/
theorem process_image_luma_exact (s : State) (y : Int → Byte) (length : Int)
    (hw : 0 ≤ s.camWidth) (hh : 0 ≤ s.camHeight)
    (hwh : s.camWidth * s.camHeight ≤ 1073741824)
    (i : Int) (hi0 : 0 ≤ i) (hi : i < s.camWidth * s.camHeight) :
    (process_image s y length).image i = y (2 * i) :=
  process_rows_spec s.camWidth s.camHeight y s.image hw hh hwh i hi0 hi

/-- Witness of C1 amended: pixel 3 of a 2 × 2 frame is byte 6 of the source. -/
theorem process_image_luma_exact_witness :
    (0 ≤ small_state.camWidth ∧ 0 ≤ small_state.camHeight ∧
      small_state.camWidth * small_state.camHeight ≤ 1073741824 ∧
      (0 : Int) ≤ 3 ∧ (3 : Int) < small_state.camWidth * small_state.camHeight) ∧
    (process_image small_state yuyv_pattern 77).image 3 = yuyv_pattern (2 * 3) :=
  ⟨⟨by decide, by decide, by decide, by decide, by decide⟩,
   process_image_luma_exact small_state yuyv_pattern 77 (by decide) (by decide) (by decide)
     3 (by decide) (by decide)⟩

/-! ## C8: `xioctl` -/

theorem xioctl_loop_retries (fd : Int) (request : Request) (pre : List Reply) (r : Reply)
    (rest : List Reply) (hpre : ∀ x ∈ pre, x.ret = -1 ∧ x.errno = EINTR)
    (hr : ¬ (r.ret = -1 ∧ r.errno = EINTR)) :
    ∀ (arg : Arg) (w : World),
      xioctl_loop fd request (pre ++ r :: rest) arg w =
        .ok r { script := rest,
                trace := w.trace ++ (arg :: pre.map (fun x => x.arg)).map (.ioctl fd request),
                errno := r.errno, mem := r.mem } := by
  induction pre with
  | nil =>
    intro arg w
    simp [xioctl_loop, hr, World.after]
  | cons x pre ih =>
    intro arg w
    have hx := hpre x (List.mem_cons_self _ _)
    have ih2 := ih (fun z hz => hpre z (List.mem_cons_of_mem _ hz))
    have step : xioctl_loop fd request ((x :: pre) ++ r :: rest) arg w =
        xioctl_loop fd request (pre ++ r :: rest) x.arg
          (w.after (.ioctl fd request arg) x (pre ++ r :: rest)) := by
      show xioctl_loop fd request (x :: (pre ++ r :: rest)) arg w = _
      rw [xioctl_loop, if_pos hx]
    rw [step, ih2]
    simp [World.after]

/-- C8: for every sequence of `ioctl` outcomes made of `k ≥ 0` failures with `EINTR`
(`pre`) followed by an outcome `r` that is not a failure with `EINTR`, `xioctl` issues
exactly `k + 1` calls of `ioctl` with the same descriptor and request, returns `r`, leaves
`errno` as `r` set it and leaves the rest of the outcomes unconsumed. -/
theorem xioctl_retries_exactly_on_EINTR (fd : Int) (request : Request) (arg : Arg)
    (w : World) (pre : List Reply) (r : Reply) (rest : List Reply)
    (hpre : ∀ x ∈ pre, x.ret = -1 ∧ x.errno = EINTR)
    (hr : ¬ (r.ret = -1 ∧ r.errno = EINTR))
    (hscript : w.script = pre ++ r :: rest) :
    xioctl fd request arg w =
        .ok r { script := rest,
                trace := w.trace ++ (arg :: pre.map (fun x => x.arg)).map (.ioctl fd request),
                errno := r.errno, mem := r.mem } ∧
      ((arg :: pre.map (fun x => x.arg)).map (Event.ioctl fd request)).length
        = pre.length + 1 := by
  constructor
  · unfold xioctl
    rw [hscript]
    exact xioctl_loop_retries fd request pre r rest hpre hr arg w
  · simp

/-- Witness of C8: two interruptions, then a failure with `EAGAIN`: three calls, and the
failure is returned. -/
theorem xioctl_retries_exactly_on_EINTR_witness :
    xioctl 3 .VIDIOC_DQBUF {} (world_of [reply_EINTR, reply_EINTR, reply_EAGAIN, reply_ok]) =
        .ok reply_EAGAIN
          { script := [reply_ok],
            trace := (world_of [reply_EINTR, reply_EINTR, reply_EAGAIN, reply_ok]).trace ++
              (({} : Arg) :: [reply_EINTR, reply_EINTR].map (fun x => x.arg)).map
                (.ioctl 3 .VIDIOC_DQBUF),
            errno := reply_EAGAIN.errno, mem := reply_EAGAIN.mem } ∧
      ((({} : Arg) :: [reply_EINTR, reply_EINTR].map (fun x => x.arg)).map
        (Event.ioctl 3 .VIDIOC_DQBUF)).length = [reply_EINTR, reply_EINTR].length + 1 :=
  xioctl_retries_exactly_on_EINTR 3 .VIDIOC_DQBUF {}
    (world_of [reply_EINTR, reply_EINTR, reply_EAGAIN, reply_ok])
    [reply_EINTR, reply_EINTR] reply_EAGAIN [reply_ok]
    (by intro x hx; simp at hx; subst hx; exact ⟨rfl, rfl⟩)
    (by decide) rfl

/-! ## Running the model -/

theorem bind_eq {α β : Type} (x : M α) (f : α → M β) (w : World) :
    (x >>= f) w = match x w with
      | .ok a w1 => f a w1
      | .fatal e w1 => .fatal e w1
      | .stuck => .stuck := rfl

theorem pure_eq {α : Type} (a : α) (w : World) : (pure a : M α) w = .ok a w := rfl

theorem xioctl_ok (fd : Int) (request : Request) (arg : Arg) (w : World)
    (pre : List Reply) (r : Reply) (rest : List Reply) (hpre : all_EINTR pre)
    (hr : ¬ (r.ret = -1 ∧ r.errno = EINTR)) (hscript : w.script = pre ++ r :: rest) :
    xioctl fd request arg w = .ok r (w.after_xioctl fd request arg pre r rest) := by
  unfold xioctl
  rw [hscript]
  exact xioctl_loop_retries fd request pre r rest hpre hr arg w

theorem call_ok (e : Event) (w : World) (r : Reply) (rest : List Reply)
    (hscript : w.script = r :: rest) : call e w = .ok r (w.after e r rest) := by
  unfold call
  rw [hscript]

theorem all_EINTR_nil : all_EINTR [] := by
  intro x hx; cases hx

theorem paranoia_bytesperline (fmt : Arg) :
    (paranoia fmt).bytesperline = max fmt.bytesperline ((fmt.width * 2) % 4294967296) := by
  unfold paranoia
  by_cases h1 : fmt.bytesperline < fmt.width * 2 % 4294967296
  · rw [max_eq_right (le_of_lt h1)]
    simp only [h1, if_true]
    split_ifs <;> rfl
  · rw [max_eq_left (not_lt.mp h1)]
    simp only [h1, if_false]
    split_ifs <;> rfl

theorem paranoia_height (fmt : Arg) : (paranoia fmt).height = fmt.height := by
  unfold paranoia
  simp only
  split_ifs <;> rfl

theorem paranoia_sizeimage (fmt : Arg) :
    (paranoia fmt).sizeimage =
      max fmt.sizeimage (((paranoia fmt).bytesperline * fmt.height) % 4294967296) := by
  rw [paranoia_bytesperline]
  unfold paranoia
  by_cases h1 : fmt.bytesperline < fmt.width * 2 % 4294967296
  · rw [max_eq_right (le_of_lt h1)]
    simp only [h1, if_true]
    split_ifs with h2
    · exact (max_eq_right (le_of_lt h2)).symm
    · exact (max_eq_left (not_lt.mp h2)).symm
  · rw [max_eq_left (not_lt.mp h1)]
    simp only [h1, if_false]
    split_ifs with h2
    · exact (max_eq_right (le_of_lt h2)).symm
    · exact (max_eq_left (not_lt.mp h2)).symm

/-! ## C3: padding correction -/

/-- C3: for every format block the device returns, the corrected values are
`bytesperline' = max(bytesperline, 2*width mod 2^32)` and
`sizeimage' = max(sizeimage, bytesperline'*height mod 2^32)`; so
`bytesperline' ≥ 2*width` and `sizeimage' ≥ bytesperline'*height` whenever the product
concerned does not overflow; and when `VIDIOC_S_FMT` succeeds (after any number of
interruptions) `init_device` goes on with `init_read (sizeimage')` under
`IO_METHOD_READ` and with `init_userp (sizeimage')` under `IO_METHOD_USERPTR`. -/
theorem padding_correction (s : State) (w : World) (pre : List Reply) (r : Reply)
    (rest : List Reply) (hpre : all_EINTR pre) (hr : r.ret ≠ -1)
    (hscript : w.script = pre ++ r :: rest) :
    (paranoia r.arg).bytesperline = max r.arg.bytesperline ((r.arg.width * 2) % 4294967296) ∧
    (paranoia r.arg).sizeimage =
      max r.arg.sizeimage (((paranoia r.arg).bytesperline * r.arg.height) % 4294967296) ∧
    (2 * r.arg.width < 4294967296 → 2 * r.arg.width ≤ (paranoia r.arg).bytesperline) ∧
    ((paranoia r.arg).bytesperline * r.arg.height < 4294967296 →
      (paranoia r.arg).bytesperline * r.arg.height ≤ (paranoia r.arg).sizeimage) ∧
    (s.io = IO_METHOD_READ → init_format s w =
      init_read s (paranoia r.arg).sizeimage
        (w.after_xioctl s.fd .VIDIOC_S_FMT (requested_format s) pre r rest)) ∧
    (s.io = IO_METHOD_USERPTR → init_format s w =
      init_userp s (paranoia r.arg).sizeimage
        (w.after_xioctl s.fd .VIDIOC_S_FMT (requested_format s) pre r rest)) := by
  have hx := xioctl_ok s.fd .VIDIOC_S_FMT (requested_format s) w pre r rest hpre
    (fun h => hr h.1) hscript
  have hfmt : init_format s w = init_buffers s (paranoia r.arg)
      (w.after_xioctl s.fd .VIDIOC_S_FMT (requested_format s) pre r rest) := by
    unfold init_format
    rw [bind_eq]
    rw [hx]
    simp only [if_neg hr]
  have hb := paranoia_bytesperline r.arg
  have hs := paranoia_sizeimage r.arg
  refine ⟨hb, hs, ?_, ?_, ?_, ?_⟩
  · intro h; rw [hb]; omega
  · intro h; rw [hs]
    rw [Nat.mod_eq_of_lt h]
    exact le_max_right _ _
  · intro hio
    rw [hfmt]; unfold init_buffers; rw [if_pos hio]
  · intro hio
    rw [hfmt]; unfold init_buffers
    rw [if_neg (by rw [hio]; decide), if_neg (by rw [hio]; decide), if_pos hio]

/-- Witness of C3: a driver that reports 640 × 480 with stride 0 and size 0, after one
interrupted request. -/
theorem padding_correction_witness :
    (all_EINTR [reply_EINTR] ∧ buggy_format_reply.ret ≠ -1 ∧
      (world_of [reply_EINTR, buggy_format_reply]).script
        = [reply_EINTR] ++ buggy_format_reply :: []) ∧
    (paranoia buggy_format_reply.arg).bytesperline
      = max buggy_format_reply.arg.bytesperline
          ((buggy_format_reply.arg.width * 2) % 4294967296) ∧
    (paranoia buggy_format_reply.arg).sizeimage
      = max buggy_format_reply.arg.sizeimage
          (((paranoia buggy_format_reply.arg).bytesperline * buggy_format_reply.arg.height)
            % 4294967296) :=
  have h1 : all_EINTR [reply_EINTR] := by
    intro x hx; simp at hx; subst hx; exact ⟨rfl, rfl⟩
  have h := padding_correction small_state (world_of [reply_EINTR, buggy_format_reply])
    [reply_EINTR] buggy_format_reply [] h1 (by decide) rfl
  ⟨⟨h1, by decide, rfl⟩, h.1, h.2.1⟩

/-! ## C5: insufficient buffers under `IO_METHOD_MMAP` -/

theorem xioctl_loop_not_fatal (fd : Int) (request : Request) (f : Fatal) :
    ∀ (script : List Reply) (arg : Arg) (w w2 : World),
      xioctl_loop fd request script arg w ≠ .fatal f w2 := by
  intro script
  induction script with
  | nil => intro arg w w2 h; simp [xioctl_loop] at h
  | cons r rest ih =>
    intro arg w w2 h
    rw [xioctl_loop] at h
    split_ifs at h
    exact ih _ _ _ h

theorem xioctl_not_fatal (fd : Int) (request : Request) (arg : Arg) (f : Fatal)
    (w w2 : World) : xioctl fd request arg w ≠ .fatal f w2 :=
  xioctl_loop_not_fatal fd request f w.script arg w w2

theorem call_not_fatal (e : Event) (f : Fatal) (w w2 : World) : call e w ≠ .fatal f w2 := by
  unfold call
  split <;> simp

theorem forLoopM_not_fatal {σ : Type} (f : Fatal) (body : Nat → σ → M σ)
    (hbody : ∀ i s w w2, body i s w ≠ .fatal f w2) :
    ∀ n i s w w2, forLoopM body n i s w ≠ .fatal f w2 := by
  intro n
  induction n with
  | zero => intro i s w w2 h; cases h
  | succ n ih =>
    intro i s w w2 h
    rw [forLoopM, bind_eq] at h
    cases hb : body i s w with
    | ok a w1 => rw [hb] at h; exact ih _ _ _ _ h
    | fatal e w1 =>
      rw [hb] at h
      simp only [Result.fatal.injEq] at h
      exact hbody i s w w1 (by rw [hb, h.1])
    | stuck => rw [hb] at h; cases h

theorem init_mmap_body_not_insufficient (i : Nat) (s : State) (w w2 : World) :
    init_mmap_body i s w ≠ .fatal .insufficient_buffer_memory w2 := by
  intro h
  unfold init_mmap_body at h
  rw [bind_eq] at h
  cases hx : xioctl s.fd .VIDIOC_QUERYBUF
      { type := V4L2_BUF_TYPE_VIDEO_CAPTURE, memory := V4L2_MEMORY_MMAP, index := i } w with
  | ok q w1 =>
    rw [hx] at h
    simp only at h
    split_ifs at h
    · cases h
    · rw [bind_eq] at h
      cases hc : call (.mmap q.arg.length s.fd q.arg.m) w1 with
      | ok r w3 =>
        rw [hc] at h
        simp only at h
        split_ifs at h <;> cases h
      | fatal e w3 => exact call_not_fatal _ _ _ _ hc
      | stuck => rw [hc] at h; cases h
  | fatal e w1 => exact xioctl_not_fatal _ _ _ _ _ _ hx
  | stuck => rw [hx] at h; cases h

theorem init_mmap_alloc_not_insufficient (s : State) (count : Nat) (w w2 : World) :
    init_mmap_alloc s count w ≠ .fatal .insufficient_buffer_memory w2 := by
  intro h
  unfold init_mmap_alloc at h
  rw [bind_eq] at h
  cases hc : call (.calloc count) w with
  | ok a w1 =>
    rw [hc] at h
    simp only at h
    split_ifs at h
    · cases h
    · rw [bind_eq] at h
      cases hl : forLoopM init_mmap_body count 0
          { s with buffers_ptr := a.ptr, buffers := List.replicate count ⟨0, 0⟩ } w1 with
      | ok s1 w3 => rw [hl] at h; cases h
      | fatal e w3 =>
        rw [hl] at h
        simp only [Result.fatal.injEq] at h
        exact forLoopM_not_fatal _ _ init_mmap_body_not_insufficient _ _ _ _ w3 (by rw [hl, h.1])
      | stuck => rw [hl] at h; cases h
  | fatal e w1 => exact call_not_fatal _ _ _ _ hc
  | stuck => rw [hc] at h; cases h

/-- C5: when the buffer request succeeds (after any number of interruptions) with a granted
count below 2, `init_mmap` terminates the process with "Insufficient buffer memory" and
the only calls it has made are the `VIDIOC_REQBUFS` requests: no `calloc`, no
`VIDIOC_QUERYBUF`, no `mmap`.  When the granted count is 2 or more it goes on to allocate
and map that many buffers, and whatever happens then it does not terminate with
"Insufficient buffer memory". -/
theorem init_mmap_insufficient_buffers (s : State) (w : World) (pre : List Reply)
    (r : Reply) (rest : List Reply) (hpre : all_EINTR pre) (hr : r.ret ≠ -1)
    (hscript : w.script = pre ++ r :: rest) :
    (r.arg.count < 2 →
      init_mmap s w = .fatal .insufficient_buffer_memory
          (w.after_xioctl s.fd .VIDIOC_REQBUFS mmap_request pre r rest) ∧
      (w.after_xioctl s.fd .VIDIOC_REQBUFS mmap_request pre r rest).trace =
        w.trace ++ (mmap_request :: pre.map (fun x => x.arg)).map
          (.ioctl s.fd .VIDIOC_REQBUFS)) ∧
    (2 ≤ r.arg.count →
      init_mmap s w = init_mmap_alloc s r.arg.count
          (w.after_xioctl s.fd .VIDIOC_REQBUFS mmap_request pre r rest) ∧
      ∀ w2, init_mmap s w ≠ .fatal .insufficient_buffer_memory w2) := by
  have hx := xioctl_ok s.fd .VIDIOC_REQBUFS mmap_request w pre r rest hpre
    (fun h => hr h.1) hscript
  constructor
  · intro hc
    refine ⟨?_, rfl⟩
    unfold init_mmap
    rw [bind_eq, hx]
    simp only [if_neg hr, if_pos hc]
    rfl
  · intro hc
    have heq : init_mmap s w = init_mmap_alloc s r.arg.count
        (w.after_xioctl s.fd .VIDIOC_REQBUFS mmap_request pre r rest) := by
      unfold init_mmap
      rw [bind_eq, hx]
      simp only [if_neg hr, if_neg (not_lt.mpr hc)]
    refine ⟨heq, ?_⟩
    intro w2
    rw [heq]
    exact init_mmap_alloc_not_insufficient _ _ _ _

/-- Witness of C5: the device grants one buffer. -/
theorem init_mmap_insufficient_buffers_witness :
    (all_EINTR [] ∧ one_buffer_reply.ret ≠ -1 ∧
      (world_of [one_buffer_reply]).script = [] ++ one_buffer_reply :: []) ∧
    init_mmap small_state (world_of [one_buffer_reply]) =
      .fatal .insufficient_buffer_memory
        ((world_of [one_buffer_reply]).after_xioctl small_state.fd .VIDIOC_REQBUFS
          mmap_request [] one_buffer_reply []) :=
  ⟨⟨all_EINTR_nil, by decide, rfl⟩,
   ((init_mmap_insufficient_buffers small_state (world_of [one_buffer_reply]) []
      one_buffer_reply [] all_EINTR_nil (by decide) rfl).1 (by decide)).1⟩

/-! ## C9: the pool under `IO_METHOD_USERPTR` -/

theorem land_mask (x k : Nat) (hx : x < 2 ^ 32) (hk : k ≤ 32) :
    x &&& (2 ^ 32 - 2 ^ k) = x - x % 2 ^ k := by
  have hm : 2 ^ 32 - 2 ^ k = 2 ^ k * (2 ^ (32 - k) - 1) := by
    have : 2 ^ 32 = 2 ^ k * 2 ^ (32 - k) := by
      rw [← pow_add]; congr 1; omega
    rw [Nat.mul_sub, mul_one, ← this]
  have hd : x - x % 2 ^ k = 2 ^ k * (x / 2 ^ k) := by
    have := Nat.div_add_mod x (2 ^ k)
    omega
  rw [hm, hd]
  apply Nat.eq_of_testBit_eq
  intro i
  rw [Nat.testBit_and, Nat.testBit_mul_pow_two, Nat.testBit_mul_pow_two,
    Nat.testBit_two_pow_sub_one, ← Nat.shiftRight_eq_div_pow, Nat.testBit_shiftRight]
  by_cases hik : k ≤ i
  · have e : k + (i - k) = i := by omega
    rw [e]
    by_cases hi : i < 32
    · have : i - k < 32 - k := by omega
      simp [hik, this]
    · have hxi : x.testBit i = false := by
        apply Nat.testBit_lt_two_pow
        exact lt_of_lt_of_le hx (Nat.pow_le_pow_right (by decide) (by omega))
      simp [hxi]
  · simp [hik]

/-- For a page size `2^k` and a size `s` with `s + 2^k - 1 < 2^32` the expression of
`init_userp` is `s + 2^k - 1` with its remainder modulo `2^k` taken off. -/
theorem round_to_page_eq (size k : Nat) (hs : size + 2 ^ k - 1 < 4294967296) :
    round_to_page size (2 ^ k) = (size + 2 ^ k - 1) - (size + 2 ^ k - 1) % 2 ^ k := by
  have hpos : 0 < 2 ^ k := Nat.two_pow_pos k
  have hk : k ≤ 32 := by
    by_contra hcon
    have : 2 ^ 33 ≤ 2 ^ k := Nat.pow_le_pow_right (by decide) (by omega)
    have e : (2 : Nat) ^ 33 = 8589934592 := by norm_num
    omega
  have h32 : (2 : Nat) ^ 32 = 4294967296 := by norm_num
  have hl := land_mask (size + 2 ^ k - 1) k (by rw [h32]; exact hs) hk
  rw [h32] at hl
  unfold round_to_page
  generalize 2 ^ k = p at *
  have e1 : ((size + p) % 4294967296 + 4294967295) % 4294967296 = size + p - 1 := by omega
  have e2 : 4294967295 - (p + 4294967295) % 4294967296 = 4294967296 - p := by omega
  rw [e1, e2]
  exact hl

/-- The value computed by `init_userp` is the least multiple of the page size that is not
below the size. -/
theorem round_to_page_least (size k : Nat) (hs : size + 2 ^ k - 1 < 4294967296) :
    2 ^ k ∣ round_to_page size (2 ^ k) ∧
    size ≤ round_to_page size (2 ^ k) ∧
    round_to_page size (2 ^ k) < size + 2 ^ k ∧
    (∀ m, 2 ^ k ∣ m → size ≤ m → round_to_page size (2 ^ k) ≤ m) := by
  rw [round_to_page_eq size k hs]
  have hpos : 0 < 2 ^ k := Nat.two_pow_pos k
  generalize 2 ^ k = p at *
  have hmod : (size + p - 1) % p < p := Nat.mod_lt _ hpos
  have hdm := Nat.div_add_mod (size + p - 1) p
  have hd : size + p - 1 - (size + p - 1) % p = p * ((size + p - 1) / p) := by omega
  refine ⟨?_, by omega, by omega, ?_⟩
  · rw [hd]; exact Dvd.intro _ rfl
  · rintro m ⟨j, rfl⟩ hm
    rw [hd]
    apply Nat.mul_le_mul_left
    have hlt : size + p - 1 < p * (j + 1) := by rw [Nat.mul_add, mul_one]; omega
    have := (Nat.div_lt_iff_lt_mul hpos).mpr (by rw [mul_comm] at hlt; exact hlt)
    omega

/-- C9: for every page size `2^k` and every negotiated size `s` with `s + 2^k - 1 < 2^32`,
when the buffer request (after any number of interruptions) and the allocations succeed,
`init_userp` returns with a pool of exactly 4 buffers, whatever count the device granted
(`rq.arg.count` is free), each of length `r`, where `r` is the least multiple of `2^k`
with `r ≥ s`: so `s ≤ r < s + 2^k`, and `r = s` when `2^k` divides `s`. -/
theorem init_userp_pool (s : State) (size k : Nat) (w : World) (g : Reply)
    (pre : List Reply) (rq a m0 m1 m2 m3 : Reply) (rest : List Reply)
    (hp : toUInt32 g.ret = 2 ^ k) (hs : size + 2 ^ k - 1 < 4294967296)
    (hpre : all_EINTR pre) (hrq : rq.ret ≠ -1) (ha : a.ptr ≠ 0)
    (h0 : m0.ptr ≠ 0) (h1 : m1.ptr ≠ 0) (h2 : m2.ptr ≠ 0) (h3 : m3.ptr ≠ 0)
    (hscript : w.script = g :: (pre ++ rq :: a :: m0 :: m1 :: m2 :: m3 :: rest)) :
    (∃ s1 w1, init_userp s size w = .ok s1 w1 ∧
      s1.buffers = [⟨m0.ptr, round_to_page size (2 ^ k)⟩, ⟨m1.ptr, round_to_page size (2 ^ k)⟩,
                    ⟨m2.ptr, round_to_page size (2 ^ k)⟩, ⟨m3.ptr, round_to_page size (2 ^ k)⟩] ∧
      s1.buffers.length = 4 ∧ s1.n_buffers = 4) ∧
    2 ^ k ∣ round_to_page size (2 ^ k) ∧
    size ≤ round_to_page size (2 ^ k) ∧
    round_to_page size (2 ^ k) < size + 2 ^ k ∧
    (∀ m, 2 ^ k ∣ m → size ≤ m → round_to_page size (2 ^ k) ≤ m) ∧
    (2 ^ k ∣ size → round_to_page size (2 ^ k) = size) := by
  obtain ⟨hd, hle, hlt, hleast⟩ := round_to_page_least size k hs
  refine ⟨?_, hd, hle, hlt, hleast, fun hdiv => le_antisymm (hleast size hdiv le_rfl) hle⟩
  have hg := call_ok .getpagesize w g _ hscript
  have hx := xioctl_ok s.fd .VIDIOC_REQBUFS userp_request (w.after .getpagesize g _) pre rq
    (a :: m0 :: m1 :: m2 :: m3 :: rest) hpre (fun h => hrq h.1) rfl
  unfold init_userp
  rw [bind_eq, hg]
  simp only [hp]
  rw [bind_eq, hx]
  simp only [if_neg hrq]
  simp [bind_eq, pure_eq, call, World.after_xioctl, World.after, forLoopM, init_userp_body,
    ha, h0, h1, h2, h3, List.modify, List.replicate]

/-! ## What initialisation leaves alone -/

theorem bind_ok {α β : Type} (x : M α) (f : α → M β) (w w2 : World) (b : β)
    (h : (x >>= f) w = .ok b w2) : ∃ a w1, x w = .ok a w1 ∧ f a w1 = .ok b w2 := by
  rw [bind_eq] at h
  cases hx : x w with
  | ok a w1 => rw [hx] at h; exact ⟨a, w1, rfl, h⟩
  | fatal e w1 => rw [hx] at h; cases h
  | stuck => rw [hx] at h; cases h

theorem die_not_ok {α : Type} (f : Fatal) (w w2 : World) (a : α) :
    (die f : M α) w ≠ .ok a w2 := by
  intro h; cases h

theorem errno_exit_not_ok {α : Type} (msg : String) (w w2 : World) (a : α) :
    (errno_exit msg : M α) w ≠ .ok a w2 := by
  intro h; cases h

theorem pure_ok {α : Type} (a b : α) (w w2 : World) (h : (pure a : M α) w = .ok b w2) :
    b = a ∧ w2 = w := by
  cases h; exact ⟨rfl, rfl⟩

theorem same_frame_refl (s : State) : same_frame s s :=
  ⟨rfl, rfl, rfl, rfl, rfl, rfl, rfl⟩

theorem same_frame_trans {s s1 s2 : State} (h1 : same_frame s s1) (h2 : same_frame s1 s2) :
    same_frame s s2 := by
  obtain ⟨a1, a2, a3, a4, a5, a6, a7⟩ := h1
  obtain ⟨b1, b2, b3, b4, b5, b6, b7⟩ := h2
  exact ⟨b1.trans a1, b2.trans a2, b3.trans a3, b4.trans a4, b5.trans a5, b6.trans a6,
    b7.trans a7⟩

theorem forLoopM_same_frame (body : Nat → State → M State)
    (hbody : ∀ i s w s1 w1, body i s w = .ok s1 w1 → same_frame s s1) :
    ∀ n i s w s1 w1, forLoopM body n i s w = .ok s1 w1 → same_frame s s1 := by
  intro n
  induction n with
  | zero =>
    intro i s w s1 w1 h
    obtain ⟨rfl, -⟩ := pure_ok _ _ _ _ h
    exact same_frame_refl _
  | succ n ih =>
    intro i s w s1 w1 h
    rw [forLoopM] at h
    obtain ⟨s2, w2, hb, hrest⟩ := bind_ok _ _ _ _ _ h
    exact same_frame_trans (hbody _ _ _ _ _ hb) (ih _ _ _ _ _ hrest)

theorem open_device_same_frame (s : State) (devname : String) (w : World) (s1 : State)
    (w1 : World) (h : open_device s devname w = .ok s1 w1) : same_frame s s1 := by
  unfold open_device at h
  obtain ⟨st, w2, -, h⟩ := bind_ok _ _ _ _ _ h
  try dsimp only at h
  split_ifs at h
  · exact absurd h (die_not_ok _ _ _ _)
  · exact absurd h (die_not_ok _ _ _ _)
  · obtain ⟨r, w3, -, h⟩ := bind_ok _ _ _ _ _ h
    try dsimp only at h
    split_ifs at h
    · exact absurd h (die_not_ok _ _ _ _)
    · obtain ⟨rfl, -⟩ := pure_ok _ _ _ _ h
      exact same_frame_refl _

theorem init_read_same_frame (s : State) (n : Nat) (w : World) (s1 : State)
    (w1 : World) (h : init_read s n w = .ok s1 w1) : same_frame s s1 := by
  unfold init_read at h
  obtain ⟨a, w2, -, h⟩ := bind_ok _ _ _ _ _ h
  try dsimp only at h
  split_ifs at h
  · exact absurd h (die_not_ok _ _ _ _)
  · obtain ⟨r, w3, -, h⟩ := bind_ok _ _ _ _ _ h
    try dsimp only at h
    split_ifs at h
    · exact absurd h (die_not_ok _ _ _ _)
    · obtain ⟨rfl, -⟩ := pure_ok _ _ _ _ h
      exact same_frame_refl _

theorem init_mmap_body_same_frame (i : Nat) (s : State) (w : World) (s1 : State)
    (w1 : World) (h : init_mmap_body i s w = .ok s1 w1) : same_frame s s1 := by
  unfold init_mmap_body at h
  obtain ⟨q, w2, -, h⟩ := bind_ok _ _ _ _ _ h
  try dsimp only at h
  split_ifs at h
  · exact absurd h (errno_exit_not_ok _ _ _ _)
  · obtain ⟨r, w3, -, h⟩ := bind_ok _ _ _ _ _ h
    try dsimp only at h
    split_ifs at h
    · exact absurd h (errno_exit_not_ok _ _ _ _)
    · obtain ⟨rfl, -⟩ := pure_ok _ _ _ _ h
      exact same_frame_refl _

theorem init_mmap_alloc_same_frame (s : State) (count : Nat) (w : World) (s1 : State)
    (w1 : World) (h : init_mmap_alloc s count w = .ok s1 w1) : same_frame s s1 := by
  unfold init_mmap_alloc at h
  obtain ⟨a, w2, -, h⟩ := bind_ok _ _ _ _ _ h
  try dsimp only at h
  split_ifs at h
  · exact absurd h (die_not_ok _ _ _ _)
  · obtain ⟨s2, w3, hl, h⟩ := bind_ok _ _ _ _ _ h
    obtain ⟨rfl, -⟩ := pure_ok _ _ _ _ h
    have hl2 := forLoopM_same_frame _ init_mmap_body_same_frame _ _ _ _ _ _ hl
    exact same_frame_trans (same_frame_trans ⟨rfl, rfl, rfl, rfl, rfl, rfl, rfl⟩ hl2)
      ⟨rfl, rfl, rfl, rfl, rfl, rfl, rfl⟩

theorem init_mmap_same_frame (s : State) (w : World) (s1 : State)
    (w1 : World) (h : init_mmap s w = .ok s1 w1) : same_frame s s1 := by
  unfold init_mmap at h
  obtain ⟨r, w2, -, h⟩ := bind_ok _ _ _ _ _ h
  try dsimp only at h
  split_ifs at h
  · obtain ⟨e, w3, -, h⟩ := bind_ok _ _ _ _ _ h
    try dsimp only at h
    split_ifs at h
    · exact absurd h (die_not_ok _ _ _ _)
    · exact absurd h (errno_exit_not_ok _ _ _ _)
  · exact absurd h (die_not_ok _ _ _ _)
  · exact init_mmap_alloc_same_frame _ _ _ _ _ h

theorem init_userp_body_same_frame (page_size buffer_size i : Nat) (s : State) (w : World)
    (s1 : State) (w1 : World) (h : init_userp_body page_size buffer_size i s w = .ok s1 w1) :
    same_frame s s1 := by
  unfold init_userp_body at h
  obtain ⟨r, w2, -, h⟩ := bind_ok _ _ _ _ _ h
  try dsimp only at h
  split_ifs at h
  · exact absurd h (die_not_ok _ _ _ _)
  · obtain ⟨rfl, -⟩ := pure_ok _ _ _ _ h
    exact same_frame_refl _

theorem init_userp_same_frame (s : State) (n : Nat) (w : World) (s1 : State)
    (w1 : World) (h : init_userp s n w = .ok s1 w1) : same_frame s s1 := by
  unfold init_userp at h
  obtain ⟨g, w2, -, h⟩ := bind_ok _ _ _ _ _ h
  obtain ⟨r, w3, -, h⟩ := bind_ok _ _ _ _ _ h
  try dsimp only at h
  split_ifs at h
  · obtain ⟨e, w4, -, h⟩ := bind_ok _ _ _ _ _ h
    try dsimp only at h
    split_ifs at h
    · exact absurd h (die_not_ok _ _ _ _)
    · exact absurd h (errno_exit_not_ok _ _ _ _)
  · obtain ⟨a, w4, -, h⟩ := bind_ok _ _ _ _ _ h
    try dsimp only at h
    split_ifs at h
    · exact absurd h (die_not_ok _ _ _ _)
    · obtain ⟨s2, w5, hl, h⟩ := bind_ok _ _ _ _ _ h
      obtain ⟨rfl, -⟩ := pure_ok _ _ _ _ h
      have hl2 := forLoopM_same_frame _ (init_userp_body_same_frame _ _) _ _ _ _ _ _ hl
      exact same_frame_trans (same_frame_trans ⟨rfl, rfl, rfl, rfl, rfl, rfl, rfl⟩ hl2)
        ⟨rfl, rfl, rfl, rfl, rfl, rfl, rfl⟩

theorem init_buffers_same_frame (s : State) (fmt : Arg) (w : World) (s1 : State)
    (w1 : World) (h : init_buffers s fmt w = .ok s1 w1) : same_frame s s1 := by
  unfold init_buffers at h
  try dsimp only at h
  split_ifs at h
  · exact init_read_same_frame _ _ _ _ _ h
  · exact init_mmap_same_frame _ _ _ _ h
  · exact init_userp_same_frame _ _ _ _ _ h
  · obtain ⟨rfl, -⟩ := pure_ok _ _ _ _ h
    exact same_frame_refl _

theorem init_format_same_frame (s : State) (w : World) (s1 : State)
    (w1 : World) (h : init_format s w = .ok s1 w1) : same_frame s s1 := by
  unfold init_format at h
  obtain ⟨r, w2, -, h⟩ := bind_ok _ _ _ _ _ h
  try dsimp only at h
  split_ifs at h
  · exact absurd h (errno_exit_not_ok _ _ _ _)
  · exact init_buffers_same_frame _ _ _ _ _ h

theorem init_device_same_frame (s : State) (w : World) (s1 : State)
    (w1 : World) (h : init_device s w = .ok s1 w1) : same_frame s s1 := by
  unfold init_device at h
  obtain ⟨r, w2, -, h⟩ := bind_ok _ _ _ _ _ h
  try dsimp only at h
  split_ifs at h
  · obtain ⟨e, w3, -, h⟩ := bind_ok _ _ _ _ _ h
    try dsimp only at h
    split_ifs at h
    · exact absurd h (die_not_ok _ _ _ _)
    · exact absurd h (errno_exit_not_ok _ _ _ _)
  · obtain ⟨set, w3, -, h⟩ := bind_ok _ _ _ _ _ h
    obtain ⟨get, w4, -, h⟩ := bind_ok _ _ _ _ _ h
    obtain ⟨u1, w5, -, h⟩ := bind_ok _ _ _ _ _ h
    obtain ⟨u2, w6, -, h⟩ := bind_ok _ _ _ _ _ h
    exact init_format_same_frame _ _ _ _ h

/-- What `initGrabber` leaves in the object when it returns: the requested width and
height, a frame of their `int` product, and a framerate that is not zero. -/
theorem initGrabber_frame (s : State) (devname : String) (iomethod cw ch : Int) (w : World)
    (s1 : State) (w1 : World) (h : initGrabber s devname iomethod cw ch w = .ok s1 w1) :
    s1.camWidth = cw ∧ s1.camHeight = ch ∧ s1.imageSize = toInt32 (cw * ch) ∧
    s1.io = iomethod ∧
    s1.v4l2framerate = (if s.v4l2framerate = 0 then 30 else s.v4l2framerate) := by
  unfold initGrabber at h
  obtain ⟨n, w2, -, h⟩ := bind_ok _ _ _ _ _ h
  obtain ⟨fresh, w3, -, h⟩ := bind_ok _ _ _ _ _ h
  obtain ⟨s2, w4, hopen, h⟩ := bind_ok _ _ _ _ _ h
  obtain ⟨s3, w5, hinit, h⟩ := bind_ok _ _ _ _ _ h
  obtain ⟨u, w6, -, h⟩ := bind_ok _ _ _ _ _ h
  obtain ⟨rfl, -⟩ := pure_ok _ _ _ _ h
  have hf := same_frame_trans (open_device_same_frame _ _ _ _ _ hopen)
    (init_device_same_frame _ _ _ _ hinit)
  obtain ⟨-, h2, h3, h4, h5, h6, -⟩ := hf
  refine ⟨h3.trans ?_, h4.trans ?_, h2.trans ?_, h5.trans ?_, h6.trans ?_⟩
  · split_ifs <;> rfl
  · split_ifs <;> rfl
  · split_ifs <;> rfl
  · split_ifs <;> rfl
  · split_ifs <;> simp_all

/-! ## Two complete runs of `initGrabber` -/

set_option maxRecDepth 8000 in
/-- A fresh object, a device that supports `read`: `initGrabber` returns. -/
theorem initGrabber_read_run (nf : Bool) :
    initGrabber (ofxV4L2 (raw_object nf)) "/dev/video0" IO_METHOD_READ 2 2
      (world_of read_script) = .ok (read_state nf) read_world := by
  simp [initGrabber, ofxV4L2, raw_object, world_of, read_script, bind_eq, pure_eq, call, deref,
    World.after, open_device, die, init_device, xioctl, xioctl_loop, get_errno, errno_exit,
    check_capabilities, init_crop, init_format, init_buffers, init_read, start_capturing,
    requested_format, paranoia, IO_METHOD_READ, IO_METHOD_MMAP, IO_METHOD_USERPTR, EINTR,
    EINVAL, V4L2_CAP_VIDEO_CAPTURE, V4L2_CAP_READWRITE, V4L2_CAP_TIMEPERFRAME,
    V4L2_CAP_STREAMING, toUInt32, toInt32, V4L2_BUF_TYPE_VIDEO_CAPTURE, V4L2_PIX_FMT_YUYV,
    V4L2_FIELD_INTERLACED, read_state, read_world]

set_option maxRecDepth 8000 in
/-- A fresh object, a device that streams, adjusts 640 × 480 to 320 × 240 and grants two
buffers: `initGrabber` returns. -/
theorem initGrabber_mmap_run (nf : Bool) :
    initGrabber (ofxV4L2 (raw_object nf)) "/dev/video0" IO_METHOD_MMAP 640 480
      (world_of mmap_script) = .ok (mmap_state nf) mmap_world := by
  simp [initGrabber, ofxV4L2, raw_object, world_of, mmap_script, bind_eq, pure_eq, call, deref,
    World.after, open_device, die, init_device, xioctl, xioctl_loop, get_errno, errno_exit,
    check_capabilities, init_crop, init_format, init_buffers, init_mmap, init_mmap_alloc,
    init_mmap_body, forLoopM, mmap_request, start_capturing, MAP_FAILED, adjusted_format_reply,
    requested_format, paranoia, IO_METHOD_READ, IO_METHOD_MMAP, IO_METHOD_USERPTR, EINTR,
    EINVAL, V4L2_CAP_VIDEO_CAPTURE, V4L2_CAP_READWRITE, V4L2_CAP_TIMEPERFRAME,
    V4L2_CAP_STREAMING, toUInt32, toInt32, V4L2_BUF_TYPE_VIDEO_CAPTURE, V4L2_MEMORY_MMAP,
    V4L2_PIX_FMT_YUYV, V4L2_FIELD_INTERLACED, mmap_state, mmap_world, List.modify,
    List.replicate]

/-! ## Running `grabFrame` -/

theorem grabFrame_select (s : State) (w : World) (sel : Reply) (rest : List Reply)
    (hscript : w.script = sel :: rest) :
    grabFrame s w =
      (if s.io = IO_METHOD_READ then grabFrame_read s
       else if s.io = IO_METHOD_MMAP then grabFrame_mmap s
       else if s.io = IO_METHOD_USERPTR then grabFrame_userptr s
       else pure s) (w.after (.select (toInt32 (s.fd + 1))) sel rest) := by
  unfold grabFrame
  rw [bind_eq, call_ok _ w sel rest hscript]
  simp

theorem grabFrame_read_not_ready (s : State) (w : World) (r : Reply) (rest : List Reply)
    (hscript : w.script = r :: rest) (hret : r.ret = -1) (herr : r.errno = EAGAIN) :
    grabFrame_read s w =
      .ok s (w.after (.read s.fd (pool_entry s 0).start (pool_entry s 0).length) r rest) := by
  unfold grabFrame_read
  simp only [bind_eq]
  rw [call_ok _ w r rest hscript]
  simp [hret, herr, get_errno, World.after, pure_eq, pool_entry, bind_eq]

theorem grabFrame_read_frame (s : State) (w : World) (r : Reply) (rest : List Reply)
    (hscript : w.script = r :: rest) (hret : r.ret ≠ -1) :
    grabFrame_read s w =
      .ok (process_image s (r.mem (pool_entry s 0).start) (toInt32 (pool_entry s 0).length))
        ((w.after (.read s.fd (pool_entry s 0).start (pool_entry s 0).length) r rest).note
          (.process_image (pool_entry s 0).start (toInt32 (pool_entry s 0).length))) := by
  unfold grabFrame_read
  simp only [bind_eq]
  rw [call_ok _ w r rest hscript]
  simp [hret, deref, emit, World.after, pure_eq, pool_entry, bind_eq]

theorem grabFrame_mmap_not_ready (s : State) (w : World) (pre : List Reply) (r : Reply)
    (rest : List Reply) (hpre : all_EINTR pre) (hscript : w.script = pre ++ r :: rest)
    (hret : r.ret = -1) (herr : r.errno = EAGAIN) :
    grabFrame_mmap s w =
      .ok { s with newframe := false }
        (w.after_xioctl s.fd .VIDIOC_DQBUF dqbuf_mmap pre r rest) := by
  have hx := xioctl_ok s.fd .VIDIOC_DQBUF dqbuf_mmap w pre r rest hpre
    (by rw [herr]; intro h; exact absurd h.2 (by decide)) hscript
  unfold grabFrame_mmap
  simp only [bind_eq]
  rw [hx]
  simp [hret, herr, get_errno, World.after_xioctl, pure_eq, bind_eq]

theorem grabFrame_userptr_not_ready (s : State) (w : World) (pre : List Reply) (r : Reply)
    (rest : List Reply) (hpre : all_EINTR pre) (hscript : w.script = pre ++ r :: rest)
    (hret : r.ret = -1) (herr : r.errno = EAGAIN) :
    grabFrame_userptr s w =
      .ok s (w.after_xioctl s.fd .VIDIOC_DQBUF dqbuf_userptr pre r rest) := by
  have hx := xioctl_ok s.fd .VIDIOC_DQBUF dqbuf_userptr w pre r rest hpre
    (by rw [herr]; intro h; exact absurd h.2 (by decide)) hscript
  unfold grabFrame_userptr
  simp only [bind_eq]
  rw [hx]
  simp [hret, herr, get_errno, World.after_xioctl, pure_eq, bind_eq]

theorem grabFrame_mmap_desync (s : State) (w : World) (pre : List Reply) (r : Reply)
    (rest : List Reply) (hpre : all_EINTR pre) (hscript : w.script = pre ++ r :: rest)
    (hret : r.ret ≠ -1) (hidx : ¬ r.arg.index < toUInt32 s.n_buffers) :
    grabFrame_mmap s w =
      .fatal .assertion_failed (w.after_xioctl s.fd .VIDIOC_DQBUF dqbuf_mmap pre r rest) := by
  have hx := xioctl_ok s.fd .VIDIOC_DQBUF dqbuf_mmap w pre r rest hpre
    (fun h => hret h.1) hscript
  unfold grabFrame_mmap
  simp only [bind_eq]
  rw [hx]
  simp [hret, hidx, die]

theorem find_buffer_no_match (buffers : List buffer) (n userptr length : Nat)
    (hno : ∀ i, i < n → ¬ (userptr = (buffers.getD i ⟨0, 0⟩).start ∧
      length = (buffers.getD i ⟨0, 0⟩).length)) :
    ∀ fuel i, i + fuel = n → find_buffer buffers n userptr length fuel i = n := by
  intro fuel
  induction fuel with
  | zero => intro i hi; simpa [find_buffer] using hi
  | succ fuel ih =>
    intro i hi
    have hlt : i < n := by omega
    rw [find_buffer, if_pos hlt, if_neg (hno i hlt)]
    exact ih (i + 1) (by omega)

theorem grabFrame_userptr_desync (s : State) (w : World) (pre : List Reply) (r : Reply)
    (rest : List Reply) (hpre : all_EINTR pre) (hscript : w.script = pre ++ r :: rest)
    (hret : r.ret ≠ -1)
    (hno : ∀ i, i < toUInt32 s.n_buffers →
      ¬ (r.arg.m = (pool_entry s i).start ∧ r.arg.length = (pool_entry s i).length)) :
    grabFrame_userptr s w =
      .fatal .assertion_failed
        (w.after_xioctl s.fd .VIDIOC_DQBUF dqbuf_userptr pre r rest) := by
  have hx := xioctl_ok s.fd .VIDIOC_DQBUF dqbuf_userptr w pre r rest hpre
    (fun h => hret h.1) hscript
  have hf := find_buffer_no_match s.buffers (toUInt32 s.n_buffers) r.arg.m r.arg.length hno
    (toUInt32 s.n_buffers) 0 (by omega)
  unfold grabFrame_userptr
  simp only [bind_eq]
  rw [hx]
  simp [hret, hf, die]

/-! ## C2: the framerate is locked after initialisation -/

theorem grabFrame_read_framerate (s : State) (w : World) (s1 : State) (w1 : World)
    (h : grabFrame_read s w = .ok s1 w1) : s1.v4l2framerate = s.v4l2framerate := by
  unfold grabFrame_read at h
  obtain ⟨r, w2, -, h⟩ := bind_ok _ _ _ _ _ h
  try dsimp only at h
  split_ifs at h
  · obtain ⟨e, w3, -, h⟩ := bind_ok _ _ _ _ _ h
    split_ifs at h
    · obtain ⟨rfl, -⟩ := pure_ok _ _ _ _ h; rfl
    · exact absurd h (errno_exit_not_ok _ _ _ _)
  · obtain ⟨y, w3, -, h⟩ := bind_ok _ _ _ _ _ h
    obtain ⟨u, w4, -, h⟩ := bind_ok _ _ _ _ _ h
    obtain ⟨rfl, -⟩ := pure_ok _ _ _ _ h; rfl

theorem grabFrame_mmap_framerate (s : State) (w : World) (s1 : State) (w1 : World)
    (h : grabFrame_mmap s w = .ok s1 w1) : s1.v4l2framerate = s.v4l2framerate := by
  unfold grabFrame_mmap at h
  obtain ⟨r, w2, -, h⟩ := bind_ok _ _ _ _ _ h
  try dsimp only at h
  split_ifs at h
  · obtain ⟨e, w3, -, h⟩ := bind_ok _ _ _ _ _ h
    split_ifs at h
    · obtain ⟨rfl, -⟩ := pure_ok _ _ _ _ h; rfl
    · exact absurd h (errno_exit_not_ok _ _ _ _)
  · obtain ⟨y, w3, -, h⟩ := bind_ok _ _ _ _ _ h
    obtain ⟨u, w4, -, h⟩ := bind_ok _ _ _ _ _ h
    obtain ⟨q, w5, -, h⟩ := bind_ok _ _ _ _ _ h
    try dsimp only at h
    split_ifs at h
    · exact absurd h (errno_exit_not_ok _ _ _ _)
    · obtain ⟨rfl, -⟩ := pure_ok _ _ _ _ h; rfl
  · exact absurd h (die_not_ok _ _ _ _)

theorem grabFrame_userptr_framerate (s : State) (w : World) (s1 : State) (w1 : World)
    (h : grabFrame_userptr s w = .ok s1 w1) : s1.v4l2framerate = s.v4l2framerate := by
  unfold grabFrame_userptr at h
  obtain ⟨r, w2, -, h⟩ := bind_ok _ _ _ _ _ h
  try dsimp only at h
  split_ifs at h
  · obtain ⟨e, w3, -, h⟩ := bind_ok _ _ _ _ _ h
    split_ifs at h
    · obtain ⟨rfl, -⟩ := pure_ok _ _ _ _ h; rfl
    · exact absurd h (errno_exit_not_ok _ _ _ _)
  · obtain ⟨y, w3, -, h⟩ := bind_ok _ _ _ _ _ h
    obtain ⟨u, w4, -, h⟩ := bind_ok _ _ _ _ _ h
    obtain ⟨q, w5, -, h⟩ := bind_ok _ _ _ _ _ h
    try dsimp only at h
    split_ifs at h
    · exact absurd h (errno_exit_not_ok _ _ _ _)
    · obtain ⟨rfl, -⟩ := pure_ok _ _ _ _ h; rfl
  · exact absurd h (die_not_ok _ _ _ _)

theorem grabFrame_framerate (s : State) (w : World) (s1 : State) (w1 : World)
    (h : grabFrame s w = .ok s1 w1) : s1.v4l2framerate = s.v4l2framerate := by
  cases hsc : w.script with
  | nil =>
    unfold grabFrame at h
    obtain ⟨r, w2, hc, -⟩ := bind_ok _ _ _ _ _ h
    simp [call, hsc] at hc
  | cons sel rest =>
    rw [grabFrame_select s w sel rest hsc] at h
    split_ifs at h
    · exact grabFrame_read_framerate _ _ _ _ h
    · exact grabFrame_mmap_framerate _ _ _ _ h
    · exact grabFrame_userptr_framerate _ _ _ _ h
    · obtain ⟨rfl, -⟩ := pure_ok _ _ _ _ h; rfl

theorem setDesiredFramerate_of_nonzero (s : State) (fr : Int) (h : s.v4l2framerate ≠ 0) :
    setDesiredFramerate s fr = (true, s) := by
  unfold setDesiredFramerate
  simp [h, int_to_bool]

theorem reached_framerate (s : State) (hs : Reached s) : s.v4l2framerate ≠ 0 := by
  induction hs with
  | init s devname iomethod cw ch w s1 w1 h =>
    have hf := (initGrabber_frame s devname iomethod cw ch w s1 w1 h).2.2.2.2
    rw [hf]
    split_ifs with h0
    · decide
    · exact h0
  | grab s w s1 w1 _ h ih =>
    rw [grabFrame_framerate s w s1 w1 h]; exact ih
  | set s fr _ ih =>
    rw [setDesiredFramerate_of_nonzero s fr ih]; exact ih

/-- C2: in every state a caller can reach once `initGrabber` has returned (whatever calls of
`setDesiredFramerate` came before it, and whatever calls of `grabFrame`,
`setDesiredFramerate` or `initGrabber` came after it), `setDesiredFramerate(fr)` is rejected
for every `fr`: it returns `true`, which is what `return -1` gives in a `bool` function,
it leaves the object, and so the stored framerate, unchanged, and the value it returns is
not the one an accepted call returns. -/
theorem setDesiredFramerate_locked (s : State) (hs : Reached s) (fr : Int) :
    setDesiredFramerate s fr = (int_to_bool (-1), s) ∧
    (setDesiredFramerate s fr).1 = true ∧
    (setDesiredFramerate s fr).2.v4l2framerate = s.v4l2framerate ∧
    (setDesiredFramerate s fr).1 ≠ (setDesiredFramerate (ofxV4L2 s) fr).1 := by
  have h := setDesiredFramerate_of_nonzero s fr (reached_framerate s hs)
  rw [h]
  refine ⟨rfl, rfl, rfl, ?_⟩
  simp [setDesiredFramerate, ofxV4L2, int_to_bool]

/-- Witness of C2: the object left by a complete `initGrabber` refuses 60 fps. -/
theorem setDesiredFramerate_locked_witness :
    Reached (mmap_state false) ∧
    setDesiredFramerate (mmap_state false) 60 = (int_to_bool (-1), mmap_state false) ∧
    (setDesiredFramerate (mmap_state false) 60).1 = true :=
  have hr : Reached (mmap_state false) :=
    Reached.init _ _ _ _ _ _ _ _ (initGrabber_mmap_run false)
  have h := setDesiredFramerate_locked (mmap_state false) hr 60
  ⟨hr, h.1, h.2.1⟩

/-! ## C10: the resolution after initialisation -/

/-- C10, the claim as stated, is false.  `initGrabber ("/dev/video0", IO_METHOD_MMAP, 640,
480)` on a fresh object returns; its eighth call is the format request for 640 × 480 and
the eighth reply adjusts it to 320 × 240; yet the object keeps width 640 and height 480,
the frame has 307200 bytes and not 320 * 240, and the conversion runs over 640 columns and
480 rows. -/
theorem initGrabber_ignores_adjusted_resolution :
    initGrabber (ofxV4L2 (raw_object false)) "/dev/video0" IO_METHOD_MMAP 640 480
      (world_of mmap_script) = .ok (mmap_state false) mmap_world ∧
    mmap_world.trace[7]? = some (.ioctl 3 .VIDIOC_S_FMT (requested_format (mmap_state false))) ∧
    mmap_script[7]? = some adjusted_format_reply ∧
    adjusted_format_reply.arg.width = 320 ∧ adjusted_format_reply.arg.height = 240 ∧
    (mmap_state false).camWidth ≠ 320 ∧ (mmap_state false).camHeight ≠ 240 ∧
    (mmap_state false).imageSize ≠ 320 * 240 ∧
    (∀ y length, (process_image (mmap_state false) y length).image =
      process_rows 640 480 y (mmap_state false).image) := by
  refine ⟨initGrabber_mmap_run false, ?_, rfl, rfl, rfl, by decide, by decide, by decide,
    fun _ _ => rfl⟩
  simp [mmap_world, requested_format, mmap_state, toUInt32, V4L2_BUF_TYPE_VIDEO_CAPTURE]

/-- C10, amended: for every requested `(cw, ch)` and whatever the device replies to the
format request, when `initGrabber` returns the object holds width `cw` and height `ch`,
the output frame was allocated with `cw * ch` bytes (the `int` product), and the conversion
of `grabFrame` runs over `cw` columns and `ch` rows: the requested values, not the
device-returned ones. -/
theorem initGrabber_keeps_requested_resolution (s : State) (devname : String)
    (iomethod cw ch : Int) (w : World) (s1 : State) (w1 : World)
    (h : initGrabber s devname iomethod cw ch w = .ok s1 w1) :
    s1.camWidth = cw ∧ s1.camHeight = ch ∧ s1.imageSize = toInt32 (cw * ch) ∧
    (∀ y length, (process_image s1 y length).image = process_rows cw ch y s1.image) := by
  obtain ⟨h1, h2, h3, -, -⟩ := initGrabber_frame s devname iomethod cw ch w s1 w1 h
  refine ⟨h1, h2, h3, ?_⟩
  intro y length
  simp only [process_image, h1, h2]

/-- Witness of C10 amended: the run on `mmap_script`, whose format reply is 320 × 240. -/
theorem initGrabber_keeps_requested_resolution_witness :
    initGrabber (ofxV4L2 (raw_object false)) "/dev/video0" IO_METHOD_MMAP 640 480
      (world_of mmap_script) = .ok (mmap_state false) mmap_world ∧
    (mmap_state false).camWidth = 640 ∧ (mmap_state false).camHeight = 480 ∧
    (mmap_state false).imageSize = toInt32 (640 * 480) :=
  have h := initGrabber_keeps_requested_resolution (ofxV4L2 (raw_object false)) "/dev/video0"
    IO_METHOD_MMAP 640 480 (world_of mmap_script) (mmap_state false) mmap_world
    (initGrabber_mmap_run false)
  ⟨initGrabber_mmap_run false, h.1, h.2.1, h.2.2.1⟩

/-- Witness of C9: a page of 4096 bytes and a negotiated size of 614400 bytes, which the
page size divides; the device grants 2 buffers and the pool still has 4. -/
theorem init_userp_pool_witness :
    (toUInt32 userp_script_page.ret = 2 ^ 12 ∧ 614400 + 2 ^ 12 - 1 < 4294967296 ∧
      (world_of userp_script).script = userp_script_page ::
        ([] ++ userp_script_request :: ⟨0, 0, 4096, {}, true, fun _ _ => 0⟩ ::
          ⟨0, 0, 8192, {}, true, fun _ _ => 0⟩ :: ⟨0, 0, 626688, {}, true, fun _ _ => 0⟩ ::
          ⟨0, 0, 1245184, {}, true, fun _ _ => 0⟩ :: ⟨0, 0, 1863680, {}, true, fun _ _ => 0⟩ ::
          [])) ∧
    (∃ s1 w1, init_userp small_state 614400 (world_of userp_script) = .ok s1 w1 ∧
      s1.buffers = [⟨8192, round_to_page 614400 (2 ^ 12)⟩,
                    ⟨626688, round_to_page 614400 (2 ^ 12)⟩,
                    ⟨1245184, round_to_page 614400 (2 ^ 12)⟩,
                    ⟨1863680, round_to_page 614400 (2 ^ 12)⟩] ∧
      s1.buffers.length = 4 ∧ s1.n_buffers = 4) ∧
    round_to_page 614400 (2 ^ 12) = 614400 :=
  have h := init_userp_pool small_state 614400 12 (world_of userp_script) userp_script_page []
    userp_script_request ⟨0, 0, 4096, {}, true, fun _ _ => 0⟩
    ⟨0, 0, 8192, {}, true, fun _ _ => 0⟩ ⟨0, 0, 626688, {}, true, fun _ _ => 0⟩
    ⟨0, 0, 1245184, {}, true, fun _ _ => 0⟩ ⟨0, 0, 1863680, {}, true, fun _ _ => 0⟩ []
    (by decide) (by norm_num) all_EINTR_nil (by decide) (by decide) (by decide) (by decide)
    (by decide) (by decide) rfl
  ⟨⟨by decide, by norm_num, rfl⟩, h.1, h.2.2.2.2.2 ⟨150, by norm_num⟩⟩

/-! ## C4: a desynchronised dequeue -/

/-- C4: when `VIDIOC_DQBUF` succeeds (after any number of interruptions) and, under
`IO_METHOD_MMAP`, reports an index that is not below `n_buffers`, or, under
`IO_METHOD_USERPTR`, reports a pointer and length that match no entry of the pool, then
`grabFrame` fails its assertion and the process is aborted.  The calls made by then are
`select` and the `VIDIOC_DQBUF` requests only: `process_image`, the only code that writes
to the output frame, has not run, no `VIDIOC_QBUF` was issued, and `newframe` was not
assigned (the assignment follows `process_image`). -/
theorem desynchronised_dequeue_is_fatal (s : State) (w : World) (sel : Reply)
    (pre : List Reply) (r : Reply) (rest : List Reply) (hpre : all_EINTR pre)
    (hret : r.ret ≠ -1) (hscript : w.script = sel :: (pre ++ r :: rest)) :
    (s.io = IO_METHOD_MMAP → ¬ r.arg.index < toUInt32 s.n_buffers →
      grabFrame s w = .fatal .assertion_failed
        ((w.after (.select (toInt32 (s.fd + 1))) sel (pre ++ r :: rest)).after_xioctl
          s.fd .VIDIOC_DQBUF dqbuf_mmap pre r rest)) ∧
    (s.io = IO_METHOD_USERPTR →
      (∀ i, i < toUInt32 s.n_buffers →
        ¬ (r.arg.m = (pool_entry s i).start ∧ r.arg.length = (pool_entry s i).length)) →
      grabFrame s w = .fatal .assertion_failed
        ((w.after (.select (toInt32 (s.fd + 1))) sel (pre ++ r :: rest)).after_xioctl
          s.fd .VIDIOC_DQBUF dqbuf_userptr pre r rest)) ∧
    (∀ arg : Arg,
      ((w.after (.select (toInt32 (s.fd + 1))) sel (pre ++ r :: rest)).after_xioctl
          s.fd .VIDIOC_DQBUF arg pre r rest).trace =
        w.trace ++ (Event.select (toInt32 (s.fd + 1)) ::
          (arg :: pre.map (fun x => x.arg)).map (.ioctl s.fd .VIDIOC_DQBUF)) ∧
      ∀ e ∈ (Event.select (toInt32 (s.fd + 1)) ::
          (arg :: pre.map (fun x => x.arg)).map (.ioctl s.fd .VIDIOC_DQBUF)),
        e.is_enqueue = false ∧ e.is_conversion = false) := by
  have hsel := grabFrame_select s w sel (pre ++ r :: rest) hscript
  refine ⟨?_, ?_, ?_⟩
  · intro hio hidx
    rw [hsel, if_neg (by rw [hio]; decide), if_pos hio]
    exact grabFrame_mmap_desync s _ pre r rest hpre rfl hret hidx
  · intro hio hno
    rw [hsel, if_neg (by rw [hio]; decide), if_neg (by rw [hio]; decide), if_pos hio]
    exact grabFrame_userptr_desync s _ pre r rest hpre rfl hret hno
  · intro arg
    constructor
    · simp [World.after_xioctl, World.after]
    · intro e he
      rw [List.mem_cons, List.mem_map] at he
      rcases he with rfl | ⟨a, -, rfl⟩
      · exact ⟨rfl, rfl⟩
      · exact ⟨rfl, rfl⟩

/-- Witness of C4: a pool of two buffers and a dequeue that names buffer 7. -/
theorem desynchronised_dequeue_is_fatal_witness :
    (all_EINTR [] ∧ stray_index_reply.ret ≠ -1 ∧
      (world_of [select_reply, stray_index_reply]).script
        = select_reply :: ([] ++ stray_index_reply :: []) ∧
      small_state.io = IO_METHOD_MMAP ∧
      ¬ stray_index_reply.arg.index < toUInt32 small_state.n_buffers) ∧
    grabFrame small_state (world_of [select_reply, stray_index_reply]) =
      .fatal .assertion_failed
        (((world_of [select_reply, stray_index_reply]).after
            (.select (toInt32 (small_state.fd + 1))) select_reply
            ([] ++ stray_index_reply :: [])).after_xioctl
          small_state.fd .VIDIOC_DQBUF dqbuf_mmap [] stray_index_reply []) :=
  ⟨⟨all_EINTR_nil, by decide, rfl, rfl, by decide⟩,
   (desynchronised_dequeue_is_fatal small_state (world_of [select_reply, stray_index_reply])
      select_reply [] stray_index_reply [] all_EINTR_nil (by decide) rfl).1 rfl (by decide)⟩

/-! ## C6 and C7: `newframe` outside `IO_METHOD_MMAP` -/

/-- C6, the code at a failing input.  An object is constructed in memory whose `newframe`
byte is set, `initGrabber ("/dev/video0", IO_METHOD_READ, 2, 2)` returns, and `grabFrame`
finds no frame ready (`read` fails with `EAGAIN`).  `grabFrame` returns normally, the
object is unchanged and only `select` and `read` were called, but `isNewFrame()` is
`true`: the case `IO_METHOD_READ` never assigns `newframe`. -/
theorem not_ready_read_reports_new_frame :
    initGrabber (ofxV4L2 (raw_object true)) "/dev/video0" IO_METHOD_READ 2 2
      (world_of read_script) = .ok (read_state true) read_world ∧
    grabFrame (read_state true) (read_world.with_script not_ready_script) =
      .ok (read_state true)
        (((read_world.with_script not_ready_script).after (.select 4) select_reply
          [reply_EAGAIN]).after (.read 3 8192 8) reply_EAGAIN []) ∧
    isNewFrame (read_state true) = true := by
  refine ⟨initGrabber_read_run true, ?_, rfl⟩
  rw [grabFrame_select (read_state true) _ select_reply [reply_EAGAIN] rfl]
  rw [if_pos (show (read_state true).io = IO_METHOD_READ from rfl)]
  exact grabFrame_read_not_ready (read_state true) _ reply_EAGAIN [] rfl rfl rfl

/-- C7, the code at a failing input.  An object is constructed in zeroed memory,
`initGrabber ("/dev/video0", IO_METHOD_READ, 2, 2)` returns, and `grabFrame` reads a frame
holding Y0, C0, Y1, C1, ...  `grabFrame` writes the luma bytes into the output frame, but
`isNewFrame()` is `false`: the case `IO_METHOD_READ` never assigns `newframe`. -/
theorem frame_read_is_not_reported_new :
    initGrabber (ofxV4L2 (raw_object false)) "/dev/video0" IO_METHOD_READ 2 2
      (world_of read_script) = .ok (read_state false) read_world ∧
    grabFrame (read_state false) (read_world.with_script frame_read_script) =
      .ok (process_image (read_state false) (frame_memory 8192) 8)
        ((((read_world.with_script frame_read_script).after (.select 4) select_reply
          [frame_read_reply]).after (.read 3 8192 8) frame_read_reply []).note
            (.process_image 8192 8)) ∧
    (∀ i : Int, 0 ≤ i → i < 4 →
      (process_image (read_state false) (frame_memory 8192) 8).image i
        = yuyv_pattern (2 * i)) ∧
    isNewFrame (process_image (read_state false) (frame_memory 8192) 8) = false := by
  refine ⟨initGrabber_read_run false, ?_, ?_, rfl⟩
  · rw [grabFrame_select (read_state false) _ select_reply [frame_read_reply] rfl]
    rw [if_pos (show (read_state false).io = IO_METHOD_READ from rfl)]
    exact grabFrame_read_frame (read_state false) _ frame_read_reply [] rfl (by decide)
  · intro i h0 h4
    have hm : frame_memory 8192 = yuyv_pattern := by simp [frame_memory]
    rw [hm]
    exact process_rows_spec 2 2 yuyv_pattern _ (by decide) (by decide) (by decide) i h0 h4

/-! ## C11: the capability gate -/

theorem timeperframe_and (c m : Nat) (hm : V4L2_CAP_TIMEPERFRAME &&& m = 0) :
    (c ||| V4L2_CAP_TIMEPERFRAME) &&& m = c &&& m := by
  rw [Nat.and_distrib_right, hm, Nat.or_zero]

theorem init_device_at_gate (s : State) (w : World) (pre1 : List Reply) (r1 : Reply)
    (pre2 : List Reply) (r2 : Reply) (pre3 : List Reply) (r3 : Reply) (rest : List Reply)
    (hpre1 : all_EINTR pre1) (hpre2 : all_EINTR pre2) (hpre3 : all_EINTR pre3)
    (h1 : r1.ret ≠ -1) (h2 : ¬ (r2.ret = -1 ∧ r2.errno = EINTR))
    (h3 : ¬ (r3.ret = -1 ∧ r3.errno = EINTR))
    (hscript : w.script = pre1 ++ r1 :: (pre2 ++ r2 :: (pre3 ++ r3 :: rest))) :
    init_device s w =
      (check_capabilities s (r1.arg.capabilities ||| V4L2_CAP_TIMEPERFRAME) >>= fun _ =>
        negotiate_and_allocate s) (w.at_gate s pre1 r1 pre2 r2 pre3 r3 rest) := by
  have hx1 := xioctl_ok s.fd .VIDIOC_QUERYCAP {} w pre1 r1 _ hpre1 (fun h => h1 h.1) hscript
  have hx2 := xioctl_ok s.fd .VIDIOC_S_PARM (streamparm_request s r1.arg.capabilities)
    (w.after_xioctl s.fd .VIDIOC_QUERYCAP {} pre1 r1 (pre2 ++ r2 :: (pre3 ++ r3 :: rest)))
    pre2 r2 _ hpre2 h2 rfl
  have hx3 := xioctl_ok s.fd .VIDIOC_G_PARM r2.arg
    ((w.after_xioctl s.fd .VIDIOC_QUERYCAP {} pre1 r1 (pre2 ++ r2 :: (pre3 ++ r3 :: rest))
      ).after_xioctl s.fd .VIDIOC_S_PARM (streamparm_request s r1.arg.capabilities) pre2 r2
        (pre3 ++ r3 :: rest))
    pre3 r3 rest hpre3 h3 rfl
  unfold init_device
  rw [bind_eq, hx1]
  simp only [if_neg h1]
  rw [bind_eq]
  unfold streamparm_request at hx2 hx3
  rw [hx2]
  simp only
  rw [bind_eq, hx3]
  rfl

theorem gate_calls_harmless (s : State) (pre1 : List Reply) (r1 : Reply) (pre2 : List Reply)
    (r2 : Reply) (pre3 : List Reply) :
    ∀ e ∈ gate_calls s pre1 r1 pre2 r2 pre3,
      e.is_format_request = false ∧ e.is_allocation = false := by
  intro e he
  unfold gate_calls at he
  rw [List.mem_append, List.mem_append, List.mem_map, List.mem_map, List.mem_map] at he
  rcases he with ⟨a, -, rfl⟩ | ⟨a, -, rfl⟩ | ⟨a, -, rfl⟩ <;> exact ⟨rfl, rfl⟩

/-- C11: once the capability query has succeeded (and the two framerate requests have been
answered, whatever the answers), for every capability word `c` the device reported and
every strategy among `IO_METHOD_READ`, `IO_METHOD_MMAP`, `IO_METHOD_USERPTR`:
if the video-capture bit and the bit of the strategy are set in `c`, `init_device` goes on
to reset the cropping, request the format and allocate the buffers; if the video-capture
bit is not set it terminates with "is no video capture device"; if that bit is set and the
bit of the strategy is not, it terminates with "does not support read i/o" or "does not
support streaming i/o".  In both failures the calls made so far are the capability query
and the two framerate requests only: no `VIDIOC_S_FMT` and no allocation. -/
theorem capability_gate (s : State) (w : World) (pre1 : List Reply) (r1 : Reply)
    (pre2 : List Reply) (r2 : Reply) (pre3 : List Reply) (r3 : Reply) (rest : List Reply)
    (hpre1 : all_EINTR pre1) (hpre2 : all_EINTR pre2) (hpre3 : all_EINTR pre3)
    (h1 : r1.ret ≠ -1) (h2 : ¬ (r2.ret = -1 ∧ r2.errno = EINTR))
    (h3 : ¬ (r3.ret = -1 ∧ r3.errno = EINTR))
    (hscript : w.script = pre1 ++ r1 :: (pre2 ++ r2 :: (pre3 ++ r3 :: rest)))
    (hio : s.io = IO_METHOD_READ ∨ s.io = IO_METHOD_MMAP ∨ s.io = IO_METHOD_USERPTR) :
    (r1.arg.capabilities &&& V4L2_CAP_VIDEO_CAPTURE ≠ 0 →
      r1.arg.capabilities &&& strategy_bit s.io ≠ 0 →
      init_device s w =
        negotiate_and_allocate s (w.at_gate s pre1 r1 pre2 r2 pre3 r3 rest)) ∧
    (r1.arg.capabilities &&& V4L2_CAP_VIDEO_CAPTURE = 0 →
      init_device s w =
        .fatal .is_no_video_capture_device (w.at_gate s pre1 r1 pre2 r2 pre3 r3 rest)) ∧
    (r1.arg.capabilities &&& V4L2_CAP_VIDEO_CAPTURE ≠ 0 →
      r1.arg.capabilities &&& strategy_bit s.io = 0 →
      init_device s w =
        .fatal (if s.io = IO_METHOD_READ then .does_not_support_read
                else .does_not_support_streaming)
          (w.at_gate s pre1 r1 pre2 r2 pre3 r3 rest)) ∧
    (w.at_gate s pre1 r1 pre2 r2 pre3 r3 rest).trace
      = w.trace ++ gate_calls s pre1 r1 pre2 r2 pre3 ∧
    (∀ e ∈ gate_calls s pre1 r1 pre2 r2 pre3,
      e.is_format_request = false ∧ e.is_allocation = false) := by
  have hgate := init_device_at_gate s w pre1 r1 pre2 r2 pre3 r3 rest hpre1 hpre2 hpre3
    h1 h2 h3 hscript
  have hcap := timeperframe_and r1.arg.capabilities V4L2_CAP_VIDEO_CAPTURE (by decide)
  have hrw := timeperframe_and r1.arg.capabilities V4L2_CAP_READWRITE (by decide)
  have hst := timeperframe_and r1.arg.capabilities V4L2_CAP_STREAMING (by decide)
  refine ⟨?_, ?_, ?_, ?_, gate_calls_harmless s pre1 r1 pre2 r2 pre3⟩
  · intro hc hs
    rw [hgate, bind_eq]
    unfold check_capabilities
    rw [hcap, if_neg hc]
    rcases hio with hio | hio | hio
    · rw [if_pos hio, hrw]
      rw [strategy_bit, if_pos hio] at hs
      rw [if_neg hs]
      rfl
    · have hne : s.io ≠ IO_METHOD_READ := by rw [hio]; decide
      rw [if_neg hne, if_pos (Or.inl hio), hst]
      rw [strategy_bit, if_neg hne] at hs
      rw [if_neg hs]
      rfl
    · have hne : s.io ≠ IO_METHOD_READ := by rw [hio]; decide
      rw [if_neg hne, if_pos (Or.inr hio), hst]
      rw [strategy_bit, if_neg hne] at hs
      rw [if_neg hs]
      rfl
  · intro hc
    rw [hgate, bind_eq]
    unfold check_capabilities
    rw [hcap, if_pos hc]
    rfl
  · intro hc hs
    rw [hgate, bind_eq]
    unfold check_capabilities
    rw [hcap, if_neg hc]
    rcases hio with hio | hio | hio
    · rw [if_pos hio, hrw]
      rw [strategy_bit, if_pos hio] at hs
      rw [if_pos hs, if_pos hio]
      rfl
    · have hne : s.io ≠ IO_METHOD_READ := by rw [hio]; decide
      rw [if_neg hne, if_pos (Or.inl hio), hst]
      rw [strategy_bit, if_neg hne] at hs
      rw [if_pos hs, if_neg hne]
      rfl
    · have hne : s.io ≠ IO_METHOD_READ := by rw [hio]; decide
      rw [if_neg hne, if_pos (Or.inr hio), hst]
      rw [strategy_bit, if_neg hne] at hs
      rw [if_pos hs, if_neg hne]
      rfl
  · simp [World.at_gate, World.after_xioctl, gate_calls]

/-- Witness of C11: `IO_METHOD_MMAP` on a device that captures video but only by `read`. -/
theorem capability_gate_witness :
    (all_EINTR [] ∧ read_only_capability_reply.ret ≠ -1 ∧
      (world_of [read_only_capability_reply, reply_ok, reply_ok]).script
        = [] ++ read_only_capability_reply :: ([] ++ reply_ok :: ([] ++ reply_ok :: [])) ∧
      small_state.io = IO_METHOD_MMAP ∧
      read_only_capability_reply.arg.capabilities &&& V4L2_CAP_VIDEO_CAPTURE ≠ 0 ∧
      read_only_capability_reply.arg.capabilities &&& strategy_bit small_state.io = 0) ∧
    init_device small_state (world_of [read_only_capability_reply, reply_ok, reply_ok]) =
      .fatal (if small_state.io = IO_METHOD_READ then .does_not_support_read
              else .does_not_support_streaming)
        ((world_of [read_only_capability_reply, reply_ok, reply_ok]).at_gate small_state []
          read_only_capability_reply [] reply_ok [] reply_ok []) :=
  ⟨⟨all_EINTR_nil, by decide, rfl, rfl, by decide, by decide⟩,
   (capability_gate small_state (world_of [read_only_capability_reply, reply_ok, reply_ok])
      [] read_only_capability_reply [] reply_ok [] reply_ok [] all_EINTR_nil all_EINTR_nil
      all_EINTR_nil (by decide) (by decide) (by decide) rfl (Or.inr (Or.inl rfl))).2.2.1
      (by decide) (by decide)⟩

/-! ## C13: convert, then enqueue the same buffer -/

theorem process_image_fd (s : State) (y : Int → Byte) (length : Int) :
    (process_image s y length).fd = s.fd := rfl

theorem grabFrame_mmap_frame (s : State) (w : World) (pre : List Reply) (r : Reply)
    (pre2 : List Reply) (q : Reply) (rest : List Reply) (hpre : all_EINTR pre)
    (hpre2 : all_EINTR pre2) (hret : r.ret ≠ -1) (hq : ¬ (q.ret = -1 ∧ q.errno = EINTR))
    (hscript : w.script = pre ++ r :: (pre2 ++ q :: rest))
    (hidx : r.arg.index < toUInt32 s.n_buffers) :
    grabFrame_mmap s w =
      (if q.ret = -1 then
        .fatal (.errno_exit "VIDIOC_QBUF" q.errno)
          (((w.after_xioctl s.fd .VIDIOC_DQBUF dqbuf_mmap pre r (pre2 ++ q :: rest)).note
            (.process_image (pool_entry s r.arg.index).start
              (toInt32 (pool_entry s 0).length))).after_xioctl
            s.fd .VIDIOC_QBUF r.arg pre2 q rest)
      else
        .ok { process_image s (r.mem (pool_entry s r.arg.index).start)
                (toInt32 (pool_entry s 0).length) with newframe := true }
          (((w.after_xioctl s.fd .VIDIOC_DQBUF dqbuf_mmap pre r (pre2 ++ q :: rest)).note
            (.process_image (pool_entry s r.arg.index).start
              (toInt32 (pool_entry s 0).length))).after_xioctl
            s.fd .VIDIOC_QBUF r.arg pre2 q rest)) := by
  have hx := xioctl_ok s.fd .VIDIOC_DQBUF dqbuf_mmap w pre r _ hpre (fun h => hret h.1) hscript
  have hx2 := xioctl_ok s.fd .VIDIOC_QBUF r.arg
    ((w.after_xioctl s.fd .VIDIOC_DQBUF dqbuf_mmap pre r (pre2 ++ q :: rest)).note
      (.process_image (pool_entry s r.arg.index).start (toInt32 (pool_entry s 0).length)))
    pre2 q rest hpre2 hq rfl
  unfold grabFrame_mmap
  simp only [bind_eq]
  rw [hx]
  simp only [if_neg hret, if_neg (not_not.mpr hidx), deref, emit, bind_eq, process_image_fd]
  unfold pool_entry at hx2
  rw [hx2]
  by_cases hq1 : q.ret = -1
  · simp only [if_pos hq1]; rfl
  · simp only [if_neg hq1]; rfl

theorem find_buffer_match (buffers : List buffer) (n userptr length : Nat) :
    ∀ fuel i, i + fuel = n →
      (∃ j, i ≤ j ∧ j < n ∧ userptr = (buffers.getD j ⟨0, 0⟩).start ∧
        length = (buffers.getD j ⟨0, 0⟩).length) →
      find_buffer buffers n userptr length fuel i < n := by
  intro fuel
  induction fuel with
  | zero =>
    rintro i hi ⟨j, hij, hjn, -⟩
    omega
  | succ fuel ih =>
    rintro i hi ⟨j, hij, hjn, hm⟩
    have hlt : i < n := by omega
    rw [find_buffer, if_pos hlt]
    split_ifs with hmi
    · exact hlt
    · apply ih (i + 1) (by omega)
      refine ⟨j, ?_, hjn, hm⟩
      rcases Nat.eq_or_lt_of_le hij with h | h
      · subst h; exact absurd hm hmi
      · exact h

theorem grabFrame_userptr_frame (s : State) (w : World) (pre : List Reply) (r : Reply)
    (pre2 : List Reply) (q : Reply) (rest : List Reply) (hpre : all_EINTR pre)
    (hpre2 : all_EINTR pre2) (hret : r.ret ≠ -1) (hq : ¬ (q.ret = -1 ∧ q.errno = EINTR))
    (hscript : w.script = pre ++ r :: (pre2 ++ q :: rest))
    (hmatch : ∃ i, i < toUInt32 s.n_buffers ∧ r.arg.m = (pool_entry s i).start ∧
      r.arg.length = (pool_entry s i).length) :
    grabFrame_userptr s w =
      (if q.ret = -1 then
        .fatal (.errno_exit "VIDIOC_QBUF" q.errno)
          (((w.after_xioctl s.fd .VIDIOC_DQBUF dqbuf_userptr pre r (pre2 ++ q :: rest)).note
            (.process_image r.arg.m (toInt32 r.arg.length))).after_xioctl
            s.fd .VIDIOC_QBUF r.arg pre2 q rest)
      else
        .ok (process_image s (r.mem r.arg.m) (toInt32 r.arg.length))
          (((w.after_xioctl s.fd .VIDIOC_DQBUF dqbuf_userptr pre r (pre2 ++ q :: rest)).note
            (.process_image r.arg.m (toInt32 r.arg.length))).after_xioctl
            s.fd .VIDIOC_QBUF r.arg pre2 q rest)) := by
  have hx := xioctl_ok s.fd .VIDIOC_DQBUF dqbuf_userptr w pre r _ hpre (fun h => hret h.1)
    hscript
  have hx2 := xioctl_ok s.fd .VIDIOC_QBUF r.arg
    ((w.after_xioctl s.fd .VIDIOC_DQBUF dqbuf_userptr pre r (pre2 ++ q :: rest)).note
      (.process_image r.arg.m (toInt32 r.arg.length)))
    pre2 q rest hpre2 hq rfl
  have hf : find_buffer s.buffers (toUInt32 s.n_buffers) r.arg.m r.arg.length
      (toUInt32 s.n_buffers) 0 < toUInt32 s.n_buffers := by
    apply find_buffer_match _ _ _ _ _ 0 (by omega)
    obtain ⟨i, hi, h1, h2⟩ := hmatch
    exact ⟨i, Nat.zero_le _, hi, h1, h2⟩
  unfold grabFrame_userptr
  simp only [bind_eq]
  rw [hx]
  simp only [if_neg hret, if_neg (not_not.mpr hf), deref, emit, bind_eq, process_image_fd]
  rw [hx2]
  by_cases hq1 : q.ret = -1
  · simp only [if_pos hq1]; rfl
  · simp only [if_neg hq1]; rfl

/-- C13: under `IO_METHOD_MMAP`, when the dequeue (after any interruptions `pre`) hands over
an index below `n_buffers`, and under `IO_METHOD_USERPTR`, when it hands over a pointer and
length that match an entry of the pool, the calls of `grabFrame` are exactly: `select`, the
dequeue, `process_image` on the memory of that buffer (`buffers[index].start`, resp. the
pointer handed over), and then the enqueue of the very block the dequeue returned (so the
same index, resp. the same pointer and length), repeated only while it is interrupted
(`pre2`).  Nothing is enqueued before the conversion, and nothing else is enqueued.
`grabFrame` then returns, or terminates with "VIDIOC_QBUF" when the enqueue fails. -/
theorem convert_then_enqueue_same_buffer (s : State) (w : World) (sel : Reply)
    (pre : List Reply) (r : Reply) (pre2 : List Reply) (q : Reply) (rest : List Reply)
    (hpre : all_EINTR pre) (hpre2 : all_EINTR pre2) (hret : r.ret ≠ -1)
    (hq : ¬ (q.ret = -1 ∧ q.errno = EINTR))
    (hscript : w.script = sel :: (pre ++ r :: (pre2 ++ q :: rest))) :
    (s.io = IO_METHOD_MMAP → r.arg.index < toUInt32 s.n_buffers →
      grabFrame s w =
        (if q.ret = -1 then
          .fatal (.errno_exit "VIDIOC_QBUF" q.errno)
            (w.after_frame s sel dqbuf_mmap pre r pre2 q rest
              (pool_entry s r.arg.index).start (toInt32 (pool_entry s 0).length))
        else
          .ok { process_image s (r.mem (pool_entry s r.arg.index).start)
                  (toInt32 (pool_entry s 0).length) with newframe := true }
            (w.after_frame s sel dqbuf_mmap pre r pre2 q rest
              (pool_entry s r.arg.index).start (toInt32 (pool_entry s 0).length)))) ∧
    (s.io = IO_METHOD_USERPTR →
      (∃ i, i < toUInt32 s.n_buffers ∧ r.arg.m = (pool_entry s i).start ∧
        r.arg.length = (pool_entry s i).length) →
      grabFrame s w =
        (if q.ret = -1 then
          .fatal (.errno_exit "VIDIOC_QBUF" q.errno)
            (w.after_frame s sel dqbuf_userptr pre r pre2 q rest r.arg.m
              (toInt32 r.arg.length))
        else
          .ok (process_image s (r.mem r.arg.m) (toInt32 r.arg.length))
            (w.after_frame s sel dqbuf_userptr pre r pre2 q rest r.arg.m
              (toInt32 r.arg.length)))) ∧
    (∀ (arg : Arg) (p : Nat) (len : Int),
      (w.after_frame s sel arg pre r pre2 q rest p len).trace
        = w.trace ++ frame_calls s arg pre r pre2 p len ∧
      frame_calls s arg pre r pre2 p len =
        (Event.select (toInt32 (s.fd + 1)) ::
          (arg :: pre.map (fun x => x.arg)).map (.ioctl s.fd .VIDIOC_DQBUF)) ++
        Event.process_image p len ::
          (Event.ioctl s.fd .VIDIOC_QBUF r.arg ::
            (pre2.map (fun x => x.arg)).map (.ioctl s.fd .VIDIOC_QBUF)) ∧
      (∀ e ∈ (Event.select (toInt32 (s.fd + 1)) ::
          (arg :: pre.map (fun x => x.arg)).map (.ioctl s.fd .VIDIOC_DQBUF)),
        e.is_enqueue = false ∧ e.is_conversion = false) ∧
      frame_calls s arg [] r [] p len =
        [.select (toInt32 (s.fd + 1)), .ioctl s.fd .VIDIOC_DQBUF arg, .process_image p len,
         .ioctl s.fd .VIDIOC_QBUF r.arg]) := by
  have hsel := grabFrame_select s w sel (pre ++ r :: (pre2 ++ q :: rest)) hscript
  refine ⟨?_, ?_, ?_⟩
  · intro hio hidx
    rw [hsel, if_neg (by rw [hio]; decide), if_pos hio]
    exact grabFrame_mmap_frame s _ pre r pre2 q rest hpre hpre2 hret hq rfl hidx
  · intro hio hmatch
    rw [hsel, if_neg (by rw [hio]; decide), if_neg (by rw [hio]; decide), if_pos hio]
    exact grabFrame_userptr_frame s _ pre r pre2 q rest hpre hpre2 hret hq rfl hmatch
  · intro arg p len
    refine ⟨?_, ?_, ?_, rfl⟩
    · simp [World.after_frame, World.after_xioctl, World.after, World.note, frame_calls]
    · simp [frame_calls]
    · intro e he
      rw [List.mem_cons, List.mem_map] at he
      rcases he with rfl | ⟨a, -, rfl⟩
      · exact ⟨rfl, rfl⟩
      · exact ⟨rfl, rfl⟩

/-- Witness of C13: a pool of two mapped buffers; the device hands over buffer 1. -/
theorem convert_then_enqueue_same_buffer_witness :
    (all_EINTR [] ∧ second_buffer_reply.ret ≠ -1 ∧
      ¬ (reply_ok.ret = -1 ∧ reply_ok.errno = EINTR) ∧
      (world_of [select_reply, second_buffer_reply, reply_ok]).script
        = select_reply :: ([] ++ second_buffer_reply :: ([] ++ reply_ok :: [])) ∧
      small_state.io = IO_METHOD_MMAP ∧
      second_buffer_reply.arg.index < toUInt32 small_state.n_buffers) ∧
    grabFrame small_state (world_of [select_reply, second_buffer_reply, reply_ok]) =
      (if reply_ok.ret = -1 then
        .fatal (.errno_exit "VIDIOC_QBUF" reply_ok.errno)
          ((world_of [select_reply, second_buffer_reply, reply_ok]).after_frame small_state
            select_reply dqbuf_mmap [] second_buffer_reply [] reply_ok []
            (pool_entry small_state second_buffer_reply.arg.index).start
            (toInt32 (pool_entry small_state 0).length))
      else
        .ok { process_image small_state
                (second_buffer_reply.mem
                  (pool_entry small_state second_buffer_reply.arg.index).start)
                (toInt32 (pool_entry small_state 0).length) with newframe := true }
          ((world_of [select_reply, second_buffer_reply, reply_ok]).after_frame small_state
            select_reply dqbuf_mmap [] second_buffer_reply [] reply_ok []
            (pool_entry small_state second_buffer_reply.arg.index).start
            (toInt32 (pool_entry small_state 0).length))) :=
  ⟨⟨all_EINTR_nil, by decide, by decide, rfl, rfl, by decide⟩,
   (convert_then_enqueue_same_buffer small_state
      (world_of [select_reply, second_buffer_reply, reply_ok]) select_reply []
      second_buffer_reply [] reply_ok [] all_EINTR_nil all_EINTR_nil (by decide) (by decide)
      rfl).1 rfl (by decide)⟩

/-! ## C14: the read buffer and the conversion -/

theorem init_read_ok (s : State) (size : Nat) (w : World) (a m : Reply) (rest : List Reply)
    (hscript : w.script = a :: m :: rest) (ha : a.ptr ≠ 0) (hm : m.ptr ≠ 0) :
    init_read s size w =
      .ok { s with buffers_ptr := a.ptr, buffers := [⟨m.ptr, size⟩] }
        ((w.after (.calloc 1) a (m :: rest)).after (.malloc size) m rest) := by
  unfold init_read
  rw [bind_eq, call_ok _ w a _ hscript]
  simp only [if_neg ha]
  rw [bind_eq, call_ok _ _ m rest rfl]
  simp [hm, pure_eq, List.modify, List.replicate]

theorem init_format_read_ok (s : State) (w : World) (pre : List Reply) (r a m : Reply)
    (rest : List Reply) (hpre : all_EINTR pre) (hr : r.ret ≠ -1) (ha : a.ptr ≠ 0)
    (hm : m.ptr ≠ 0) (hscript : w.script = pre ++ r :: a :: m :: rest)
    (hio : s.io = IO_METHOD_READ) :
    init_format s w =
      .ok { s with buffers_ptr := a.ptr, buffers := [⟨m.ptr, (paranoia r.arg).sizeimage⟩] }
        (((w.after_xioctl s.fd .VIDIOC_S_FMT (requested_format s) pre r (a :: m :: rest)).after
          (.calloc 1) a (m :: rest)).after (.malloc (paranoia r.arg).sizeimage) m rest) := by
  have hx := xioctl_ok s.fd .VIDIOC_S_FMT (requested_format s) w pre r _ hpre
    (fun h => hr h.1) hscript
  unfold init_format
  rw [bind_eq, hx]
  simp only [if_neg hr]
  unfold init_buffers
  rw [if_pos hio]
  exact init_read_ok s _ _ a m rest rfl ha hm

set_option maxRecDepth 8000 in
/-- A fresh object and a driver that reports a stride of 2^31: `initGrabber` returns with
a read buffer of 4 bytes. -/
theorem initGrabber_stride_overflow_run :
    initGrabber (ofxV4L2 (raw_object false)) "/dev/video0" IO_METHOD_READ 2 2
      (world_of stride_overflow_script) = .ok stride_overflow_state stride_overflow_world := by
  simp [initGrabber, ofxV4L2, raw_object, world_of, stride_overflow_script, bind_eq, pure_eq,
    call, deref, World.after, open_device, die, init_device, xioctl, xioctl_loop, get_errno,
    errno_exit, check_capabilities, init_crop, init_format, init_buffers, init_read,
    start_capturing, requested_format, paranoia, IO_METHOD_READ, IO_METHOD_MMAP,
    IO_METHOD_USERPTR, EINTR, EINVAL, V4L2_CAP_VIDEO_CAPTURE, V4L2_CAP_READWRITE,
    V4L2_CAP_TIMEPERFRAME, V4L2_CAP_STREAMING, toUInt32, toInt32, V4L2_BUF_TYPE_VIDEO_CAPTURE,
    V4L2_PIX_FMT_YUYV, V4L2_FIELD_INTERLACED, stride_overflow_state, stride_overflow_world,
    stride_overflow_reply, read_world]

theorem forLoop_sim {σ τ : Type} (R : σ → τ → Prop) (body1 : Int → σ → σ)
    (body2 : Int → τ → τ) (hbody : ∀ i s t, R s t → R (body1 i s) (body2 i t)) :
    ∀ n s t, R s t → R (forLoop body1 n s) (forLoop body2 n t) := by
  intro n
  induction n with
  | zero => intro s t h; exact h
  | succ n ih => intro s t h; exact hbody _ _ _ (ih s t h)

theorem forLoop_mem {α : Type} (body : Int → List α → List α) (P : Nat → α → Prop)
    (hbody : ∀ (i : Nat) (l : List α) (a : α), a ∈ body (i : Int) l ↔ a ∈ l ∨ P i a) :
    ∀ (n : Nat) (l : List α) (a : α),
      a ∈ forLoop body n l ↔ a ∈ l ∨ ∃ i, i < n ∧ P i a := by
  intro n
  induction n with
  | zero =>
    intro l a
    simp [forLoop]
  | succ n ih =>
    intro l a
    rw [forLoop, hbody, ih]
    constructor
    · rintro ((h | ⟨i, hi, hp⟩) | hp)
      · exact Or.inl h
      · exact Or.inr ⟨i, Nat.lt_succ_of_lt hi, hp⟩
      · exact Or.inr ⟨n, Nat.lt_succ_self n, hp⟩
    · rintro (h | ⟨i, hi, hp⟩)
      · exact Or.inl (Or.inl h)
      · rcases Nat.lt_succ_iff_lt_or_eq.mp hi with h | h
        · exact Or.inl (Or.inr ⟨i, h, hp⟩)
        · subst h; exact Or.inr hp

/-- The conversion is the replay of the offsets its loops visit: `process_rows` performs
exactly the copies `image[a.1] = y[a.2]` for `a` in `conversion_accesses`, in order. -/
theorem process_rows_replay (w h : Int) (y img : Int → Byte) :
    process_rows w h y img = replay y (conversion_accesses w h) img := by
  unfold process_rows conversion_accesses
  refine forLoop_sim (fun im log => im = replay y log img) _ _ ?_ _ img [] rfl
  intro row im log hrow
  refine forLoop_sim (fun im2 log2 => im2 = replay y log2 img) _ _ ?_ _ im log hrow
  intro col im2 log2 hcol
  rw [hcol]
  simp [replay, process_pixel, pixel_access]

/-- The offsets the loops visit are those of the pixels `0 ≤ row < camHeight`,
`0 ≤ col < camWidth`, and no others. -/
theorem conversion_accesses_mem (w h : Int) (a : Int × Int) :
    a ∈ conversion_accesses w h ↔
      ∃ row col : Int, 0 ≤ row ∧ row < h ∧ 0 ≤ col ∧ col < w ∧ a = pixel_access w row col := by
  unfold conversion_accesses
  have inner : ∀ (row : Nat) (l : List (Int × Int)) (a : Int × Int),
      a ∈ forLoop (fun col log2 => log2 ++ [pixel_access w (row : Int) col]) w.toNat l ↔
        a ∈ l ∨ ∃ col : Nat, col < w.toNat ∧ a = pixel_access w (row : Int) (col : Int) := by
    intro row
    exact forLoop_mem _ (fun col a => a = pixel_access w (row : Int) (col : Int))
      (by intro i l a; simp) w.toNat
  have outer := forLoop_mem
    (fun row log =>
      forLoop (fun col log2 => log2 ++ [pixel_access w row col]) w.toNat log)
    (fun row a => ∃ col : Nat, col < w.toNat ∧ a = pixel_access w (row : Int) (col : Int))
    inner h.toNat [] a
  rw [outer]
  constructor
  · rintro (hnil | ⟨row, hrow, col, hcol, rfl⟩)
    · cases hnil
    · exact ⟨(row : Int), (col : Int), by omega, by omega, by omega, by omega, rfl⟩
  · rintro ⟨row, col, hr0, hrh, hc0, hcw, rfl⟩
    refine Or.inr ⟨row.toNat, by omega, col.toNat, by omega, ?_⟩
    rw [Int.toNat_of_nonneg hr0, Int.toNat_of_nonneg hc0]

theorem replay_congr (y y2 : Int → Byte) :
    ∀ (log : List (Int × Int)) (img : Int → Byte),
      (∀ a ∈ log, y a.2 = y2 a.2) → replay y log img = replay y2 log img := by
  intro log
  induction log with
  | nil => intro img _; rfl
  | cons a log ih =>
    intro img h
    have ha : y a.2 = y2 a.2 := h a (List.mem_cons_self _ _)
    show replay y log (store img a.1 (y a.2)) = replay y2 log (store img a.1 (y2 a.2))
    rw [ha]
    exact ih _ (fun b hb => h b (List.mem_cons_of_mem _ hb))

theorem replay_frame (y : Int → Byte) (j : Int) :
    ∀ (log : List (Int × Int)) (img : Int → Byte),
      (∀ a ∈ log, a.1 ≠ j) → replay y log img j = img j := by
  intro log
  induction log with
  | nil => intro img _; rfl
  | cons a log ih =>
    intro img h
    have ha : a.1 ≠ j := h a (List.mem_cons_self _ _)
    show replay y log (store img a.1 (y a.2)) j = img j
    rw [ih _ (fun b hb => h b (List.mem_cons_of_mem _ hb))]
    simp only [store]
    rw [if_neg (fun hj => ha hj.symm)]

theorem pixel_access_exact (w h row col : Int) (hw : 0 < w)
    (hfit : w * h ≤ 1073741824) (hr0 : 0 ≤ row) (hrh : row < h) (hc0 : 0 ≤ col)
    (hcw : col < w) :
    pixel_access w row col = (col + row * w, 2 * (col + row * w)) ∧
    0 ≤ col + row * w ∧ col + row * w < w * h := by
  have ht0 : 0 ≤ row * w := mul_nonneg hr0 (le_of_lt hw)
  have ht1 : row * w ≤ (h - 1) * w := mul_le_mul_of_nonneg_right (by omega) (le_of_lt hw)
  have hexp : (h - 1) * w = w * h - w := by ring
  unfold pixel_access
  generalize row * w = t at *
  generalize w * h = P at *
  have e1 : toInt32 t = t := toInt32_of_range t (by omega) (by omega)
  have e2 : toInt32 (col + t) = col + t := toInt32_of_range _ (by omega) (by omega)
  have e3 : toInt32 (2 * (col + t)) = 2 * (col + t) :=
    toInt32_of_range _ (by omega) (by omega)
  rw [e1, e2, e3]
  exact ⟨rfl, by omega, by omega⟩

/-- When no `int` operation overflows and the source has at least `2*w*h` bytes, the
offsets the loops visit are `(col + row*w, 2*(col + row*w))` for the pixels of the frame,
and all of them lie inside the frame and inside the source. -/
theorem conversion_in_bounds (w h len : Int) (hw : 0 < w)
    (hfit : w * h ≤ 1073741824) (hlen : 2 * w * h ≤ len) :
    (∀ a : Int × Int, a ∈ conversion_accesses w h ↔
      ∃ row col : Int, 0 ≤ row ∧ row < h ∧ 0 ≤ col ∧ col < w ∧
        a = (col + row * w, 2 * (col + row * w))) ∧
    (∀ a ∈ conversion_accesses w h, 0 ≤ a.1 ∧ a.1 < w * h ∧ 0 ≤ a.2 ∧ a.2 < len) := by
  have hassoc : 2 * w * h = 2 * (w * h) := by ring
  constructor
  · intro a
    rw [conversion_accesses_mem]
    constructor
    · rintro ⟨row, col, hr0, hrh, hc0, hcw, rfl⟩
      exact ⟨row, col, hr0, hrh, hc0, hcw,
        (pixel_access_exact w h row col hw hfit hr0 hrh hc0 hcw).1⟩
    · rintro ⟨row, col, hr0, hrh, hc0, hcw, rfl⟩
      exact ⟨row, col, hr0, hrh, hc0, hcw,
        (pixel_access_exact w h row col hw hfit hr0 hrh hc0 hcw).1.symm⟩
  · intro a ha
    rw [conversion_accesses_mem] at ha
    obtain ⟨row, col, hr0, hrh, hc0, hcw, rfl⟩ := ha
    obtain ⟨he, h0, h1⟩ := pixel_access_exact w h row col hw hfit hr0 hrh hc0 hcw
    rw [he]
    refine ⟨h0, h1, ?_, ?_⟩
    · show 0 ≤ 2 * (col + row * w)
      omega
    · show 2 * (col + row * w) < len
      omega

/-- C14, the claim as stated, is false, in two ways.
First, `initGrabber ("/dev/video0", IO_METHOD_READ, 2, 2)` returns on a device whose reply
to the format request (the eighth call) keeps width 2 and height 2, so `w, h > 0` are
returned unchanged and `2*w*h = 8 < 2^32`; the reply reports a stride of 2^31 and an image
size of 4.  The corrected stride times the height is 2^32, which is 0 in `unsigned int`,
so the image size stays 4: the sole read buffer has 4 bytes, fewer than `2*w*h = 8`, and
the source index `2*(col + row*w) = 6` at `col = row = 1` is not below the buffer length.
Second, for a 32769 × 32768 frame that the device returns unchanged with the exact stride
and size, `2*w*h = 2147549184 < 2^32` and the read buffer has `2*w*h` bytes, but at the
last pixel (`row = 32767`, `col = 32768`) the `int` that the code computes for the source
offset is `-2147418114`: the loops of `process_image` visit that offset, which is before
the start of the buffer. -/
theorem read_buffer_too_small_on_stride_overflow :
    (initGrabber (ofxV4L2 (raw_object false)) "/dev/video0" IO_METHOD_READ 2 2
        (world_of stride_overflow_script) = .ok stride_overflow_state stride_overflow_world ∧
      stride_overflow_script[7]? = some stride_overflow_reply ∧
      stride_overflow_world.trace[7]?
        = some (.ioctl 3 .VIDIOC_S_FMT (requested_format stride_overflow_state)) ∧
      (stride_overflow_reply.arg.width : Int) = stride_overflow_state.camWidth ∧
      (stride_overflow_reply.arg.height : Int) = stride_overflow_state.camHeight ∧
      2 * stride_overflow_state.camWidth * stride_overflow_state.camHeight < 4294967296 ∧
      (pool_entry stride_overflow_state 0).length = 4 ∧
      ¬ (2 * stride_overflow_state.camWidth * stride_overflow_state.camHeight
          ≤ ((pool_entry stride_overflow_state 0).length : Int)) ∧
      ¬ (2 * (1 + 1 * stride_overflow_state.camWidth)
          < ((pool_entry stride_overflow_state 0).length : Int))) ∧
    (0 < wide_state.camWidth ∧ 0 < wide_state.camHeight ∧
      2 * wide_state.camWidth * wide_state.camHeight < 4294967296 ∧
      wide_state.imageSize = toInt32 (wide_state.camWidth * wide_state.camHeight) ∧
      (wide_format_reply.arg.width : Int) = wide_state.camWidth ∧
      (wide_format_reply.arg.height : Int) = wide_state.camHeight ∧
      (paranoia wide_format_reply.arg).bytesperline * wide_format_reply.arg.height
        < 4294967296 ∧
      (∃ s1 w1, init_format wide_state
          (world_of [wide_format_reply, { ptr := 4096 }, { ptr := 8192 }]) = .ok s1 w1 ∧
        s1.camWidth = 32769 ∧ s1.camHeight = 32768 ∧
        s1.buffers = [⟨8192, 2147549184⟩] ∧
        2 * wide_state.camWidth * wide_state.camHeight
          ≤ ((pool_entry s1 0).length : Int) ∧
        (∀ y length, (process_image s1 y length).image =
          replay y (conversion_accesses 32769 32768) s1.image)) ∧
      ((1073774591 : Int), (-2147418114 : Int)) ∈ conversion_accesses 32769 32768 ∧
      (∀ (y img : Int → Byte),
        process_pixel 32769 y 32767 32768 img = store img 1073774591 (y (-2147418114))) ∧
      ¬ ((0 : Int) ≤ -2147418114)) := by
  have hsz : (paranoia wide_format_reply.arg).sizeimage = 2147549184 := by decide
  refine ⟨⟨initGrabber_stride_overflow_run, rfl, ?_, by decide, by decide, by decide, rfl,
    by decide, by decide⟩, by decide, by decide, by decide, by decide, by decide, by decide,
    by decide, ?_, ?_, ?_, by decide⟩
  · simp [stride_overflow_world, requested_format, stride_overflow_state, toUInt32,
      V4L2_BUF_TYPE_VIDEO_CAPTURE]
  · refine ⟨_, _, init_format_read_ok wide_state _ [] wide_format_reply { ptr := 4096 }
      { ptr := 8192 } [] all_EINTR_nil (by decide) (by decide) (by decide) rfl rfl, rfl, rfl,
      ?_, ?_, ?_⟩
    · rw [hsz]
    · show 2 * wide_state.camWidth * wide_state.camHeight
        ≤ (((paranoia wide_format_reply.arg).sizeimage : Nat) : Int)
      rw [hsz]
      decide
    · intro y length
      exact process_rows_replay 32769 32768 y _
  · rw [conversion_accesses_mem]
    exact ⟨32767, 32768, by decide, by decide, by decide, by decide, by decide⟩
  · intro y img
    have h1 : toInt32 (32768 + toInt32 (32767 * 32769)) = 1073774591 := by decide
    have h2 : toInt32 (2 * 1073774591) = -2147418114 := by decide
    simp only [process_pixel, h1, h2]

/-- C14, amended: under `IO_METHOD_READ`, if the device returns the requested width `w > 0`
and height `h > 0` unchanged, `w*h ≤ 2^30` (so that every source offset `2*(col + row*w)`
fits an `int`), and the corrected stride times the height does not overflow
(`max(bytesperline, 2*w) * h < 2^32`), then, when the format request and the two
allocations succeed, the sole read buffer has the corrected image size, which is at least
`2*w*h`, and the conversion stays inside its buffers: `process_image` performs exactly the
copies `image[i] = p[j]` for the offsets its loops visit; these are the pairs
`(col + row*w, 2*(col + row*w))` with `0 ≤ col < w`, `0 ≤ row < h`; every source offset
`j` satisfies `0 ≤ j <` buffer length and every output offset `i` satisfies
`0 ≤ i < w*h`, the size of the output frame.  So the frame that `process_image` produces
does not depend on any byte outside the read buffer, and no byte outside the output frame
is changed. -/
theorem read_buffer_covers_conversion (s : State) (w : World) (pre : List Reply)
    (r a m : Reply) (rest : List Reply) (hpre : all_EINTR pre) (hr : r.ret ≠ -1)
    (ha : a.ptr ≠ 0) (hm : m.ptr ≠ 0) (hscript : w.script = pre ++ r :: a :: m :: rest)
    (hio : s.io = IO_METHOD_READ) (hw : 0 < s.camWidth) (hh : 0 < s.camHeight)
    (hfit : s.camWidth * s.camHeight ≤ 1073741824)
    (himg : s.imageSize = toInt32 (s.camWidth * s.camHeight))
    (hwidth : (r.arg.width : Int) = s.camWidth) (hheight : (r.arg.height : Int) = s.camHeight)
    (hstride : (paranoia r.arg).bytesperline * r.arg.height < 4294967296) :
    ∃ s1 w1, init_format s w = .ok s1 w1 ∧
      s1.buffers = [⟨m.ptr, (paranoia r.arg).sizeimage⟩] ∧
      s1.camWidth = s.camWidth ∧ s1.camHeight = s.camHeight ∧
      s1.imageSize = s.camWidth * s.camHeight ∧
      2 * s.camWidth * s.camHeight ≤ ((pool_entry s1 0).length : Int) ∧
      (∀ (y : Int → Byte) (length : Int),
        (process_image s1 y length).image =
          replay y (conversion_accesses s1.camWidth s1.camHeight) s1.image) ∧
      (∀ a : Int × Int, a ∈ conversion_accesses s1.camWidth s1.camHeight ↔
        ∃ row col : Int, 0 ≤ row ∧ row < s.camHeight ∧ 0 ≤ col ∧ col < s.camWidth ∧
          a = (col + row * s.camWidth, 2 * (col + row * s.camWidth))) ∧
      (∀ a ∈ conversion_accesses s1.camWidth s1.camHeight,
        0 ≤ a.1 ∧ a.1 < s1.imageSize ∧
        0 ≤ a.2 ∧ a.2 < ((pool_entry s1 0).length : Int)) ∧
      (∀ (y y2 : Int → Byte) (length : Int),
        (∀ k : Int, 0 ≤ k → k < ((pool_entry s1 0).length : Int) → y k = y2 k) →
        (process_image s1 y length).image = (process_image s1 y2 length).image) ∧
      (∀ (y : Int → Byte) (length j : Int), ¬ (0 ≤ j ∧ j < s1.imageSize) →
        (process_image s1 y length).image j = s1.image j) := by
  have hlen : 2 * s.camWidth * s.camHeight ≤ (((paranoia r.arg).sizeimage : Nat) : Int) := by
    have hb := paranoia_bytesperline r.arg
    have hs := paranoia_sizeimage r.arg
    rw [Nat.mod_eq_of_lt hstride] at hs
    have hassoc : 2 * s.camWidth * s.camHeight = 2 * (s.camWidth * s.camHeight) := by ring
    have h2w : 2 * s.camWidth ≤ 2 * s.camWidth * s.camHeight := by
      have : 2 * s.camWidth * 1 ≤ 2 * s.camWidth * s.camHeight :=
        mul_le_mul_of_nonneg_left (by omega) (by omega)
      omega
    have hbw : 2 * r.arg.width ≤ (paranoia r.arg).bytesperline := by
      rw [hb]
      have : r.arg.width * 2 < 4294967296 := by omega
      rw [Nat.mod_eq_of_lt this]
      omega
    have hprod : 2 * r.arg.width * r.arg.height
        ≤ (paranoia r.arg).bytesperline * r.arg.height :=
      Nat.mul_le_mul_right _ hbw
    have hle : (paranoia r.arg).bytesperline * r.arg.height ≤ (paranoia r.arg).sizeimage := by
      rw [hs]; exact le_max_right _ _
    have hcast : ((2 * r.arg.width * r.arg.height : Nat) : Int)
        = 2 * s.camWidth * s.camHeight := by
      push_cast; rw [hwidth, hheight]
    have := le_trans hprod hle
    omega
  have hpos : 0 < s.camWidth * s.camHeight := mul_pos hw hh
  have himg2 : s.imageSize = s.camWidth * s.camHeight := by
    rw [himg]
    exact toInt32_of_range _ (by omega) (by omega)
  obtain ⟨hmem, hbound⟩ := conversion_in_bounds s.camWidth s.camHeight
    (((paranoia r.arg).sizeimage : Nat) : Int) hw hfit hlen
  have hreplay : ∀ (y : Int → Byte) (img : Int → Byte),
      process_rows s.camWidth s.camHeight y img
        = replay y (conversion_accesses s.camWidth s.camHeight) img :=
    fun y img => process_rows_replay s.camWidth s.camHeight y img
  refine ⟨_, _, init_format_read_ok s w pre r a m rest hpre hr ha hm hscript hio, rfl, rfl,
    rfl, himg2, hlen, ?_, hmem, ?_, ?_, ?_⟩
  · intro y length
    exact hreplay y s.image
  · intro b hb
    have := hbound b hb
    show 0 ≤ b.1 ∧ b.1 < s.imageSize ∧ 0 ≤ b.2 ∧
      b.2 < (((paranoia r.arg).sizeimage : Nat) : Int)
    rw [himg2]
    exact this
  · intro y y2 length hy
    show process_rows s.camWidth s.camHeight y s.image
      = process_rows s.camWidth s.camHeight y2 s.image
    rw [hreplay, hreplay]
    apply replay_congr
    intro b hb
    have := hbound b hb
    exact hy b.2 this.2.2.1 this.2.2.2
  · intro y length j hj
    show process_rows s.camWidth s.camHeight y s.image j = s.image j
    rw [hreplay]
    apply replay_frame
    intro b hb hbj
    have := hbound b hb
    apply hj
    rw [himg2, ← hbj]
    exact ⟨this.1, this.2.1⟩

/-- Witness of C14 amended: a device that keeps 2 × 2 and reports stride 4 and size 8. -/
theorem read_buffer_covers_conversion_witness :
    (all_EINTR [] ∧ plain_format_reply.ret ≠ -1 ∧
      (world_of [plain_format_reply, { ptr := 4096 }, { ptr := 8192 }]).script
        = [] ++ plain_format_reply :: { ptr := 4096 } :: { ptr := 8192 } :: [] ∧
      small_read_state.io = IO_METHOD_READ ∧ 0 < small_read_state.camWidth ∧
      0 < small_read_state.camHeight ∧
      small_read_state.camWidth * small_read_state.camHeight ≤ 1073741824 ∧
      small_read_state.imageSize
        = toInt32 (small_read_state.camWidth * small_read_state.camHeight) ∧
      (plain_format_reply.arg.width : Int) = small_read_state.camWidth ∧
      (plain_format_reply.arg.height : Int) = small_read_state.camHeight ∧
      (paranoia plain_format_reply.arg).bytesperline * plain_format_reply.arg.height
        < 4294967296) ∧
    ∃ s1 w1, init_format small_read_state
        (world_of [plain_format_reply, { ptr := 4096 }, { ptr := 8192 }]) = .ok s1 w1 ∧
      s1.buffers = [⟨8192, (paranoia plain_format_reply.arg).sizeimage⟩] ∧
      2 * small_read_state.camWidth * small_read_state.camHeight
        ≤ ((pool_entry s1 0).length : Int) ∧
      (∀ a ∈ conversion_accesses s1.camWidth s1.camHeight,
        0 ≤ a.1 ∧ a.1 < s1.imageSize ∧
        0 ≤ a.2 ∧ a.2 < ((pool_entry s1 0).length : Int)) := by
  obtain ⟨s1, w1, h1, h2, -, -, -, h6, -, -, h9, -⟩ :=
    read_buffer_covers_conversion small_read_state
      (world_of [plain_format_reply, { ptr := 4096 }, { ptr := 8192 }]) []
      plain_format_reply { ptr := 4096 } { ptr := 8192 } [] all_EINTR_nil (by decide)
      (by decide) (by decide) rfl rfl (by decide) (by decide) (by decide) (by decide)
      (by decide) (by decide) (by decide)
  exact ⟨⟨all_EINTR_nil, by decide, rfl, rfl, by decide, by decide, by decide, by decide,
    by decide, by decide, by decide⟩, s1, w1, h1, h2, h6, h9⟩

/-! ## C12: allocate, then release -/

theorem modify_at_length {α : Type} (f : α → α) (b : α) (tl : List α) :
    ∀ done : List α, (done ++ b :: tl).modify f done.length = done ++ f b :: tl := by
  intro done
  induction done with
  | nil => simp
  | cons a done ih => simp [ih]

theorem getD_at_length {α : Type} (d b : α) (tl : List α) :
    ∀ done : List α, (done ++ b :: tl).getD done.length d = b := by
  intro done
  induction done with
  | nil => simp
  | cons a done ih => simpa using ih

theorem countP_ioctl_allocation (fd : Int) (request : Request) (l : List Arg) :
    (l.map (Event.ioctl fd request)).countP Event.is_allocation = 0 := by
  rw [List.countP_eq_zero]
  intro e he
  rw [List.mem_map] at he
  obtain ⟨a, -, rfl⟩ := he
  simp [Event.is_allocation]

theorem countP_ioctl_release (fd : Int) (request : Request) (l : List Arg) :
    (l.map (Event.ioctl fd request)).countP Event.is_release = 0 := by
  rw [List.countP_eq_zero]
  intro e he
  rw [List.mem_map] at he
  obtain ⟨a, -, rfl⟩ := he
  simp [Event.is_release]

theorem after_xioctl_counts (w : World) (fd : Int) (request : Request) (arg : Arg)
    (pre : List Reply) (r : Reply) (rest : List Reply) :
    (w.after_xioctl fd request arg pre r rest).trace.countP Event.is_allocation
      = w.trace.countP Event.is_allocation ∧
    (w.after_xioctl fd request arg pre r rest).trace.countP Event.is_release
      = w.trace.countP Event.is_release := by
  unfold World.after_xioctl
  simp only [List.countP_append, countP_ioctl_allocation, countP_ioctl_release, Nat.add_zero,
    and_self]

theorem init_mmap_body_ok (i : Nat) (s : State) (w : World) (pre : List Reply) (q m : Reply)
    (rest : List Reply) (hpre : all_EINTR pre) (hq : q.ret ≠ -1) (hm : m.ptr ≠ MAP_FAILED)
    (hscript : w.script = pre ++ q :: m :: rest) :
    init_mmap_body i s w =
      .ok (s.with_entry i ⟨m.ptr, q.arg.length⟩)
        ((w.after_xioctl s.fd .VIDIOC_QUERYBUF
            { type := V4L2_BUF_TYPE_VIDEO_CAPTURE, memory := V4L2_MEMORY_MMAP, index := i }
            pre q (m :: rest)).after (.mmap q.arg.length s.fd q.arg.m) m rest) := by
  have hx := xioctl_ok s.fd .VIDIOC_QUERYBUF
    { type := V4L2_BUF_TYPE_VIDEO_CAPTURE, memory := V4L2_MEMORY_MMAP, index := i } w pre q _
    hpre (fun h => hq h.1) hscript
  unfold init_mmap_body
  rw [bind_eq, hx]
  simp only [if_neg hq]
  rw [bind_eq, call_ok _ _ m rest rfl]
  simp only [if_neg hm]
  rfl

theorem with_entry_at_length (s : State) (done tl : List buffer) (b : buffer)
    (hb : s.buffers = done ++ ⟨0, 0⟩ :: tl) :
    (s.with_entry done.length b).buffers = (done ++ [b]) ++ tl := by
  unfold State.with_entry
  simp only [hb, modify_at_length]
  simp

theorem init_mmap_loop_ok :
    ∀ (qs : List (List Reply × Reply × Reply)) (done : List buffer) (s : State) (w : World)
      (rest : List Reply),
      good_mappings qs → w.script = mapping_replies qs ++ rest →
      s.buffers = done ++ List.replicate qs.length ⟨0, 0⟩ →
      ∃ s1 w1, forLoopM init_mmap_body qs.length done.length s w = .ok s1 w1 ∧
        s1.buffers = done ++ mapped_pool qs ∧ s1.buffers_ptr = s.buffers_ptr ∧
        s1.io = s.io ∧ w1.script = rest ∧
        w1.trace.countP Event.is_allocation
          = w.trace.countP Event.is_allocation + qs.length ∧
        w1.trace.countP Event.is_release = w.trace.countP Event.is_release := by
  intro qs
  induction qs with
  | nil =>
    intro done s w rest _ hscript hb
    refine ⟨s, w, rfl, ?_, rfl, rfl, ?_, rfl, rfl⟩
    · simpa [mapped_pool] using hb
    · simpa [mapping_replies] using hscript
  | cons t qs ih =>
    intro done s w rest hgood hscript hb
    obtain ⟨pre, q, m⟩ := t
    have ht := hgood (pre, q, m) (List.mem_cons_self _ _)
    have hgood2 : good_mappings qs := fun x hx => hgood x (List.mem_cons_of_mem _ hx)
    have hscript2 : w.script = pre ++ q :: m :: (mapping_replies qs ++ rest) := by
      rw [hscript]; simp [mapping_replies]
    have hbody := init_mmap_body_ok done.length s w pre q m (mapping_replies qs ++ rest)
      ht.1 ht.2.1 ht.2.2 hscript2
    have hb2 : (s.with_entry done.length ⟨m.ptr, q.arg.length⟩).buffers
        = (done ++ [⟨m.ptr, q.arg.length⟩]) ++ List.replicate qs.length ⟨0, 0⟩ :=
      with_entry_at_length s done _ _ (by rw [hb]; rfl)
    obtain ⟨s1, w1, hloop, h1, h2, h3, h4, h5, h6⟩ :=
      ih (done ++ [⟨m.ptr, q.arg.length⟩]) (s.with_entry done.length ⟨m.ptr, q.arg.length⟩)
        ((w.after_xioctl s.fd .VIDIOC_QUERYBUF
            { type := V4L2_BUF_TYPE_VIDEO_CAPTURE, memory := V4L2_MEMORY_MMAP,
              index := done.length }
            pre q (m :: (mapping_replies qs ++ rest))).after
          (.mmap q.arg.length s.fd q.arg.m) m (mapping_replies qs ++ rest))
        rest hgood2 rfl hb2
    have hlen : (done ++ [(⟨m.ptr, q.arg.length⟩ : buffer)]).length = done.length + 1 := by
      simp
    rw [hlen] at hloop
    refine ⟨s1, w1, ?_, ?_, h2, h3, h4, ?_, ?_⟩
    · show forLoopM init_mmap_body (qs.length + 1) done.length s w = _
      rw [forLoopM, bind_eq, hbody]
      exact hloop
    · rw [h1]; simp [mapped_pool]
    · rw [h5]
      have hc := (after_xioctl_counts w s.fd .VIDIOC_QUERYBUF
        { type := V4L2_BUF_TYPE_VIDEO_CAPTURE, memory := V4L2_MEMORY_MMAP,
          index := done.length } pre q (m :: (mapping_replies qs ++ rest))).1
      simp only [World.after, List.countP_append, hc, List.length_cons]
      simp [Event.is_allocation]
      omega
    · rw [h6]
      have hc := (after_xioctl_counts w s.fd .VIDIOC_QUERYBUF
        { type := V4L2_BUF_TYPE_VIDEO_CAPTURE, memory := V4L2_MEMORY_MMAP,
          index := done.length } pre q (m :: (mapping_replies qs ++ rest))).2
      simp only [World.after, List.countP_append, hc]
      simp [Event.is_release]

theorem munmap_loop_ok :
    ∀ (bs done : List buffer) (s : State) (w : World) (us rest : List Reply),
      s.buffers = done ++ bs → us.length = bs.length → (∀ u ∈ us, u.ret ≠ -1) →
      w.script = us ++ rest →
      ∃ w1, forLoopM (uninit_munmap s) bs.length done.length () w = .ok () w1 ∧
        w1.trace = w.trace ++ bs.map (fun b => Event.munmap b.start b.length) ∧
        w1.script = rest := by
  intro bs
  induction bs with
  | nil =>
    intro done s w us rest _ hlen _ hscript
    have hus : us = [] := List.eq_nil_of_length_eq_zero hlen
    subst hus
    exact ⟨w, rfl, by simp, by simpa using hscript⟩
  | cons b bs ih =>
    intro done s w us rest hb hlen hgood hscript
    cases us with
    | nil => simp at hlen
    | cons u us =>
      have hu : u.ret ≠ -1 := hgood u (List.mem_cons_self _ _)
      have hgood2 : ∀ x ∈ us, x.ret ≠ -1 := fun x hx => hgood x (List.mem_cons_of_mem _ hx)
      have hget : s.buffers.getD done.length ⟨0, 0⟩ = b := by
        rw [hb]; exact getD_at_length _ _ _ _
      have hbody : uninit_munmap s done.length () w =
          .ok () (w.after (.munmap b.start b.length) u (us ++ rest)) := by
        unfold uninit_munmap
        rw [bind_eq, hget, call_ok _ w u (us ++ rest) (by rw [hscript]; rfl)]
        simp only [if_neg hu]
        rfl
      obtain ⟨w1, hloop, htrace, hrest⟩ :=
        ih (done ++ [b]) s (w.after (.munmap b.start b.length) u (us ++ rest)) us rest
          (by rw [hb]; simp) (by simpa using hlen) hgood2 rfl
      have hlen2 : (done ++ [b]).length = done.length + 1 := by simp
      rw [hlen2] at hloop
      refine ⟨w1, ?_, ?_, hrest⟩
      · show forLoopM (uninit_munmap s) (bs.length + 1) done.length () w = _
        rw [forLoopM, bind_eq, hbody]
        exact hloop
      · rw [htrace]; simp [World.after]

theorem free_loop_ok :
    ∀ (bs done : List buffer) (s : State) (w : World),
      s.buffers = done ++ bs →
      ∃ w1, forLoopM (uninit_free s) bs.length done.length () w = .ok () w1 ∧
        w1.trace = w.trace ++ bs.map (fun b => Event.free b.start) ∧
        w1.script = w.script := by
  intro bs
  induction bs with
  | nil =>
    intro done s w _
    exact ⟨w, rfl, by simp, rfl⟩
  | cons b bs ih =>
    intro done s w hb
    have hget : s.buffers.getD done.length ⟨0, 0⟩ = b := by
      rw [hb]; exact getD_at_length _ _ _ _
    have hbody : uninit_free s done.length () w = .ok () (w.note (.free b.start)) := by
      unfold uninit_free
      rw [hget]
      rfl
    obtain ⟨w1, hloop, htrace, hrest⟩ :=
      ih (done ++ [b]) s (w.note (.free b.start)) (by rw [hb]; simp)
    have hlen2 : (done ++ [b]).length = done.length + 1 := by simp
    rw [hlen2] at hloop
    refine ⟨w1, ?_, ?_, hrest⟩
    · show forLoopM (uninit_free s) (bs.length + 1) done.length () w = _
      rw [forLoopM, bind_eq, hbody]
      exact hloop
    · rw [htrace]; simp [World.note]

theorem uninit_device_read_ok (s : State) (w : World) (hio : s.io = IO_METHOD_READ) :
    uninit_device s w =
      .ok () ((w.note (.free (pool_entry s 0).start)).note (.free s.buffers_ptr)) := by
  unfold uninit_device
  simp only [hio, if_true, bind_eq, emit, pool_entry]

theorem uninit_device_mmap_ok (s : State) (w : World) (us rest : List Reply)
    (hio : s.io = IO_METHOD_MMAP) (hn : toUInt32 s.n_buffers = s.buffers.length)
    (hlen : us.length = s.buffers.length) (hgood : ∀ u ∈ us, u.ret ≠ -1)
    (hscript : w.script = us ++ rest) :
    ∃ w2, uninit_device s w = .ok () w2 ∧
      w2.trace = w.trace ++ (s.buffers.map (fun b => Event.munmap b.start b.length) ++
        [.free s.buffers_ptr]) ∧
      w2.script = rest := by
  obtain ⟨w1, hloop, htrace, hrest⟩ :=
    munmap_loop_ok s.buffers [] s w us rest rfl hlen hgood hscript
  refine ⟨w1.note (.free s.buffers_ptr), ?_, ?_, hrest⟩
  · unfold uninit_device
    have hne : s.io ≠ IO_METHOD_READ := by rw [hio]; decide
    simp only [if_neg hne, if_pos hio, bind_eq, hn]
    rw [show ([] : List buffer).length = 0 from rfl] at hloop
    rw [hloop]
    rfl
  · simp [World.note, htrace]

theorem uninit_device_userptr_ok (s : State) (w : World)
    (hio : s.io = IO_METHOD_USERPTR) (hn : toUInt32 s.n_buffers = s.buffers.length) :
    ∃ w2, uninit_device s w = .ok () w2 ∧
      w2.trace = w.trace ++ (s.buffers.map (fun b => Event.free b.start) ++
        [.free s.buffers_ptr]) ∧
      w2.script = w.script := by
  obtain ⟨w1, hloop, htrace, hrest⟩ := free_loop_ok s.buffers [] s w rfl
  refine ⟨w1.note (.free s.buffers_ptr), ?_, ?_, hrest⟩
  · unfold uninit_device
    have hne : s.io ≠ IO_METHOD_READ := by rw [hio]; decide
    have hne2 : s.io ≠ IO_METHOD_MMAP := by rw [hio]; decide
    simp only [if_neg hne, if_neg hne2, if_pos hio, bind_eq, hn]
    rw [show ([] : List buffer).length = 0 from rfl] at hloop
    rw [hloop]
    rfl
  · simp [World.note, htrace]

theorem init_mmap_ok (s : State) (w : World) (pre : List Reply) (r a : Reply)
    (qs : List (List Reply × Reply × Reply)) (rest : List Reply) (hpre : all_EINTR pre)
    (hr : r.ret ≠ -1) (hcount : r.arg.count = qs.length) (h2 : 2 ≤ qs.length)
    (ha : a.ptr ≠ 0) (hgood : good_mappings qs)
    (hscript : w.script = pre ++ r :: a :: (mapping_replies qs ++ rest)) :
    ∃ s1 w1, init_mmap s w = .ok s1 w1 ∧
      s1.buffers = mapped_pool qs ∧ s1.buffers_ptr = a.ptr ∧ s1.io = s.io ∧
      s1.n_buffers = toInt32 qs.length ∧ w1.script = rest ∧
      w1.trace.countP Event.is_allocation
        = w.trace.countP Event.is_allocation + (qs.length + 1) ∧
      w1.trace.countP Event.is_release = w.trace.countP Event.is_release := by
  have hx := xioctl_ok s.fd .VIDIOC_REQBUFS mmap_request w pre r _ hpre (fun h => hr h.1)
    hscript
  obtain ⟨s1, w1, hloop, h1, hp, hio, hs, hal, hre⟩ :=
    init_mmap_loop_ok qs []
      { s with buffers_ptr := a.ptr, buffers := List.replicate qs.length ⟨0, 0⟩ }
      ((w.after_xioctl s.fd .VIDIOC_REQBUFS mmap_request pre r
          (a :: (mapping_replies qs ++ rest))).after (.calloc qs.length) a
        (mapping_replies qs ++ rest))
      rest hgood rfl (by simp)
  have hc := after_xioctl_counts w s.fd .VIDIOC_REQBUFS mmap_request pre r
    (a :: (mapping_replies qs ++ rest))
  refine ⟨{ s1 with n_buffers := toInt32 qs.length }, w1, ?_, ?_, hp, hio, rfl, hs, ?_, ?_⟩
  · unfold init_mmap
    rw [bind_eq, hx]
    simp only [if_neg hr, hcount, if_neg (not_lt.mpr h2)]
    unfold init_mmap_alloc
    rw [bind_eq, call_ok _ _ a (mapping_replies qs ++ rest) rfl]
    simp only [if_neg ha]
    rw [bind_eq]
    rw [show ([] : List buffer).length = 0 from rfl] at hloop
    rw [hloop]
    rfl
  · simpa using h1
  · rw [hal]
    simp only [World.after, List.countP_append, hc.1]
    simp [Event.is_allocation]
    omega
  · rw [hre]
    simp only [World.after, List.countP_append, hc.2]
    simp [Event.is_release]

theorem init_userp_ok (s : State) (size : Nat) (w : World) (g : Reply) (pre : List Reply)
    (rq a m0 m1 m2 m3 : Reply) (rest : List Reply) (hpre : all_EINTR pre)
    (hrq : rq.ret ≠ -1) (ha : a.ptr ≠ 0) (h0 : m0.ptr ≠ 0) (h1 : m1.ptr ≠ 0)
    (h2 : m2.ptr ≠ 0) (h3 : m3.ptr ≠ 0)
    (hscript : w.script = g :: (pre ++ rq :: a :: m0 :: m1 :: m2 :: m3 :: rest)) :
    init_userp s size w =
      .ok { s with
            buffers_ptr := a.ptr,
            buffers := [⟨m0.ptr, round_to_page size (toUInt32 g.ret)⟩,
                        ⟨m1.ptr, round_to_page size (toUInt32 g.ret)⟩,
                        ⟨m2.ptr, round_to_page size (toUInt32 g.ret)⟩,
                        ⟨m3.ptr, round_to_page size (toUInt32 g.ret)⟩],
            n_buffers := 4 }
        { script := rest,
          trace := ((w.after .getpagesize g
              (pre ++ rq :: a :: m0 :: m1 :: m2 :: m3 :: rest)).after_xioctl s.fd
              .VIDIOC_REQBUFS userp_request pre rq (a :: m0 :: m1 :: m2 :: m3 :: rest)).trace ++
            [.calloc 4,
             .memalign (toUInt32 g.ret) (round_to_page size (toUInt32 g.ret)),
             .memalign (toUInt32 g.ret) (round_to_page size (toUInt32 g.ret)),
             .memalign (toUInt32 g.ret) (round_to_page size (toUInt32 g.ret)),
             .memalign (toUInt32 g.ret) (round_to_page size (toUInt32 g.ret))],
          errno := m3.errno, mem := m3.mem } := by
  have hg := call_ok .getpagesize w g _ hscript
  have hx := xioctl_ok s.fd .VIDIOC_REQBUFS userp_request (w.after .getpagesize g _) pre rq
    (a :: m0 :: m1 :: m2 :: m3 :: rest) hpre (fun h => hrq h.1) rfl
  unfold init_userp
  rw [bind_eq, hg]
  simp only
  rw [bind_eq, hx]
  simp only [if_neg hrq]
  simp [bind_eq, pure_eq, call, World.after_xioctl, World.after, forLoopM, init_userp_body,
    ha, h0, h1, h2, h3, List.modify, List.replicate]

theorem init_userp_summary (s : State) (size : Nat) (w : World) (g : Reply)
    (pre : List Reply) (rq a m0 m1 m2 m3 : Reply) (rest : List Reply) (hpre : all_EINTR pre)
    (hrq : rq.ret ≠ -1) (ha : a.ptr ≠ 0) (h0 : m0.ptr ≠ 0) (h1 : m1.ptr ≠ 0)
    (h2 : m2.ptr ≠ 0) (h3 : m3.ptr ≠ 0)
    (hscript : w.script = g :: (pre ++ rq :: a :: m0 :: m1 :: m2 :: m3 :: rest)) :
    ∃ s1 w1, init_userp s size w = .ok s1 w1 ∧
      s1.buffers = [⟨m0.ptr, round_to_page size (toUInt32 g.ret)⟩,
                    ⟨m1.ptr, round_to_page size (toUInt32 g.ret)⟩,
                    ⟨m2.ptr, round_to_page size (toUInt32 g.ret)⟩,
                    ⟨m3.ptr, round_to_page size (toUInt32 g.ret)⟩] ∧
      s1.buffers_ptr = a.ptr ∧ s1.io = s.io ∧ s1.n_buffers = 4 ∧ w1.script = rest ∧
      w1.trace.countP Event.is_allocation = w.trace.countP Event.is_allocation + 5 ∧
      w1.trace.countP Event.is_release = w.trace.countP Event.is_release := by
  have hc := after_xioctl_counts (w.after .getpagesize g
    (pre ++ rq :: a :: m0 :: m1 :: m2 :: m3 :: rest)) s.fd .VIDIOC_REQBUFS userp_request
    pre rq (a :: m0 :: m1 :: m2 :: m3 :: rest)
  refine ⟨_, _, init_userp_ok s size w g pre rq a m0 m1 m2 m3 rest hpre hrq ha h0 h1 h2 h3
    hscript, rfl, rfl, rfl, rfl, rfl, ?_, ?_⟩
  · show List.countP Event.is_allocation
      ((World.after_xioctl _ _ _ _ _ _ _).trace ++ _) = _
    rw [List.countP_append, hc.1]
    simp [World.after, Event.is_allocation]
  · show List.countP Event.is_release
      ((World.after_xioctl _ _ _ _ _ _ _).trace ++ _) = _
    rw [List.countP_append, hc.2]
    simp [World.after, Event.is_release]

theorem toUInt32_toInt32 (n : Nat) (hn : n < 2147483648) : toUInt32 (toInt32 n) = n := by
  unfold toUInt32 toInt32
  omega

/-- C12: for each of the three strategies, when the allocation succeeds, `uninit_device`
run right after it returns and its calls are exactly one release for each region the
allocation created, in the order of creation, followed by `free` of the pool array:
`free` of the read buffer under `IO_METHOD_READ`; under `IO_METHOD_MMAP`, for a granted
count `n` with `2 ≤ n < 2^31` (`n_buffers` is an `int`), the `n` calls `munmap (start,
length)` with the address each `mmap` returned and the length each query reported, all of
which succeed; the 4 calls `free` under `IO_METHOD_USERPTR`.  The number of regions held
goes up by 2, `n + 1` and 5 in the allocation and is back at its value from before the
allocation after `uninit_device`. -/
theorem allocate_then_release (s : State) (w : World) :
    (∀ (size : Nat) (a m : Reply) (rest : List Reply),
      s.io = IO_METHOD_READ → a.ptr ≠ 0 → m.ptr ≠ 0 → w.script = a :: m :: rest →
      ∃ s1 w1 w2, init_read s size w = .ok s1 w1 ∧ uninit_device s1 w1 = .ok () w2 ∧
        w2.trace = w1.trace ++ [.free m.ptr, .free a.ptr] ∧
        live w1.trace = live w.trace + 2 ∧ live w2.trace = live w.trace) ∧
    (∀ (pre : List Reply) (r a : Reply) (qs : List (List Reply × Reply × Reply))
      (us rest : List Reply),
      s.io = IO_METHOD_MMAP → all_EINTR pre → r.ret ≠ -1 → r.arg.count = qs.length →
      2 ≤ qs.length → qs.length < 2147483648 → a.ptr ≠ 0 → good_mappings qs →
      us.length = qs.length → (∀ u ∈ us, u.ret ≠ -1) →
      w.script = pre ++ r :: a :: (mapping_replies qs ++ (us ++ rest)) →
      ∃ s1 w1 w2, init_mmap s w = .ok s1 w1 ∧ s1.buffers = mapped_pool qs ∧
        uninit_device s1 w1 = .ok () w2 ∧
        w2.trace = w1.trace ++
          ((mapped_pool qs).map (fun b => Event.munmap b.start b.length) ++ [.free a.ptr]) ∧
        live w1.trace = live w.trace + (qs.length + 1) ∧ live w2.trace = live w.trace) ∧
    (∀ (size : Nat) (g : Reply) (pre : List Reply) (rq a m0 m1 m2 m3 : Reply)
      (rest : List Reply),
      s.io = IO_METHOD_USERPTR → all_EINTR pre → rq.ret ≠ -1 → a.ptr ≠ 0 →
      m0.ptr ≠ 0 → m1.ptr ≠ 0 → m2.ptr ≠ 0 → m3.ptr ≠ 0 →
      w.script = g :: (pre ++ rq :: a :: m0 :: m1 :: m2 :: m3 :: rest) →
      ∃ s1 w1 w2, init_userp s size w = .ok s1 w1 ∧ uninit_device s1 w1 = .ok () w2 ∧
        w2.trace = w1.trace ++
          [.free m0.ptr, .free m1.ptr, .free m2.ptr, .free m3.ptr, .free a.ptr] ∧
        live w1.trace = live w.trace + 5 ∧ live w2.trace = live w.trace) := by
  refine ⟨?_, ?_, ?_⟩
  · intro size a m rest hio ha hm hscript
    refine ⟨_, _, _, init_read_ok s size w a m rest hscript ha hm,
      uninit_device_read_ok _ _ hio, ?_, ?_, ?_⟩
    · simp [World.note, World.after, pool_entry]
    · simp [live, World.after, List.countP_append, Event.is_allocation, Event.is_release]
      ring
    · simp [live, World.note, World.after, pool_entry, List.countP_append,
        Event.is_allocation, Event.is_release]
  · intro pre r a qs us rest hio hpre hr hcount h2 hlt ha hgood hlen hus hscript
    obtain ⟨s1, w1, hinit, hb, hp, hio1, hn, hs, hal, hre⟩ :=
      init_mmap_ok s w pre r a qs (us ++ rest) hpre hr hcount h2 ha hgood hscript
    have hn2 : toUInt32 s1.n_buffers = s1.buffers.length := by
      rw [hn, hb, toUInt32_toInt32 _ hlt]; simp [mapped_pool]
    obtain ⟨w2, hun, htrace, -⟩ :=
      uninit_device_mmap_ok s1 w1 us rest (hio1.trans hio) hn2
        (by rw [hlen, hb]; simp [mapped_pool]) hus hs
    rw [hb, hp] at htrace
    refine ⟨s1, w1, w2, hinit, hb, hun, htrace, ?_, ?_⟩
    · unfold live
      rw [hal, hre]
      push_cast
      ring
    · unfold live
      rw [htrace]
      simp only [List.countP_append, hal, hre]
      have e1 : ((mapped_pool qs).map (fun b => Event.munmap b.start b.length)).countP
          Event.is_allocation = 0 := by
        rw [List.countP_eq_zero]
        intro e he
        rw [List.mem_map] at he
        obtain ⟨b, -, rfl⟩ := he
        simp [Event.is_allocation]
      have e2 : ((mapped_pool qs).map (fun b => Event.munmap b.start b.length)).countP
          Event.is_release = qs.length := by
        rw [List.countP_eq_length.mpr]
        · simp [mapped_pool]
        · intro e he
          rw [List.mem_map] at he
          obtain ⟨b, -, rfl⟩ := he
          rfl
      rw [e1, e2]
      simp [Event.is_allocation, Event.is_release]
  · intro size g pre rq a m0 m1 m2 m3 rest hio hpre hrq ha h0 h1 h2 h3 hscript
    obtain ⟨s1, w1, hinit, hb, hp, hio1, hn, -, hal, hre⟩ :=
      init_userp_summary s size w g pre rq a m0 m1 m2 m3 rest hpre hrq ha h0 h1 h2 h3 hscript
    have hn2 : toUInt32 s1.n_buffers = s1.buffers.length := by
      rw [hn, hb]; rfl
    obtain ⟨w2, hun, htrace, -⟩ := uninit_device_userptr_ok s1 w1 (hio1.trans hio) hn2
    rw [hb, hp] at htrace
    refine ⟨s1, w1, w2, hinit, hun, ?_, ?_, ?_⟩
    · rw [htrace]; simp
    · unfold live
      rw [hal, hre]
      push_cast
      ring
    · unfold live
      rw [htrace]
      simp only [List.countP_append, hal, hre]
      simp [Event.is_allocation, Event.is_release]

theorem two_mappings_good : good_mappings two_mappings := by
  intro t ht
  simp only [two_mappings, List.mem_cons, List.mem_singleton, List.not_mem_nil, or_false] at ht
  rcases ht with rfl | rfl
  · exact ⟨all_EINTR_nil, by decide, by decide⟩
  · exact ⟨all_EINTR_nil, by decide, by decide⟩

/-- Witness of C12: two buffers are mapped and then unmapped. -/
theorem allocate_then_release_witness :
    (small_state.io = IO_METHOD_MMAP ∧ all_EINTR [] ∧ two_buffers_reply.ret ≠ -1 ∧
      two_buffers_reply.arg.count = two_mappings.length ∧ 2 ≤ two_mappings.length ∧
      two_mappings.length < 2147483648 ∧ good_mappings two_mappings ∧
      (∀ u ∈ [reply_ok, reply_ok], u.ret ≠ -1)) ∧
    ∃ s1 w1 w2, init_mmap small_state two_mappings_world = .ok s1 w1 ∧
      s1.buffers = mapped_pool two_mappings ∧
      uninit_device s1 w1 = .ok () w2 ∧
      w2.trace = w1.trace ++
        ((mapped_pool two_mappings).map (fun b => Event.munmap b.start b.length) ++
          [.free 4096]) ∧
      live w1.trace = live two_mappings_world.trace + (two_mappings.length + 1) ∧
      live w2.trace = live two_mappings_world.trace := by
  have hus : ∀ u ∈ [reply_ok, reply_ok], u.ret ≠ -1 := by
    intro u hu
    simp only [List.mem_cons, List.mem_singleton, List.not_mem_nil, or_false, or_self] at hu
    subst hu
    decide
  exact ⟨⟨rfl, all_EINTR_nil, by decide, rfl, by decide, by decide, two_mappings_good, hus⟩,
    (allocate_then_release small_state two_mappings_world).2.1 [] two_buffers_reply
      { ptr := 4096 } two_mappings [reply_ok, reply_ok] [] rfl all_EINTR_nil (by decide) rfl
      (by decide) (by decide) (by decide) two_mappings_good rfl hus rfl⟩

end OfxV4L2
